import Mathlib

/-!
The tic scheduler of `d_loop.c`.

A shallow embedding of the main-loop code of `src/src/d_loop.c` and the
properties of its cursors (`maketic`, `recvtic`, `gametic`), of the command
ring buffer `ticdata`, and of the pacing pump.

Conventions of the embedding.

* C `int` variables that count tics are `Int`; `/` and `%` of C are
  `Int.tdiv` and `Int.tmod` (truncation toward zero).  The cursors are not
  reduced modulo `2^32`: signed overflow is undefined in C and is out of
  reach of a session (more than a year of play at 35 tics a second).  The
  one product that can leave the 32-bit range in a session, in
  `GetAdjustedTime`, is wrapped explicitly.
* A C array is a function from the index (`Int`) to the element, written to
  with `arr_set`.
* Constants of headers that are not among the sources (`BACKUPTICS`,
  `NET_MAXPLAYERS`, `BT_SPECIAL`, `FRACUNIT`) and the external collaborators
  (the two timers, `BuildTiccmd`) are parameters, collected in `Env`.
* Calls made to external collaborators are recorded, in order, in the
  `trace` field of the state.
* Loops that the code does not bound (`while` in `TryRunTics`) take fuel and
  return `none` when it runs out.
-/

namespace DLoop

/-! ## Data model -/

/-- Modelled from the spec: the command record `ticcmd_t` of `d_ticcmd.h`, which
is not among the sources.  The spec describes "movement/action bits, a
chat/message byte, a special flag bit"; `d_loop.c` reads and writes `chatchar`
and `buttons` only, and `movement` stands for all the remaining fields. -/
structure ticcmd_t where
  movement : Int
  chatchar : Nat
  buttons : Nat
deriving DecidableEq, Repr

/-- The value `memset(&cmd, 0, sizeof(ticcmd_t))` leaves in `cmd`. -/
def ticcmd_t.zero : ticcmd_t := ⟨0, 0, 0⟩

/-- The complete set of data for a particular tic (`ticcmd_set_t`). -/
structure ticcmd_set_t where
  cmds : Int → ticcmd_t
  ingame : Int → Bool

/-- Array write `a[i] = v`. -/
def arr_set {α : Type} (a : Int → α) (i : Int) (v : α) : Int → α :=
  fun j => if j = i then v else a j

/-- Copy of the first `n` cells, `memcpy(dst, src, n * sizeof(*dst))`. -/
def arr_copy {α : Type} (n : Nat) (dst src : Int → α) : Int → α :=
  fun j => if 0 ≤ j ∧ j < (n : Int) then src j else dst j

/-- Calls made to the external collaborators, in the order they are made.
`RunTic` records the slot of `ticdata` its two pointers point into and the
contents of the two arrays at the time of the call. -/
inductive Event where
  | StartTic
  | ProcessEvents
  | RunMenu
  | BuildTiccmd (maketic : Int)
  | RunTic (slot : Int) (cmds : Int → ticcmd_t) (ingame : Int → Bool)

/-- Constants of the missing headers and the external collaborators.
`I_GetTimeMS n` and `I_GetTime n` are the values the two timers return at
their `n`-th reading.  `BuildTiccmd cmd maketic` is the command the callback
leaves in `cmd` when called for the tic `maketic`; since `maketic` only grows,
the callback is called at most once for each tic, so that any behaviour of it
is such a function. -/
structure Env where
  BACKUPTICS : Int
  NET_MAXPLAYERS : Nat
  BT_SPECIAL : Nat
  FRACUNIT : Int
  BuildTiccmd : ticcmd_t → Int → ticcmd_t
  I_GetTimeMS : Nat → Int
  I_GetTime : Nat → Int

/-- Modelled from the spec: the tic rate `TICRATE` of `i_timer.h`, which is not
among the sources; the spec fixes the rate at 35 steps per second. -/
def TICRATE : Int := 35

/-- The variables of `d_loop.c` (file-level ones and the function-level
static `oldentertics`), the number of readings taken so far from each timer,
and the trace of external calls. -/
structure State where
  ticdata : Int → ticcmd_set_t
  maketic : Int
  recvtic : Int
  gametic : Int
  singletics : Bool
  localplayer : Int
  skiptics : Int
  ticdup : Int
  offsetms : Int
  new_sync : Bool
  local_playeringame : Int → Bool
  player_class : Int
  lasttime : Int
  oldentertics : Int
  reads_ms : Nat
  reads_tic : Nat
  trace : List Event

/-- The state after the external calls `evs` have been made. -/
def State.log (s : State) (evs : List Event) : State :=
  { s with trace := s.trace ++ evs }

/-- Reduction of an integer to the range of a 32-bit `int`. -/
def wrap32 (x : Int) : Int := (x + 2147483648) % 4294967296 - 2147483648

/-! ## `GetAdjustedTime`, `BuildNewTic`, `NetUpdate` -/

/-- `GetAdjustedTime`: 35 fps clock adjusted by `offsetms` milliseconds. -/
def GetAdjustedTime (E : Env) (s : State) : Int × State :=
  let time_ms := E.I_GetTimeMS s.reads_ms
  let s1 := { s with reads_ms := s.reads_ms + 1 }
  let time_ms :=
    if s.new_sync then wrap32 (time_ms + Int.tdiv s.offsetms E.FRACUNIT) else time_ms
  (Int.tdiv (wrap32 (time_ms * TICRATE)) 1000, s1)

/-- Lines 167-175 of `BuildNewTic`: build the command and store it. -/
def BuildNewTic_store (E : Env) (s : State) : State :=
  let cmd := E.BuildTiccmd ticcmd_t.zero s.maketic
  let slot := Int.tmod s.maketic E.BACKUPTICS
  let set := s.ticdata slot
  let set1 : ticcmd_set_t := { set with cmds := arr_set set.cmds s.localplayer cmd }
  let set2 : ticcmd_set_t := { set1 with ingame := arr_set set1.ingame s.localplayer true }
  let s1 := s.log [Event.BuildTiccmd s.maketic]
  { s1 with
    ticdata := arr_set s1.ticdata slot set2
    maketic := s1.maketic + 1 }

/-- `BuildNewTic`: the returned boolean and the state after the call. -/
def BuildNewTic (E : Env) (s : State) : Bool × State :=
  let gameticdiv := Int.tdiv s.gametic s.ticdup
  let s1 := s.log [Event.StartTic, Event.ProcessEvents, Event.RunMenu]
  if s1.new_sync then
    if s1.maketic - gameticdiv > 2 then (false, s1)
    else if s1.maketic - gameticdiv > 8 then (false, s1)
    else (true, BuildNewTic_store E s1)
  else
    if s1.maketic - gameticdiv ≥ 5 then (false, s1)
    else (true, BuildNewTic_store E s1)

/-- The loop `for (i=0 ; i<newtics ; i++) if (!BuildNewTic()) break;`, with
the number of iterations left as first argument. -/
def NetUpdate_loop (E : Env) : Nat → State → State
  | 0, s => s
  | n + 1, s =>
    let r := BuildNewTic E s
    if r.1 then NetUpdate_loop E n r.2 else r.2

/-- The tic-debt step of `NetUpdate` (lines 203-212): the number of tics to
build and the new value of `skiptics`. -/
def NetUpdate_debt (skiptics newtics : Int) : Int × Int :=
  if skiptics ≤ newtics then (newtics - skiptics, 0)
  else (0, skiptics - newtics)

/-- `NetUpdate`: builds ticcmds for the console player. -/
def NetUpdate (E : Env) (s : State) : State :=
  if s.singletics then s
  else
    let r := GetAdjustedTime E s
    let s1 := r.2
    let nowtime := Int.tdiv r.1 s1.ticdup
    let newtics := nowtime - s1.lasttime
    let d := NetUpdate_debt s1.skiptics newtics
    let s2 := { s1 with lasttime := nowtime, skiptics := d.2 }
    NetUpdate_loop E d.1.toNat s2

/-! ## `D_ReceiveTic` -/

/-- The loop of `D_ReceiveTic` over the players `0 .. n-1`, on the slot
`set`.  A `NULL` array that has to be read makes the result `none`. -/
def D_ReceiveTic_loop (localplayer : Int) (ticcmds : Option (Int → ticcmd_t))
    (players_mask : Option (Int → Bool)) : Nat → ticcmd_set_t → Option ticcmd_set_t
  | 0, set => some set
  | n + 1, set =>
    match D_ReceiveTic_loop localplayer ticcmds players_mask n set with
    | none => none
    | some set1 =>
      if (n : Int) = localplayer then some set1
      else
        match ticcmds, players_mask with
        | some c, some m =>
          some { cmds := arr_set set1.cmds n (c n), ingame := arr_set set1.ingame n (m n) }
        | _, _ => none

/-- `D_ReceiveTic`: invoked by the network engine when a complete set of
ticcmds is available; `none` stands for a `NULL` argument. -/
def D_ReceiveTic (E : Env) (s : State) (ticcmds : Option (Int → ticcmd_t))
    (players_mask : Option (Int → Bool)) : Option State :=
  if ticcmds.isNone && players_mask.isNone then some s
  else
    let slot := Int.tmod s.recvtic E.BACKUPTICS
    match D_ReceiveTic_loop s.localplayer ticcmds players_mask E.NET_MAXPLAYERS
        (s.ticdata slot) with
    | none => none
    | some set => some { s with ticdata := arr_set s.ticdata slot set, recvtic := s.recvtic + 1 }

/-! ## `TryRunTics` -/

/-- `GetLowTic`. -/
def GetLowTic (s : State) : Int :=
  let lowtic := s.maketic
  lowtic

/-- `PlayersInGame`: returns true if there are players in the game. -/
def PlayersInGame (_s : State) : Bool := true

/-- The body of the loop of `TicdupSquash`, on one command. -/
def TicdupSquash_cmd (E : Env) (cmd : ticcmd_t) : ticcmd_t :=
  let cmd1 := { cmd with chatchar := 0 }
  if cmd1.buttons &&& E.BT_SPECIAL ≠ 0 then { cmd1 with buttons := 0 } else cmd1

/-- The loop of `TicdupSquash` over the players `0 .. n-1`. -/
def TicdupSquash_loop (E : Env) : Nat → ticcmd_set_t → ticcmd_set_t
  | 0, set => set
  | n + 1, set =>
    let set1 := TicdupSquash_loop E n set
    { set1 with cmds := arr_set set1.cmds n (TicdupSquash_cmd E (set1.cmds n)) }

/-- `TicdupSquash`: when using ticdup, certain values must be cleared out when
running the duplicate ticcmds. -/
def TicdupSquash (E : Env) (set : ticcmd_set_t) : ticcmd_set_t :=
  TicdupSquash_loop E E.NET_MAXPLAYERS set

/-- The loop of `SinglePlayerClear` over the players `0 .. n-1`. -/
def SinglePlayerClear_loop (localplayer : Int) : Nat → ticcmd_set_t → ticcmd_set_t
  | 0, set => set
  | n + 1, set =>
    let set1 := SinglePlayerClear_loop localplayer n set
    if (n : Int) ≠ localplayer then { set1 with ingame := arr_set set1.ingame n false }
    else set1

/-- `SinglePlayerClear`: clear all the `ingame[]` array except the local
player. -/
def SinglePlayerClear (E : Env) (localplayer : Int) (set : ticcmd_set_t) : ticcmd_set_t :=
  SinglePlayerClear_loop localplayer E.NET_MAXPLAYERS set

/-- The number of tics `TryRunTics` decides to run (lines 402-421). -/
def TryRunTics_counts (new_sync : Bool) (realtics availabletics : Int) : Int :=
  let counts :=
    if new_sync then availabletics
    else
      let c :=
        if realtics < availabletics - 1 then realtics + 1
        else if realtics < availabletics then realtics
        else availabletics
      if c < 1 then 1 else c
  if counts < 1 then 1 else counts

/-- The wait loop of `TryRunTics` (lines 424-428); `none` when the fuel runs
out before the loop condition becomes false. -/
def TryRunTics_wait (E : Env) (counts : Int) : Nat → Int → State → Option (Int × State)
  | 0, lowtic, s =>
    if !PlayersInGame s || lowtic < Int.tdiv s.gametic s.ticdup + counts then none
    else some (lowtic, s)
  | fuel + 1, lowtic, s =>
    if !PlayersInGame s || lowtic < Int.tdiv s.gametic s.ticdup + counts then
      let s1 := NetUpdate E s
      TryRunTics_wait E counts fuel (GetLowTic s1) s1
    else some (lowtic, s)

/-- One iteration of the loop `for (i=0 ; i<ticdup ; i++)` of `TryRunTics`,
on the slot `slot` of `ticdata`. -/
def TryRunTics_dup_body (E : Env) (slot : Int) (s : State) : State :=
  let set := s.ticdata slot
  let s1 := { s with
    local_playeringame := arr_copy E.NET_MAXPLAYERS s.local_playeringame set.ingame }
  let s2 := s1.log [Event.RunTic slot set.cmds set.ingame]
  let s3 := { s2 with gametic := s2.gametic + 1 }
  { s3 with ticdata := arr_set s3.ticdata slot (TicdupSquash E (s3.ticdata slot)) }

/-- The loop `for (i=0 ; i<ticdup ; i++)` of `TryRunTics`, with the number
of iterations left as first argument. -/
def TryRunTics_dup (E : Env) (slot : Int) : Nat → State → State
  | 0, s => s
  | n + 1, s => TryRunTics_dup E slot n (TryRunTics_dup_body E slot s)

/-- Lines 440-453 of `TryRunTics`: one slot is cleared of the other players
and run `ticdup` times. -/
def TryRunTics_slot (E : Env) (s : State) : State :=
  let slot := Int.tmod (Int.tdiv s.gametic s.ticdup) E.BACKUPTICS
  let s1 := { s with
    ticdata := arr_set s.ticdata slot (SinglePlayerClear E s.localplayer (s.ticdata slot)) }
  TryRunTics_dup E slot s1.ticdup.toNat s1

/-- The loop `while (counts--)` of `TryRunTics`, with the value of `counts`
(at least 1 at this point of the code) as first argument. -/
def TryRunTics_run (E : Env) : Nat → State → State
  | 0, s => s
  | n + 1, s =>
    if !PlayersInGame s then s
    else TryRunTics_run E n (NetUpdate E (TryRunTics_slot E s))

/-- Lines 380-394 of `TryRunTics`: the timer is read, and one tic is built
(`singletics`) or the pump is run. -/
def TryRunTics_enter (E : Env) (s : State) : State :=
  let entertic := Int.tdiv (E.I_GetTime s.reads_tic) s.ticdup
  let s1 := { s with reads_tic := s.reads_tic + 1, oldentertics := entertic }
  if s1.singletics then (BuildNewTic E s1).2 else NetUpdate E s1

/-- `TryRunTics`, with `fuel` iterations allowed to its wait loop. -/
def TryRunTics (E : Env) (fuel : Nat) (s : State) : Option State :=
  let entertic := Int.tdiv (E.I_GetTime s.reads_tic) s.ticdup
  let realtics := entertic - s.oldentertics
  let s2 := TryRunTics_enter E s
  let lowtic := GetLowTic s2
  let availabletics := lowtic - Int.tdiv s2.gametic s2.ticdup
  let counts := TryRunTics_counts s2.new_sync realtics availabletics
  match TryRunTics_wait E counts fuel lowtic s2 with
  | none => none
  | some r => some (TryRunTics_run E counts.toNat r.2)

/-! ## Sequences of calls -/

/-- The entry points of the scheduler a caller can invoke. -/
inductive Op where
  | NetUpdate
  | BuildNewTic
  | D_ReceiveTic (ticcmds : Option (Int → ticcmd_t)) (players_mask : Option (Int → Bool))
  | TryRunTics (fuel : Nat)

/-- The state after one call; `none` when the call does not return. -/
def Op.apply (E : Env) : Op → State → Option State
  | Op.NetUpdate, s => some (DLoop.NetUpdate E s)
  | Op.BuildNewTic, s => some (DLoop.BuildNewTic E s).2
  | Op.D_ReceiveTic c m, s => DLoop.D_ReceiveTic E s c m
  | Op.TryRunTics fuel, s => DLoop.TryRunTics E fuel s

/-- The state after a sequence of calls, made from left to right. -/
def run_ops (E : Env) : List Op → State → Option State
  | [], s => some s
  | op :: ops, s =>
    match op.apply E s with
    | none => none
    | some s1 => run_ops E ops s1

/-- The arguments and the array snapshots of the `RunTic` calls of a trace,
oldest first. -/
def runTics : List Event → List (Int × (Int → ticcmd_t) × (Int → Bool))
  | [] => []
  | Event.RunTic slot cmds ingame :: tr => (slot, cmds, ingame) :: runTics tr
  | _ :: tr => runTics tr

/-- The pacing test of `BuildNewTic` (lines 148-165): true when the call
returns false. -/
def BuildNewTic_refuses (s : State) : Bool :=
  let ahead := s.maketic - Int.tdiv s.gametic s.ticdup
  (s.new_sync && decide (ahead > 2)) || (!s.new_sync && decide (ahead ≥ 5))

/-- The value of `newtics` at line 199 of `NetUpdate`: the tics elapsed since
the previous call. -/
def NetUpdate_elapsed (E : Env) (s : State) : Int :=
  Int.tdiv (GetAdjustedTime E s).1 s.ticdup - s.lasttime

/-- The bound of the loop of `NetUpdate`: the value of `newtics` after the
tic-debt step, that is the number of tics the call asks `BuildNewTic` for. -/
def NetUpdate_requested (E : Env) (s : State) : Int :=
  (NetUpdate_debt s.skiptics (NetUpdate_elapsed E s)).1

/-- The state after `n` successive calls of `NetUpdate`. -/
def pump (E : Env) : Nat → State → State
  | 0, s => s
  | n + 1, s => pump E n (NetUpdate E s)

/-- The sum of the elapsed tics of `n` successive calls of `NetUpdate`. -/
def pump_elapsed (E : Env) : Nat → State → Int
  | 0, _ => 0
  | n + 1, s => NetUpdate_elapsed E s + pump_elapsed E n (NetUpdate E s)

/-- The sum of the tics asked for by `n` successive calls of `NetUpdate`. -/
def pump_requested (E : Env) : Nat → State → Int
  | 0, _ => 0
  | n + 1, s => NetUpdate_requested E s + pump_requested E n (NetUpdate E s)

/-- The calls that produce commands: `NetUpdate` and `BuildNewTic`. -/
def Op.isProducer : Op → Bool
  | Op.NetUpdate => true
  | Op.BuildNewTic => true
  | _ => false

/-- The calls that take a batch in: `D_ReceiveTic` with an argument that is
not `NULL`. -/
def Op.isIntake : Op → Bool
  | Op.D_ReceiveTic c m => !(c.isNone && m.isNone)
  | _ => false

/-- Zeroed cursors: `maketic = recvtic = gametic = 0`. -/
def State.zeroed (s : State) : Prop :=
  s.maketic = 0 ∧ s.recvtic = 0 ∧ s.gametic = 0

/-- The cursor invariant on the producer side, with the facts that make it
inductive: `ticdup` is positive, `gametic` is not negative, and
`gametic/ticdup` is at most `maketic`. -/
def CursorInv (s : State) : Prop :=
  1 ≤ s.ticdup ∧ 0 ≤ s.gametic ∧ Int.tdiv s.gametic s.ticdup ≤ s.maketic

/-- The lockstep invariant: the cursor invariant; `gametic` is a multiple of
`ticdup`; production is at most 5 tics ahead; the `RunTic` calls made so far
are `gametic` in number, the `j`-th of them (from 0) was made on the slot
`(j / ticdup) % BACKUPTICS` and, when it is the first of its slot, with the
local command built for tic `j / ticdup`; and every tic built and not yet run
still has its local command in its slot. -/
structure RingInv (E : Env) (s : State) : Prop where
  cursor : CursorInv s
  aligned : s.gametic = Int.tdiv s.gametic s.ticdup * s.ticdup
  high : s.maketic ≤ Int.tdiv s.gametic s.ticdup + 5
  count : ((runTics s.trace).length : Int) = s.gametic
  order : ∀ (j : Nat) (r : Int × (Int → ticcmd_t) × (Int → Bool)),
    (runTics s.trace)[j]? = some r →
      r.1 = Int.tmod (Int.tdiv j s.ticdup) E.BACKUPTICS ∧
      (Int.tmod j s.ticdup = 0 →
        r.2.1 s.localplayer = E.BuildTiccmd ticcmd_t.zero (Int.tdiv j s.ticdup))
  ring : ∀ k : Int, Int.tdiv s.gametic s.ticdup ≤ k → k < s.maketic →
    (s.ticdata (Int.tmod k E.BACKUPTICS)).cmds s.localplayer
      = E.BuildTiccmd ticcmd_t.zero k

/-- A sequence of calls that exercises the four entry points. -/
def demoOps : List Op :=
  [Op.TryRunTics 3, Op.D_ReceiveTic (some (fun i => ⟨i, 9, 1⟩)) (some (fun _ => true)),
   Op.NetUpdate, Op.BuildNewTic, Op.TryRunTics 0]

/-! ## A concrete environment and state, for evaluation -/

/-- An environment with the constants of Chocolate Doom, a command builder
that stamps the tic index into the command, and timers that advance by one
tic (29 ms) at each reading. -/
def demoEnv : Env where
  BACKUPTICS := 128
  NET_MAXPLAYERS := 8
  BT_SPECIAL := 128
  FRACUNIT := 65536
  BuildTiccmd := fun cmd maketic => { cmd with movement := maketic + 1, chatchar := 7 }
  I_GetTimeMS := fun n => 29 * (n + 1)
  I_GetTime := fun n => n + 1

/-- The state at program start: statics zeroed, `ticdup = 1`, `new_sync`
set. -/
def demoState : State where
  ticdata := fun _ => ⟨fun _ => ticcmd_t.zero, fun _ => false⟩
  maketic := 0
  recvtic := 0
  gametic := 0
  singletics := false
  localplayer := 0
  skiptics := 0
  ticdup := 1
  offsetms := 0
  new_sync := true
  local_playeringame := fun _ => false
  player_class := 0
  lasttime := 0
  oldentertics := 0
  reads_ms := 0
  reads_tic := 0
  trace := []

/-- The environment `demoEnv` with a clock that has jumped to 300 ms (ten
tics) when first read and stays there. -/
def demoJumpEnv : Env := { demoEnv with I_GetTimeMS := fun _ => 300 }

/-- The environment `demoEnv` with a clock that reads 300 ms, then 200 ms,
then 300 ms for ever: it steps back by three tics once. -/
def demoBackEnv : Env :=
  { demoEnv with I_GetTimeMS := fun n => if n = 1 then 200 else 300 }

/-- Commands of a received batch: player `i` moves by `i` and chats `9`. -/
def demoCmds : Int → ticcmd_t := fun i => ⟨i, 9, 1⟩

/-- Presence flags of a received batch: every player present. -/
def demoMask : Int → Bool := fun _ => true

/-- The state `demoState` with three tics built and none run. -/
def demoAhead3 : State := { demoState with maketic := 3 }

/-! ## Auxiliary definitions for `TryRunTics` -/

/-- The value of `availabletics` at line 398 of `TryRunTics`: the tics built
and not yet run, after the production step. -/
def TryRunTics_availabletics (E : Env) (s : State) : Int :=
  GetLowTic (TryRunTics_enter E s)
    - Int.tdiv (TryRunTics_enter E s).gametic (TryRunTics_enter E s).ticdup

/-- The value of `counts` at line 423 of `TryRunTics`: the number of slots the
call has decided to run. -/
def TryRunTics_decided (E : Env) (s : State) : Int :=
  TryRunTics_counts (TryRunTics_enter E s).new_sync
    (Int.tdiv (E.I_GetTime s.reads_tic) s.ticdup - s.oldentertics)
    (TryRunTics_availabletics E s)

/-- The `RunTic` calls that `n` iterations of the duplication loop make on a
slot whose contents are `set`: each call sees the slot as the `TicdupSquash`
of the previous iteration left it. -/
def TryRunTics_dup_calls (E : Env) (slot : Int) :
    Nat → ticcmd_set_t → List (Int × (Int → ticcmd_t) × (Int → Bool))
  | 0, _ => []
  | n + 1, set => (slot, set.cmds, set.ingame) :: TryRunTics_dup_calls E slot n (TicdupSquash E set)

/-- What the production of commands leaves alone: `u` has the parameters,
the `gametic`, the `recvtic` and the recorded `RunTic` calls of `s`. -/
def Frame (s u : State) : Prop :=
  u.ticdup = s.ticdup ∧ u.gametic = s.gametic ∧ u.localplayer = s.localplayer ∧
  u.new_sync = s.new_sync ∧ u.singletics = s.singletics ∧ u.offsetms = s.offsetms ∧
  u.recvtic = s.recvtic ∧ runTics u.trace = runTics s.trace

/-- `D_StartGameLoop`: called after the screen is set but before the game
starts running; it records the time in `lasttime`. -/
def D_StartGameLoop (E : Env) (s : State) : State :=
  let r := GetAdjustedTime E s
  { r.2 with lasttime := Int.tdiv r.1 r.2.ticdup }

/-- The state after lines 198-212 of `NetUpdate`: the clock has been read,
`lasttime` is the new time and the tic debt is settled. -/
def NetUpdate_timed (E : Env) (s : State) : State :=
  { s with
    reads_ms := s.reads_ms + 1
    lasttime := Int.tdiv (GetAdjustedTime E s).1 s.ticdup
    skiptics := (NetUpdate_debt s.skiptics (NetUpdate_elapsed E s)).2 }

/-- The state after lines 380-382 of `TryRunTics`: the tic timer has been
read. -/
def TryRunTics_sampled (E : Env) (s : State) : State :=
  { s with
    reads_tic := s.reads_tic + 1
    oldentertics := Int.tdiv (E.I_GetTime s.reads_tic) s.ticdup }

/-- The value `GetAdjustedTime` returns at its `n`-th call after the state
`s` (from 0), `offsetms` and `new_sync` being what they are in `s`. -/
def GetAdjustedTime_nth (E : Env) (s : State) (n : Nat) : Int :=
  (GetAdjustedTime E { s with reads_ms := s.reads_ms + n }).1

/-- The environment `demoEnv` with timers that start at 0 and advance by one
tic (29 ms) at each reading: the adjusted time reads 0, 1, 2, 3, ... -/
def demoZeroEnv : Env :=
  { demoEnv with I_GetTimeMS := fun n => 29 * n, I_GetTime := fun n => n }

/-- The count of the adaptive mode as the specification words it: the
maximum of 1 and `c`, where `c` is `realtics + 1` when
`realtics < availabletics - 1`, `realtics` when
`availabletics - 1 ≤ realtics < availabletics`, and `availabletics`
otherwise. -/
def adaptive_count_spec (realtics availabletics : Int) : Int :=
  max 1
    (if realtics < availabletics - 1 then realtics + 1
     else if availabletics - 1 ≤ realtics ∧ realtics < availabletics then realtics
     else availabletics)

/-- The millisecond reading `GetAdjustedTime` takes in the state `s`. -/
def GetAdjustedTime_reading (E : Env) (s : State) : Int :=
  E.I_GetTimeMS s.reads_ms

/-- The shift `GetAdjustedTime` adds to the reading: `offsetms / FRACUNIT`
when `new_sync` is set, nothing otherwise. -/
def GetAdjustedTime_shift (E : Env) (s : State) : Int :=
  if s.new_sync then Int.tdiv s.offsetms E.FRACUNIT else 0

/-- The result of `GetAdjustedTime` as the specification words it: the floor
of `((t + s) * TICRATE) / 1000` over the integers. -/
def GetAdjustedTime_spec (E : Env) (s : State) : Int :=
  ((GetAdjustedTime_reading E s + GetAdjustedTime_shift E s) * TICRATE) / 1000

/-- The state `demoState` in the old sync mode, three tics built and none
run, the tic timer last sampled at 0. -/
def demoOldSync : State := { demoState with new_sync := false, maketic := 3 }

/-- An environment seventeen hours into a session: the millisecond clock
reads 61 356 680 and advances, like the tic timer, by one tic at each
reading. -/
def demoLateEnv : Env :=
  { demoEnv with
    I_GetTimeMS := fun n => 61356680 + 29 * n
    I_GetTime := fun n => 2147483 + n }

/-- The state seventeen hours into a session in which every tic has been
built and run: the cursors and the last pump time are at tic 2 147 482. -/
def demoLateState : State :=
  { demoState with
    maketic := 2147482
    gametic := 2147482
    lasttime := 2147482
    oldentertics := 2147482 }

/-- The state `demoState` with the clock skew set to minus one millisecond
(`-FRACUNIT` in fixed point). -/
def demoSkewed : State := { demoState with offsetms := -65536 }

/-- A state in which nothing is built nor run, no tic has elapsed and no
debt is owed, as at program start. -/
def Stalled (s : State) : Prop :=
  s.singletics = false ∧ s.new_sync = true ∧ s.offsetms = 0 ∧ s.ticdup = 1 ∧
  s.lasttime = 0 ∧ s.skiptics = 0 ∧ s.maketic = 0 ∧ s.gametic = 0

/-! ## `D_StartNetGame` -/

/-- Modelled from the spec: the session settings `net_gamesettings_t` of
`net_defs.h`, which is not among the sources, reduced to the fields
`D_StartNetGame` touches; the spec lists "participant count, local index,
duplication factor, sync mode, extra-buffering-tics hint". -/
structure net_gamesettings_t where
  ticdup : Int
  extratics : Int
  new_sync : Bool
  num_players : Int
  consoleplayer : Int
  player_classes : Int → Int

/-- The loop of `D_StartNetGame` over the players `0 .. n-1`:
`local_playeringame[i] = i < settings->num_players`. -/
def D_StartNetGame_loop (num_players : Int) : Nat → (Int → Bool) → (Int → Bool)
  | 0, a => a
  | n + 1, a => arr_set (D_StartNetGame_loop num_players n a) n (decide ((n : Int) < num_players))

/-- `D_StartNetGame`: the settings as the call leaves them to the caller, and
the state after the call.  The `callback` argument is not used by the code. -/
def D_StartNetGame (E : Env) (s : State) (settings : net_gamesettings_t) :
    net_gamesettings_t × State :=
  let s1 := { s with offsetms := 0, recvtic := 0 }
  let st1 := { settings with consoleplayer := 0 }
  let st2 := { st1 with num_players := 1 }
  let st3 := { st2 with player_classes := arr_set st2.player_classes 0 s1.player_class }
  let st4 := { st3 with extratics := 1 }
  let st5 := { st4 with ticdup := 1 }
  let s2 := { s1 with localplayer := st5.consoleplayer }
  let s3 := { s2 with
    local_playeringame :=
      D_StartNetGame_loop st5.num_players E.NET_MAXPLAYERS s2.local_playeringame }
  let s4 := { s3 with ticdup := st5.ticdup }
  (st5, { s4 with new_sync := st5.new_sync })

/-- Settings a caller may pass: four players, the local one being player 2,
`ticdup = 3`, old sync. -/
def demoSettings : net_gamesettings_t where
  ticdup := 3
  extratics := 0
  new_sync := false
  num_players := 4
  consoleplayer := 2
  player_classes := fun _ => 0

/-- A state in the middle of a session: three tics built, two run, five
received, a clock skew of 7. -/
def demoMidGame : State :=
  { demoState with maketic := 3, gametic := 2, recvtic := 5, offsetms := 7 }

/-! ## The demo-compatibility guard -/

/-- Modelled from the spec: `M_ForceLowercase` of `m_misc.c`, which is not
among the sources: every character of the string is replaced by its lower
case (the comparison of the guard is "case-insensitive"). -/
def M_ForceLowercase (text : List Char) : List Char :=
  text.map Char.toLower

/-- Modelled from the spec: `M_StringEndsWith` of `m_misc.c`, which is not among
the sources: the string is at least as long as the suffix and its tail of
that length is the suffix. -/
def M_StringEndsWith (s suffix : List Char) : Bool :=
  decide (suffix.length ≤ s.length ∧ s.drop (s.length - suffix.length) = suffix)

/-- The string `.lmp`. -/
def lmp_suffix : List Char := ['.', 'l', 'm', 'p']

/-- What the guard reads from the rest of the program: `M_ParmExists`
(`m_argv.c`) tells whether a parameter was given on the command line, and
`lump_path lumpnum` is `lumpinfo[lumpnum]->wad_file->path`, the path of the
file that holds the lump, `none` when there is no such lump. -/
structure Wad where
  M_ParmExists : String → Bool
  lump_path : Int → Option (List Char)

/-- The warnings the guard prints, with the feature they name. -/
inductive Warning where
  | recording (feature : String)
  | wad_demo (feature : String)
  | playing (feature : String)
deriving DecidableEq, Repr

/-- `StrictDemos`: whether `-strictdemos` was given. -/
def StrictDemos (W : Wad) : Bool :=
  W.M_ParmExists "-strictdemos"

/-- `D_NonVanillaRecord`: the result and the warnings printed. -/
def D_NonVanillaRecord (W : Wad) (conditional : Bool) (feature : String) :
    Bool × List Warning :=
  if !conditional || StrictDemos W then (false, [])
  else (true, [Warning.recording feature])

/-- `IsDemoFile`: whether the lump comes from a `.lmp` file; `none` when the
lump does not exist. -/
def IsDemoFile (W : Wad) (lumpnum : Int) : Option Bool :=
  match W.lump_path lumpnum with
  | none => none
  | some path => some (M_StringEndsWith (M_ForceLowercase path) lmp_suffix)

/-- `D_NonVanillaPlayback`: the result and the warnings printed; `none` when
the lump whose file is looked at does not exist. -/
def D_NonVanillaPlayback (W : Wad) (conditional : Bool) (lumpnum : Int) (feature : String) :
    Option (Bool × List Warning) :=
  if !conditional || StrictDemos W then some (false, [])
  else
    match IsDemoFile W lumpnum with
    | none => none
    | some false => some (false, [Warning.wad_demo feature])
    | some true => some (true, [Warning.playing feature])

/-- The path ends in `.lmp` compared case-insensitively, as the specification
words it: it has a suffix that is `.lmp` once put in lower case. -/
def EndsInLmp (path : List Char) : Prop :=
  ∃ pre suf : List Char, path = pre ++ suf ∧ suf.map Char.toLower = lmp_suffix

/-- A program run without `-strictdemos` in which lump 7 comes from the file
`DEMO1.LMP` and lump 8 from `doom.wad`. -/
def demoWad : Wad where
  M_ParmExists := fun _ => false
  lump_path := fun n =>
    if n = 7 then some ['D', 'E', 'M', 'O', '1', '.', 'L', 'M', 'P']
    else if n = 8 then some ['d', 'o', 'o', 'm', '.', 'w', 'a', 'd']
    else none

/-! ## Counting the external calls -/

/-- The event is a call of `I_StartTic`. -/
def Event.isStartTic : Event → Bool
  | Event.StartTic => true
  | _ => false

/-- The event is a call of `ProcessEvents`. -/
def Event.isProcessEvents : Event → Bool
  | Event.ProcessEvents => true
  | _ => false

/-- The event is a call of `RunMenu`.  `BuildNewTic` makes exactly one such
call each time it is invoked, so that they count the calls of `BuildNewTic`. -/
def Event.isRunMenu : Event → Bool
  | Event.RunMenu => true
  | _ => false

/-- The event is a call of `BuildTiccmd`. -/
def Event.isBuildTiccmd : Event → Bool
  | Event.BuildTiccmd _ => true
  | _ => false

/-- The event is a call of `RunTic`. -/
def Event.isRunTic : Event → Bool
  | Event.RunTic _ _ _ => true
  | _ => false

/-- `BuildNewTic` with the second test of the `new_sync` branch (lines 156-159,
"never go more than ~200ms ahead") removed. -/
def BuildNewTic_without_hard_limit (E : Env) (s : State) : Bool × State :=
  let gameticdiv := Int.tdiv s.gametic s.ticdup
  let s1 := s.log [Event.StartTic, Event.ProcessEvents, Event.RunMenu]
  if s1.new_sync then
    if s1.maketic - gameticdiv > 2 then (false, s1)
    else (true, BuildNewTic_store E s1)
  else
    if s1.maketic - gameticdiv ≥ 5 then (false, s1)
    else (true, BuildNewTic_store E s1)

/-- The command `TicdupSquash` should leave, as the specification words it:
`chatchar` set to 0, the `BT_SPECIAL` bit of `buttons` cleared, every other
bit and field unchanged. -/
def TicdupSquash_cmd_spec (E : Env) (cmd : ticcmd_t) : ticcmd_t :=
  { cmd with chatchar := 0, buttons := cmd.buttons ^^^ (cmd.buttons &&& E.BT_SPECIAL) }

/-- A command that chats, with the special bit and the lowest button bit
set. -/
def demoSpecialCmd : ticcmd_t := ⟨5, 65, 129⟩

/-- A program run with `-strictdemos`. -/
def demoStrictWad : Wad := { demoWad with M_ParmExists := fun _ => true }

/-- The pacing limit of `BuildNewTic`: it builds a tic exactly when
`maketic - gametic/ticdup` is below 3 in `new_sync` mode, below 5 otherwise. -/
def pacing_limit (s : State) : Int := if s.new_sync then 3 else 5

/-- The number of tics a pump asked for `n` tics builds, as the specification
words it: `min(n, max(0, L - ahead))`. -/
def pump_count_spec (s : State) (n : Int) : Int :=
  min n (max 0 (pacing_limit s - (s.maketic - Int.tdiv s.gametic s.ticdup)))

/-- The state `demoState` one tic ahead, with a debt of two tics. -/
def demoDebt : State := { demoState with maketic := 1, skiptics := 2 }

/-- A presence array in which no player of `0 .. NET_MAXPLAYERS-1` other than
the local one is present. -/
def OnlyLocal (E : Env) (localplayer : Int) (ingame : Int → Bool) : Prop :=
  ∀ i : Int, 0 ≤ i → i < (E.NET_MAXPLAYERS : Int) → i ≠ localplayer → ingame i = false

/-- The state `demoState` in single-step mode. -/
def demoSingle : State := { demoState with singletics := true }

/-! ## Fixed-point arithmetic (`m_fixed.c`) -/

/-- `INT_MIN` of `limits.h`, for a 32-bit `int`. -/
def INT_MIN : Int := -2147483648

/-- `INT_MAX` of `limits.h`, for a 32-bit `int`. -/
def INT_MAX : Int := 2147483647

/-- The bit pattern of a 32-bit `int` in two's complement, as an unsigned
number. -/
def toU32 (x : Int) : Nat := (x % 4294967296).toNat

/-- The operator `&` on two 32-bit `int`s. -/
def and32 (a b : Int) : Int := wrap32 ((toU32 a &&& toU32 b : Nat) : Int)

/-- The operator `^` on two 32-bit `int`s. -/
def xor32 (a b : Int) : Int := wrap32 ((toU32 a ^^^ toU32 b : Nat) : Int)

/-- Reduction of an integer to the range of an `int64_t`. -/
def wrap64 (x : Int) : Int :=
  (x + 9223372036854775808) % 18446744073709551616 - 9223372036854775808

/-- The function `abs` of `stdlib.h` on a 32-bit `int`; on `INT_MIN`, where C
leaves it undefined, the negation wraps. -/
def abs32 (x : Int) : Int := wrap32 (if x < 0 then -x else x)

/-- `FixedDiv`, C version.  `fixed_t` is a 32-bit `int`; `FRACBITS` comes from
`m_fixed.h`, which is not part of the sources at hand, and is a parameter.
`>> 14` on an `int` is the floor of the division by 16384.  A division by
zero gives `none`. -/
def FixedDiv (FRACBITS : Nat) (a b : Int) : Option Int :=
  if abs32 b ≤ abs32 a / 16384 then
    some (if xor32 a b < 0 then INT_MIN else INT_MAX)
  else if b = 0 then none
  else
    let result := wrap64 (Int.tdiv (wrap64 (a * 2 ^ FRACBITS)) b)
    some (wrap32 result)

/-- `FixedMod`: returns `a % b`, guaranteeing `0 <= a < b` (the C standard for
`%` does not guarantee this).  The remainder `INT_MIN % -1`, which C leaves
undefined, gives `none`. -/
def FixedMod (a b : Int) : Option Int :=
  if and32 b (wrap32 (b - 1)) ≠ 0 then
    if a = INT_MIN ∧ b = -1 then none
    else
      let r := Int.tmod a b
      some (if r < 0 then wrap32 (r + b) else r)
  else some (and32 a (wrap32 (b - 1)))

/-! ## Sector utilities (`p_spec.c`) -/

/-- The fields of `line_t` read by `getNextSector`.  The type comes from a
header that is not part of the sources at hand; a sector pointer is the number
of the sector, `none` for `NULL`, and `flags` is the bit pattern of the
field. -/
structure line_t where
  flags : Nat
  frontsector : Option Nat
  backsector : Option Nat

/-- The fields of `sector_t` read by `P_FindNextHighestFloor`. -/
structure sector_t where
  floorheight : Int
  linecount : Int
  lines : Int → line_t

/-- The sectors of the level, and the flag `ML_TWOSIDED`, whose header is not
part of the sources at hand. -/
structure Level where
  ML_TWOSIDED : Nat
  sectors : Nat → sector_t

/-- 20 adjoining sectors max! -/
def MAX_ADJOINING_SECTORS : Int := 20

/-- `getNextSector`: return the sector next to the current one, `NULL` if the
line is not two-sided. -/
def getNextSector (L : Level) (line : line_t) (sec : Nat) : Option Nat :=
  if line.flags &&& L.ML_TWOSIDED = 0 then none
  else if line.frontsector = some sec then line.backsector
  else line.frontsector

/-- The variables `height`, `h` and `heightlist` of
`P_FindNextHighestFloor`. -/
structure Scan where
  height : Int
  h : Int
  heightlist : Int → Int

/-- The body of the first loop of `P_FindNextHighestFloor`, on the line `i`.
The message printed when `h` is `MAX_ADJOINING_SECTORS + 2` changes no
variable and is left out. -/
def P_FindNextHighestFloor_body (L : Level) (sec : Nat) (i : Int) (st : Scan) : Scan :=
  match getNextSector L ((L.sectors sec).lines i) sec with
  | none => st
  | some other =>
    if (L.sectors other).floorheight > st.height then
      { height :=
          if st.h = MAX_ADJOINING_SECTORS + 1 then (L.sectors other).floorheight
          else st.height
        h := st.h + 1
        heightlist := arr_set st.heightlist st.h (L.sectors other).floorheight }
    else st

/-- The first loop of `P_FindNextHighestFloor` over the lines `0 .. n-1`. -/
def P_FindNextHighestFloor_scan (L : Level) (sec : Nat) : Nat → Scan → Scan
  | 0, st => st
  | n + 1, st => P_FindNextHighestFloor_body L sec n (P_FindNextHighestFloor_scan L sec n st)

/-- The second loop of `P_FindNextHighestFloor`: the value of `min` after the
cells `1 .. k` of `heightlist` have been looked at. -/
def P_FindNextHighestFloor_min (heightlist : Int → Int) : Nat → Int
  | 0 => heightlist 0
  | k + 1 =>
    let min := P_FindNextHighestFloor_min heightlist k
    if heightlist ((k : Int) + 1) < min then heightlist ((k : Int) + 1) else min

/-- `P_FindNextHighestFloor`: find the next highest floor in the surrounding
sectors.  The static buffer `heightlist` is grown beforehand to hold at least
`linecount` cells, so that every write is in bounds; its contents on entry are
the argument `heightlist`. -/
def P_FindNextHighestFloor (L : Level) (heightlist : Int → Int) (sec : Nat)
    (currentheight : Int) : Int :=
  let st := P_FindNextHighestFloor_scan L sec (L.sectors sec).linecount.toNat
    ⟨currentheight, 0, heightlist⟩
  if st.h = 0 then currentheight
  else P_FindNextHighestFloor_min st.heightlist (st.h - 1).toNat

/-- The floor heights, strictly greater than `currentheight`, of the sectors
adjoining `sec` across its lines `0 .. n-1`, one entry for each line and in
the order of the lines. -/
def higher_floors (L : Level) (sec : Nat) (currentheight : Int) : Nat → List Int
  | 0 => []
  | n + 1 =>
    match getNextSector L ((L.sectors sec).lines n) sec with
    | none => higher_floors L sec currentheight n
    | some other =>
      if currentheight < (L.sectors other).floorheight then
        higher_floors L sec currentheight n ++ [(L.sectors other).floorheight]
      else higher_floors L sec currentheight n

/-- A level in which sector 0, of floor height 0, has `n + 2` two-sided lines:
the first `n` lead to sector 1 (floor 100), the next to sector 2 (floor 200),
the last to sector 3 (floor 50). -/
def demoFloors (n : Int) : Level where
  ML_TWOSIDED := 4
  sectors := fun k =>
    if k = 0 then
      { floorheight := 0
        linecount := n + 2
        lines := fun i =>
          if i < n then ⟨4, some 0, some 1⟩
          else if i = n then ⟨4, some 0, some 2⟩
          else ⟨4, some 3, some 0⟩ }
    else if k = 1 then ⟨100, 0, fun _ => ⟨0, none, none⟩⟩
    else if k = 2 then ⟨200, 0, fun _ => ⟨0, none, none⟩⟩
    else ⟨50, 0, fun _ => ⟨0, none, none⟩⟩

/-- The state `demoState` with `ticdup = 3`, one tic built, and a command in
slot 0 that chats and has every button down. -/
def demoDup3 : State :=
  { demoState with
    ticdup := 3
    maketic := 1
    ticdata := fun _ => ⟨fun _ => ⟨5, 65, 255⟩, fun _ => true⟩ }

/-- The environment `demoEnv` with a clock that stands still at 0. -/
def demoFrozenEnv : Env := { demoEnv with I_GetTimeMS := fun _ => 0 }

/-! ## Arrays -/

@[simp] theorem arr_set_same {α : Type} (a : Int → α) (i : Int) (v : α) :
    arr_set a i v i = v := by
  simp [arr_set]

@[simp] theorem arr_set_ne {α : Type} (a : Int → α) (i j : Int) (v : α) (h : j ≠ i) :
    arr_set a i v j = a j := by
  simp [arr_set, h]

/-! ## `BuildNewTic` -/

theorem log_fields (s : State) (evs : List Event) :
    (s.log evs).ticdata = s.ticdata ∧ (s.log evs).maketic = s.maketic ∧
    (s.log evs).recvtic = s.recvtic ∧ (s.log evs).gametic = s.gametic ∧
    (s.log evs).ticdup = s.ticdup ∧ (s.log evs).localplayer = s.localplayer ∧
    (s.log evs).new_sync = s.new_sync ∧ (s.log evs).singletics = s.singletics ∧
    (s.log evs).skiptics = s.skiptics ∧ (s.log evs).lasttime = s.lasttime ∧
    (s.log evs).trace = s.trace ++ evs :=
  ⟨rfl, rfl, rfl, rfl, rfl, rfl, rfl, rfl, rfl, rfl, rfl⟩

/-- The two outcomes of `BuildNewTic`, by the pacing test. -/
theorem BuildNewTic_eq (E : Env) (s : State) :
    BuildNewTic E s =
      if BuildNewTic_refuses s then
        (false, s.log [Event.StartTic, Event.ProcessEvents, Event.RunMenu])
      else
        (true, BuildNewTic_store E (s.log [Event.StartTic, Event.ProcessEvents, Event.RunMenu])) := by
  unfold BuildNewTic BuildNewTic_refuses
  have hl : (s.log [Event.StartTic, Event.ProcessEvents, Event.RunMenu]).new_sync = s.new_sync := rfl
  have hm : (s.log [Event.StartTic, Event.ProcessEvents, Event.RunMenu]).maketic = s.maketic := rfl
  simp only [hl, hm]
  cases hs : s.new_sync
  · by_cases h5 : s.maketic - s.gametic.tdiv s.ticdup ≥ 5 <;> simp [h5]
  · by_cases h2 : s.maketic - s.gametic.tdiv s.ticdup > 2
    · simp [h2]
    · have h8 : ¬ s.maketic - s.gametic.tdiv s.ticdup > 8 := by omega
      simp [h2, h8]

theorem BuildNewTic_refuses_iff (s : State) :
    BuildNewTic_refuses s = true ↔
      (s.new_sync = true ∧ s.maketic - Int.tdiv s.gametic s.ticdup > 2) ∨
      (s.new_sync = false ∧ s.maketic - Int.tdiv s.gametic s.ticdup ≥ 5) := by
  unfold BuildNewTic_refuses
  cases s.new_sync <;> simp

theorem BuildNewTic_fst (E : Env) (s : State) :
    (BuildNewTic E s).1 = !BuildNewTic_refuses s := by
  rw [BuildNewTic_eq]
  cases BuildNewTic_refuses s <;> simp

/-- C6: `BuildNewTic` returns false exactly when the pacing test forbids
production (`new_sync` and more than 2 tics ahead, or old sync and at least 5
ahead), and a refused call leaves `maketic`, `gametic`, `recvtic` and every
slot of `ticdata` unchanged. -/
theorem C6_BuildNewTic_refusal (E : Env) (s : State) :
    ((BuildNewTic E s).1 = false ↔
      (s.new_sync = true ∧ s.maketic - Int.tdiv s.gametic s.ticdup > 2) ∨
      (s.new_sync = false ∧ s.maketic - Int.tdiv s.gametic s.ticdup ≥ 5)) ∧
    ((BuildNewTic E s).1 = false →
      (BuildNewTic E s).2.maketic = s.maketic ∧
      (BuildNewTic E s).2.gametic = s.gametic ∧
      (BuildNewTic E s).2.recvtic = s.recvtic ∧
      ∀ t, (BuildNewTic E s).2.ticdata t = s.ticdata t) := by
  constructor
  · rw [BuildNewTic_fst, ← BuildNewTic_refuses_iff]
    cases BuildNewTic_refuses s <;> simp
  · intro h
    rw [BuildNewTic_fst] at h
    have hr : BuildNewTic_refuses s = true := by
      cases hb : BuildNewTic_refuses s
      · rw [hb] at h; simp at h
      · rfl
    rw [BuildNewTic_eq, hr]
    exact ⟨rfl, rfl, rfl, fun _ => rfl⟩

/-- C6 at a state that is three tics ahead in `new_sync` mode: the call is
refused and leaves the cursors and the buffer alone. -/
theorem C6_BuildNewTic_refusal_witness :
    (BuildNewTic demoEnv demoAhead3).1 = false ∧
    (BuildNewTic demoEnv demoAhead3).2.maketic = demoAhead3.maketic ∧
    (BuildNewTic demoEnv demoAhead3).2.gametic = demoAhead3.gametic ∧
    (BuildNewTic demoEnv demoAhead3).2.recvtic = demoAhead3.recvtic ∧
    ∀ t, (BuildNewTic demoEnv demoAhead3).2.ticdata t = demoAhead3.ticdata t :=
  ⟨by decide, (C6_BuildNewTic_refusal demoEnv demoAhead3).2 (by decide)⟩

/-- C7: when `BuildNewTic` returns true with `maketic = m` on entry, the slot
`m % BACKUPTICS` holds for the local player the command `BuildTiccmd` made
from a zeroed command for tic `m`, the local player is marked in game there,
`maketic` is `m + 1`, and every other entry of that slot and every other
slot is unchanged. -/
theorem C7_BuildNewTic_success (E : Env) (s : State) (h : (BuildNewTic E s).1 = true) :
    ((BuildNewTic E s).2.ticdata (Int.tmod s.maketic E.BACKUPTICS)).cmds s.localplayer
        = E.BuildTiccmd ticcmd_t.zero s.maketic ∧
    ((BuildNewTic E s).2.ticdata (Int.tmod s.maketic E.BACKUPTICS)).ingame s.localplayer
        = true ∧
    (BuildNewTic E s).2.maketic = s.maketic + 1 ∧
    (∀ i, i ≠ s.localplayer →
      ((BuildNewTic E s).2.ticdata (Int.tmod s.maketic E.BACKUPTICS)).cmds i
          = (s.ticdata (Int.tmod s.maketic E.BACKUPTICS)).cmds i ∧
      ((BuildNewTic E s).2.ticdata (Int.tmod s.maketic E.BACKUPTICS)).ingame i
          = (s.ticdata (Int.tmod s.maketic E.BACKUPTICS)).ingame i) ∧
    (∀ t, t ≠ Int.tmod s.maketic E.BACKUPTICS →
      (BuildNewTic E s).2.ticdata t = s.ticdata t) := by
  rw [BuildNewTic_fst] at h
  have hr : BuildNewTic_refuses s = false := by
    cases hb : BuildNewTic_refuses s
    · rfl
    · rw [hb] at h; simp at h
  rw [BuildNewTic_eq, hr]
  simp only [Bool.false_eq_true, if_false, BuildNewTic_store, State.log]
  refine ⟨by simp, by simp, trivial, ?_, ?_⟩
  · intro i hi
    simp [hi]
  · intro t ht
    simp [ht]

/-- C7 at the initial state: the first call builds tic 0 into slot 0. -/
theorem C7_BuildNewTic_success_witness :
    (BuildNewTic demoEnv demoState).1 = true ∧
    ((BuildNewTic demoEnv demoState).2.ticdata
        (Int.tmod demoState.maketic demoEnv.BACKUPTICS)).cmds demoState.localplayer
      = ⟨1, 7, 0⟩ :=
  ⟨by decide, (C7_BuildNewTic_success demoEnv demoState (by decide)).1⟩

/-- What `BuildNewTic` leaves alone, and its effect on `maketic`. -/
theorem BuildNewTic_snd_fields (E : Env) (s : State) :
    (BuildNewTic E s).2.gametic = s.gametic ∧ (BuildNewTic E s).2.ticdup = s.ticdup ∧
    (BuildNewTic E s).2.new_sync = s.new_sync ∧
    (BuildNewTic E s).2.singletics = s.singletics ∧
    (BuildNewTic E s).2.localplayer = s.localplayer ∧
    (BuildNewTic E s).2.recvtic = s.recvtic ∧
    (BuildNewTic E s).2.skiptics = s.skiptics ∧
    (BuildNewTic E s).2.lasttime = s.lasttime ∧
    (BuildNewTic E s).2.maketic = s.maketic + (if BuildNewTic_refuses s then 0 else 1) := by
  rw [BuildNewTic_eq]
  cases BuildNewTic_refuses s
  · exact ⟨rfl, rfl, rfl, rfl, rfl, rfl, rfl, rfl, by simp [BuildNewTic_store, State.log]⟩
  · exact ⟨rfl, rfl, rfl, rfl, rfl, rfl, rfl, rfl, by simp [State.log]⟩

/-! ## `NetUpdate` -/

/-- A property that every call of `BuildNewTic` preserves is preserved by the
loop of `NetUpdate`. -/
theorem NetUpdate_loop_inv (E : Env) (P : State → Prop)
    (hB : ∀ s, P s → P (BuildNewTic E s).2) :
    ∀ (n : Nat) (s : State), P s → P (NetUpdate_loop E n s) := by
  intro n
  induction n with
  | zero => intro s h; exact h
  | succ n ih =>
    intro s h
    simp only [NetUpdate_loop]
    split
    · exact ih _ (hB s h)
    · exact hB s h

/-- A property that every call of `BuildNewTic` preserves and that does not
depend on `lasttime`, `skiptics` and the timer is preserved by `NetUpdate`. -/
theorem NetUpdate_inv (E : Env) (P : State → Prop)
    (hB : ∀ s, P s → P (BuildNewTic E s).2)
    (hT : ∀ (s : State) (r : Nat) (l k : Int), P s →
      P { s with reads_ms := r, lasttime := l, skiptics := k }) :
    ∀ s, P s → P (NetUpdate E s) := by
  intro s h
  unfold NetUpdate
  split
  · exact h
  · exact NetUpdate_loop_inv E P hB _ _ (hT s _ _ _ h)

/-- The loop of `NetUpdate` with bound `n` builds at most `n` tics and leaves
the pump's own variables alone. -/
theorem NetUpdate_loop_fields (E : Env) :
    ∀ (n : Nat) (s : State),
      s.maketic ≤ (NetUpdate_loop E n s).maketic ∧
      (NetUpdate_loop E n s).maketic ≤ s.maketic + n ∧
      (NetUpdate_loop E n s).skiptics = s.skiptics ∧
      (NetUpdate_loop E n s).lasttime = s.lasttime ∧
      (NetUpdate_loop E n s).singletics = s.singletics := by
  intro n
  induction n with
  | zero => intro s; simp [NetUpdate_loop]
  | succ n ih =>
    intro s
    obtain ⟨-, -, -, hst, -, -, hsk, hlt, hmk⟩ := BuildNewTic_snd_fields E s
    simp only [NetUpdate_loop]
    split
    · obtain ⟨h1, h2, h3, h4, h5⟩ := ih (BuildNewTic E s).2
      rw [h3, h4, h5, hsk, hlt, hst]
      refine ⟨?_, ?_, rfl, rfl, rfl⟩
      · rw [hmk] at h1; split at h1 <;> omega
      · rw [hmk] at h2; push_cast; split at h2 <;> omega
    · refine ⟨?_, ?_, hsk, hlt, hst⟩
      · rw [hmk]; split <;> omega
      · rw [hmk]; push_cast; split <;> omega

/-- The tic-debt step keeps the books: what is asked for plus the old debt is
what elapsed plus the new debt, and what is asked for is not negative. -/
theorem NetUpdate_debt_spec (skiptics newtics : Int) :
    (NetUpdate_debt skiptics newtics).1 + skiptics
      = newtics + (NetUpdate_debt skiptics newtics).2 ∧
    0 ≤ (NetUpdate_debt skiptics newtics).1 := by
  unfold NetUpdate_debt
  split
  · simp only [Int.sub_add_cancel, Int.add_zero, true_and]; omega
  · simp only [Int.zero_add, Int.le_refl, and_true]; omega

/-- One call of `NetUpdate` with `singletics` off: the debt is settled
against the elapsed tics and at most the tics asked for are built. -/
theorem NetUpdate_fields (E : Env) (s : State) (h : s.singletics = false) :
    NetUpdate_requested E s + s.skiptics = NetUpdate_elapsed E s + (NetUpdate E s).skiptics ∧
    s.maketic ≤ (NetUpdate E s).maketic ∧
    (NetUpdate E s).maketic ≤ s.maketic + NetUpdate_requested E s ∧
    (NetUpdate E s).singletics = false := by
  have hd := NetUpdate_debt_spec s.skiptics (NetUpdate_elapsed E s)
  unfold NetUpdate
  simp only [h, Bool.false_eq_true, if_false]
  obtain ⟨h1, h2, h3, -, h5⟩ := NetUpdate_loop_fields E
    (NetUpdate_debt (GetAdjustedTime E s).2.skiptics
      (Int.tdiv (GetAdjustedTime E s).1 (GetAdjustedTime E s).2.ticdup
        - (GetAdjustedTime E s).2.lasttime)).1.toNat
    { (GetAdjustedTime E s).2 with
      lasttime := Int.tdiv (GetAdjustedTime E s).1 (GetAdjustedTime E s).2.ticdup
      skiptics := (NetUpdate_debt (GetAdjustedTime E s).2.skiptics
        (Int.tdiv (GetAdjustedTime E s).1 (GetAdjustedTime E s).2.ticdup
          - (GetAdjustedTime E s).2.lasttime)).2 }
  have e1 : (GetAdjustedTime E s).2.skiptics = s.skiptics := rfl
  have e2 : (GetAdjustedTime E s).2.ticdup = s.ticdup := rfl
  have e3 : (GetAdjustedTime E s).2.lasttime = s.lasttime := rfl
  have e4 : (GetAdjustedTime E s).2.maketic = s.maketic := rfl
  have e5 : (GetAdjustedTime E s).2.singletics = s.singletics := rfl
  simp only [e1, e2, e3, e4, e5] at h1 h2 h3 h5 ⊢
  have hr : NetUpdate_requested E s
      = (NetUpdate_debt s.skiptics ((GetAdjustedTime E s).1.tdiv s.ticdup - s.lasttime)).1 := rfl
  have he : NetUpdate_elapsed E s = (GetAdjustedTime E s).1.tdiv s.ticdup - s.lasttime := rfl
  rw [he] at hd
  refine ⟨?_, h1, ?_, ?_⟩
  · rw [h3, hr, he]; exact hd.1
  · rw [hr]
    have := Int.toNat_of_nonneg hd.2
    omega
  · rw [h5]; exact h

/-- C4: in `new_sync` mode, whatever the value of `ticdup`, from a state in
which `maketic - gametic/ticdup` is at most 8 every sequence of `NetUpdate`
and `BuildNewTic` calls returns and ends in a state in which
`maketic - gametic/ticdup` is at most 8 again (`ticdup` and the sync mode
being unchanged). -/
theorem C4_pacing_bound (E : Env) (ops : List Op) (s : State)
    (hsync : s.new_sync = true)
    (h8 : s.maketic - Int.tdiv s.gametic s.ticdup ≤ 8)
    (hops : ∀ op ∈ ops, op.isProducer = true) :
    ∃ s1, run_ops E ops s = some s1 ∧ s1.ticdup = s.ticdup ∧ s1.new_sync = true ∧
      s1.maketic - Int.tdiv s1.gametic s1.ticdup ≤ 8 := by
  have hB : ∀ d (u : State),
      (u.new_sync = true ∧ u.ticdup = d ∧ u.maketic - Int.tdiv u.gametic u.ticdup ≤ 8) →
      ((BuildNewTic E u).2.new_sync = true ∧ (BuildNewTic E u).2.ticdup = d ∧
        (BuildNewTic E u).2.maketic
          - Int.tdiv (BuildNewTic E u).2.gametic (BuildNewTic E u).2.ticdup ≤ 8) := by
    intro d u hu
    obtain ⟨hg, htd, hns, -, -, -, -, -, hmk⟩ := BuildNewTic_snd_fields E u
    rw [hg, htd, hns, hmk]
    refine ⟨hu.1, hu.2.1, ?_⟩
    cases hr : BuildNewTic_refuses u
    · have hn : ¬ (BuildNewTic_refuses u = true) := by simp [hr]
      rw [BuildNewTic_refuses_iff] at hn
      simp only [hu.1, true_and, Bool.true_eq_false, false_and, or_false] at hn
      simp only [Bool.false_eq_true, if_false]
      omega
    · simp only [if_true]
      omega
  induction ops generalizing s with
  | nil => exact ⟨s, rfl, rfl, hsync, h8⟩
  | cons op ops ih =>
    have hop := hops op (List.mem_cons_self _ _)
    have hrest : ∀ o ∈ ops, o.isProducer = true :=
      fun o ho => hops o (List.mem_cons_of_mem _ ho)
    cases op with
    | NetUpdate =>
      have h1 := NetUpdate_inv E
        (fun u => u.new_sync = true ∧ u.ticdup = s.ticdup ∧
          u.maketic - Int.tdiv u.gametic u.ticdup ≤ 8)
        (hB s.ticdup) (fun _ _ _ _ h => h) s ⟨hsync, rfl, h8⟩
      obtain ⟨s1, hs1, htd, hns, hb⟩ := ih (NetUpdate E s) h1.1 h1.2.2 hrest
      exact ⟨s1, by simpa [run_ops, Op.apply] using hs1, by rw [htd, h1.2.1], hns, hb⟩
    | BuildNewTic =>
      have h1 := hB s.ticdup s ⟨hsync, rfl, h8⟩
      obtain ⟨s1, hs1, htd, hns, hb⟩ := ih (BuildNewTic E s).2 h1.1 h1.2.2 hrest
      exact ⟨s1, by simpa [run_ops, Op.apply] using hs1, by rw [htd, h1.2.1], hns, hb⟩
    | D_ReceiveTic c m => simp [Op.isProducer] at hop
    | TryRunTics fuel => simp [Op.isProducer] at hop

/-- C4 on a sequence of four calls from the initial state. -/
theorem C4_pacing_bound_witness :
    ∃ s1, run_ops demoEnv [Op.NetUpdate, Op.BuildNewTic, Op.BuildNewTic, Op.NetUpdate]
        demoState = some s1 ∧ s1.ticdup = demoState.ticdup ∧ s1.new_sync = true ∧
      s1.maketic - Int.tdiv s1.gametic s1.ticdup ≤ 8 :=
  C4_pacing_bound demoEnv [Op.NetUpdate, Op.BuildNewTic, Op.BuildNewTic, Op.NetUpdate]
    demoState (by decide) (by decide) (by decide)

/-- C5, as stated, fails, in two ways.  With a clock that has jumped by ten
tics, one call of `NetUpdate` from the initial state (no debt) builds three
tics and leaves no debt: built plus final debt is 3, initial debt plus elapsed
is 10.  And after the clock has stepped back, leaving a debt of 3, a call
during which 3 tics elapse asks for no tic at all and clears the debt: built
plus final debt is 0, initial debt plus elapsed is 6. -/
theorem C5_debt_conservation_counterexample :
    (demoState.singletics = false ∧
     pump_elapsed demoJumpEnv 1 demoState = 10 ∧
     ((pump demoJumpEnv 1 demoState).maketic - demoState.maketic)
         + (pump demoJumpEnv 1 demoState).skiptics = 3 ∧
     ((pump demoJumpEnv 1 demoState).maketic - demoState.maketic)
         + (pump demoJumpEnv 1 demoState).skiptics
       ≠ demoState.skiptics + pump_elapsed demoJumpEnv 1 demoState) ∧
    ((pump demoBackEnv 2 demoState).singletics = false ∧
     (pump demoBackEnv 2 demoState).skiptics = 3 ∧
     pump_elapsed demoBackEnv 1 (pump demoBackEnv 2 demoState) = 3 ∧
     pump_requested demoBackEnv 1 (pump demoBackEnv 2 demoState) = 0 ∧
     ((pump demoBackEnv 1 (pump demoBackEnv 2 demoState)).maketic
         - (pump demoBackEnv 2 demoState).maketic)
         + (pump demoBackEnv 1 (pump demoBackEnv 2 demoState)).skiptics = 0 ∧
     ((pump demoBackEnv 1 (pump demoBackEnv 2 demoState)).maketic
         - (pump demoBackEnv 2 demoState).maketic)
         + (pump demoBackEnv 1 (pump demoBackEnv 2 demoState)).skiptics
       ≠ (pump demoBackEnv 2 demoState).skiptics
         + pump_elapsed demoBackEnv 1 (pump demoBackEnv 2 demoState)) := by
  decide

/-- C5, amended: over `n` successive calls of `NetUpdate` with `singletics`
off, the tics asked for (the bounds of the production loops) plus the
initial `skiptics` equal the elapsed tics plus the final `skiptics`; the tics
built (the increase of `maketic`) are not negative and are at most the tics
asked for. -/
theorem C5_debt_conservation_amended (E : Env) (n : Nat) (s : State)
    (h : s.singletics = false) :
    pump_requested E n s + s.skiptics = pump_elapsed E n s + (pump E n s).skiptics ∧
    0 ≤ (pump E n s).maketic - s.maketic ∧
    (pump E n s).maketic - s.maketic ≤ pump_requested E n s := by
  induction n generalizing s with
  | zero => simp [pump, pump_requested, pump_elapsed]
  | succ n ih =>
    obtain ⟨h1, h2, h3, h4⟩ := NetUpdate_fields E s h
    obtain ⟨i1, i2, i3⟩ := ih (NetUpdate E s) h4
    simp only [pump, pump_requested, pump_elapsed]
    refine ⟨?_, ?_, ?_⟩ <;> omega

/-- C5, amended, on two calls with the jumped clock: ten tics are asked for
and three are built. -/
theorem C5_debt_conservation_amended_witness :
    demoState.singletics = false ∧
    pump_requested demoJumpEnv 2 demoState + demoState.skiptics
      = pump_elapsed demoJumpEnv 2 demoState + (pump demoJumpEnv 2 demoState).skiptics ∧
    0 ≤ (pump demoJumpEnv 2 demoState).maketic - demoState.maketic ∧
    (pump demoJumpEnv 2 demoState).maketic - demoState.maketic
      ≤ pump_requested demoJumpEnv 2 demoState :=
  ⟨by decide, C5_debt_conservation_amended demoJumpEnv 2 demoState (by decide)⟩

/-! ## `D_ReceiveTic` -/

/-- The loop of `D_ReceiveTic` never writes the local player's entries. -/
theorem D_ReceiveTic_loop_local (lp : Int) (c : Option (Int → ticcmd_t))
    (m : Option (Int → Bool)) :
    ∀ (n : Nat) (set set1 : ticcmd_set_t),
      D_ReceiveTic_loop lp c m n set = some set1 →
      set1.cmds lp = set.cmds lp ∧ set1.ingame lp = set.ingame lp := by
  intro n
  induction n with
  | zero =>
    intro set set1 h
    simp only [D_ReceiveTic_loop, Option.some.injEq] at h
    subst h
    exact ⟨rfl, rfl⟩
  | succ n ih =>
    intro set set1 h
    simp only [D_ReceiveTic_loop] at h
    cases hl : D_ReceiveTic_loop lp c m n set with
    | none => rw [hl] at h; simp at h
    | some set0 =>
      rw [hl] at h
      have h0 := ih set set0 hl
      by_cases hn : (n : Int) = lp
      · simp only [hn, if_true, Option.some.injEq] at h
        subst h
        exact h0
      · simp only [hn, if_false] at h
        cases c with
        | none => simp at h
        | some cf =>
          cases m with
          | none => simp at h
          | some mf =>
            simp only [Option.some.injEq] at h
            subst h
            have hne : lp ≠ (n : Int) := fun e => hn e.symm
            simp [hne, h0.1, h0.2]

/-- With both arrays present the loop of `D_ReceiveTic` returns, and it has
copied the entries of the players `0 .. n-1` other than the local one. -/
theorem D_ReceiveTic_loop_some (lp : Int) (c : Int → ticcmd_t) (m : Int → Bool) :
    ∀ (n : Nat) (set : ticcmd_set_t),
      ∃ set1, D_ReceiveTic_loop lp (some c) (some m) n set = some set1 ∧
        (∀ j : Int, set1.cmds j =
          if 0 ≤ j ∧ j < (n : Int) ∧ j ≠ lp then c j else set.cmds j) ∧
        (∀ j : Int, set1.ingame j =
          if 0 ≤ j ∧ j < (n : Int) ∧ j ≠ lp then m j else set.ingame j) := by
  intro n
  induction n with
  | zero =>
    intro set
    refine ⟨set, rfl, ?_, ?_⟩ <;> intro j <;> split_ifs with h <;>
      first | rfl | (exfalso; omega)
  | succ n ih =>
    intro set
    obtain ⟨set0, hl, hc, hm⟩ := ih set
    simp only [D_ReceiveTic_loop, hl]
    by_cases hn : (n : Int) = lp
    · refine ⟨set0, by simp [hn], ?_, ?_⟩
      · intro j
        rw [hc j]
        split_ifs with h1 h2 h2 <;> first | rfl | (exfalso; omega)
      · intro j
        rw [hm j]
        split_ifs with h1 h2 h2 <;> first | rfl | (exfalso; omega)
    · refine ⟨{ cmds := arr_set set0.cmds n (c n), ingame := arr_set set0.ingame n (m n) },
        by simp only [hn, if_false], ?_, ?_⟩
      · intro j
        by_cases hjn : j = (n : Int)
        · subst hjn
          dsimp only
          rw [arr_set_same]
          split_ifs with h1 <;> first | rfl | (exfalso; omega)
        · dsimp only
          rw [arr_set_ne _ _ _ _ hjn, hc j]
          split_ifs with h1 h2 h2 <;> first | rfl | (exfalso; omega)
      · intro j
        by_cases hjn : j = (n : Int)
        · subst hjn
          dsimp only
          rw [arr_set_same]
          split_ifs with h1 <;> first | rfl | (exfalso; omega)
        · dsimp only
          rw [arr_set_ne _ _ _ _ hjn, hm j]
          split_ifs with h1 h2 h2 <;> first | rfl | (exfalso; omega)

/-- The result of `D_ReceiveTic`, when it returns: either the sentinel call,
which changes nothing, or the slot `recvtic % BACKUPTICS` rewritten by the
loop and `recvtic` incremented. -/
theorem D_ReceiveTic_cases (E : Env) (s s1 : State) (c : Option (Int → ticcmd_t))
    (m : Option (Int → Bool)) (h : D_ReceiveTic E s c m = some s1) :
    s1 = s ∨
    ∃ set, D_ReceiveTic_loop s.localplayer c m E.NET_MAXPLAYERS
        (s.ticdata (Int.tmod s.recvtic E.BACKUPTICS)) = some set ∧
      s1 = { s with
        ticdata := arr_set s.ticdata (Int.tmod s.recvtic E.BACKUPTICS) set
        recvtic := s.recvtic + 1 } := by
  unfold D_ReceiveTic at h
  by_cases hs : (c.isNone && m.isNone) = true
  · left
    simp only [hs, if_true, Option.some.injEq] at h
    exact h.symm
  · right
    simp only [hs] at h
    cases hl : D_ReceiveTic_loop s.localplayer c m E.NET_MAXPLAYERS
        (s.ticdata (Int.tmod s.recvtic E.BACKUPTICS)) with
    | none => simp [hl] at h
    | some set =>
      refine ⟨set, rfl, ?_⟩
      simp only [hl, Bool.false_eq_true, if_false, Option.some.injEq] at h
      exact h.symm

/-- C8: `D_ReceiveTic` returns whenever its two arguments are both present or
both absent, and whatever its arguments it leaves the local player's command
and presence flag unchanged in every slot of `ticdata`. -/
theorem C8_D_ReceiveTic_local_authority (E : Env) (s : State)
    (c : Option (Int → ticcmd_t)) (m : Option (Int → Bool)) :
    (c.isSome = m.isSome → (D_ReceiveTic E s c m).isSome = true) ∧
    ∀ s1, D_ReceiveTic E s c m = some s1 →
      ∀ t, (s1.ticdata t).cmds s.localplayer = (s.ticdata t).cmds s.localplayer ∧
        (s1.ticdata t).ingame s.localplayer = (s.ticdata t).ingame s.localplayer := by
  constructor
  · intro hcm
    cases c with
    | none =>
      cases m with
      | none => simp [D_ReceiveTic]
      | some mf => simp at hcm
    | some cf =>
      cases m with
      | none => simp at hcm
      | some mf =>
        obtain ⟨set, hl, _, _⟩ := D_ReceiveTic_loop_some s.localplayer cf mf E.NET_MAXPLAYERS
          (s.ticdata (Int.tmod s.recvtic E.BACKUPTICS))
        simp [D_ReceiveTic, hl]
  · intro s1 h t
    rcases D_ReceiveTic_cases E s s1 c m h with h1 | ⟨set, hl, h1⟩
    · subst h1
      exact ⟨rfl, rfl⟩
    · subst h1
      have h0 := D_ReceiveTic_loop_local s.localplayer c m _ _ _ hl
      by_cases ht : t = Int.tmod s.recvtic E.BACKUPTICS
      · subst ht
        simp [h0.1, h0.2]
      · simp [ht]

/-- C8 at a batch with both arrays present: the call returns and the local
player's entries are as before. -/
theorem C8_D_ReceiveTic_local_authority_witness :
    (D_ReceiveTic demoEnv demoState (some demoCmds) (some demoMask)).isSome = true ∧
    ∀ s1, D_ReceiveTic demoEnv demoState (some demoCmds) (some demoMask) = some s1 →
      ∀ t, (s1.ticdata t).cmds demoState.localplayer
          = (demoState.ticdata t).cmds demoState.localplayer ∧
        (s1.ticdata t).ingame demoState.localplayer
          = (demoState.ticdata t).ingame demoState.localplayer :=
  ⟨(C8_D_ReceiveTic_local_authority demoEnv demoState (some demoCmds) (some demoMask)).1 rfl,
   (C8_D_ReceiveTic_local_authority demoEnv demoState (some demoCmds) (some demoMask)).2⟩

/-- C9: the disconnect call `D_ReceiveTic(NULL, NULL)` returns with the state
as it was; in particular `recvtic` and every slot of `ticdata` are
unchanged. -/
theorem C9_D_ReceiveTic_sentinel (E : Env) (s : State) :
    D_ReceiveTic E s none none = some s ∧
    ∃ s1, D_ReceiveTic E s none none = some s1 ∧ s1.recvtic = s.recvtic ∧
      ∀ t, s1.ticdata t = s.ticdata t :=
  ⟨rfl, s, rfl, rfl, fun _ => rfl⟩

/-- C10: a call of `D_ReceiveTic` with both arrays present and `recvtic = r`
on entry returns; afterwards the slot `r % BACKUPTICS` holds, for every
player `i` below `NET_MAXPLAYERS` other than the local one, the command
`ticcmds[i]` and the flag `players_mask[i]`, every other slot is unchanged,
and `recvtic = r + 1`. -/
theorem C10_D_ReceiveTic_intake (E : Env) (s : State) (c : Int → ticcmd_t)
    (m : Int → Bool) :
    ∃ s1, D_ReceiveTic E s (some c) (some m) = some s1 ∧
      (∀ i : Int, 0 ≤ i → i < (E.NET_MAXPLAYERS : Int) → i ≠ s.localplayer →
        (s1.ticdata (Int.tmod s.recvtic E.BACKUPTICS)).cmds i = c i ∧
        (s1.ticdata (Int.tmod s.recvtic E.BACKUPTICS)).ingame i = m i) ∧
      (∀ t, t ≠ Int.tmod s.recvtic E.BACKUPTICS → s1.ticdata t = s.ticdata t) ∧
      s1.recvtic = s.recvtic + 1 := by
  obtain ⟨set, hl, hc, hm⟩ := D_ReceiveTic_loop_some s.localplayer c m E.NET_MAXPLAYERS
    (s.ticdata (Int.tmod s.recvtic E.BACKUPTICS))
  refine ⟨{ s with
    ticdata := arr_set s.ticdata (Int.tmod s.recvtic E.BACKUPTICS) set
    recvtic := s.recvtic + 1 }, ?_, ?_, ?_, rfl⟩
  · simp [D_ReceiveTic, hl]
  · intro i h0 h1 h2
    have hi : 0 ≤ i ∧ i < (E.NET_MAXPLAYERS : Int) ∧ i ≠ s.localplayer := ⟨h0, h1, h2⟩
    simp [hc i, hm i, hi]
  · intro t ht
    simp [ht]

/-- C10 at the initial state, for player 3 of the batch `demoCmds`. -/
theorem C10_D_ReceiveTic_intake_witness :
    ∃ s1, D_ReceiveTic demoEnv demoState (some demoCmds) (some demoMask) = some s1 ∧
      ((s1.ticdata (Int.tmod demoState.recvtic demoEnv.BACKUPTICS)).cmds 3 = demoCmds 3 ∧
       (s1.ticdata (Int.tmod demoState.recvtic demoEnv.BACKUPTICS)).ingame 3 = demoMask 3) ∧
      s1.recvtic = demoState.recvtic + 1 :=
  match C10_D_ReceiveTic_intake demoEnv demoState demoCmds demoMask with
  | ⟨s1, h, hi, _, hr⟩ => ⟨s1, h, hi 3 (by decide) (by decide) (by decide), hr⟩

/-! ## `TryRunTics` -/

theorem tdiv_add_self (g d : Int) (hg : 0 ≤ g) (hd : 1 ≤ d) :
    Int.tdiv (g + d) d = Int.tdiv g d + 1 := by
  rw [Int.tdiv_eq_ediv (by omega) (by omega), Int.tdiv_eq_ediv hg (by omega)]
  have h := Int.add_mul_ediv_right g 1 (c := d) (by omega)
  rw [Int.one_mul] at h
  exact h

theorem runTics_append (a b : List Event) : runTics (a ++ b) = runTics a ++ runTics b := by
  induction a with
  | nil => rfl
  | cons e a ih => cases e <;> simp [runTics, ih]

theorem SinglePlayerClear_loop_cmds (lp : Int) :
    ∀ (n : Nat) (set : ticcmd_set_t), (SinglePlayerClear_loop lp n set).cmds = set.cmds := by
  intro n
  induction n with
  | zero => intro set; rfl
  | succ n ih =>
    intro set
    simp only [SinglePlayerClear_loop]
    split
    · exact ih set
    · exact ih set

/-- The effect of `n` iterations of the duplication loop on the slot `slot`:
`gametic` advances by `n`, only the slot `slot` of `ticdata` is written, and
`n` calls of `RunTic` are made on that slot, the first of them with the
commands the slot held on entry. -/
theorem TryRunTics_dup_spec (E : Env) (slot : Int) :
    ∀ (n : Nat) (s : State),
      (TryRunTics_dup E slot n s).gametic = s.gametic + n ∧
      (TryRunTics_dup E slot n s).maketic = s.maketic ∧
      (TryRunTics_dup E slot n s).recvtic = s.recvtic ∧
      (TryRunTics_dup E slot n s).ticdup = s.ticdup ∧
      (TryRunTics_dup E slot n s).localplayer = s.localplayer ∧
      (TryRunTics_dup E slot n s).new_sync = s.new_sync ∧
      (TryRunTics_dup E slot n s).singletics = s.singletics ∧
      (TryRunTics_dup E slot n s).skiptics = s.skiptics ∧
      (TryRunTics_dup E slot n s).lasttime = s.lasttime ∧
      (∀ t, t ≠ slot → (TryRunTics_dup E slot n s).ticdata t = s.ticdata t) ∧
      ∃ evs, runTics (TryRunTics_dup E slot n s).trace = runTics s.trace ++ evs ∧
        evs.length = n ∧ (∀ r ∈ evs, r.1 = slot) ∧
        (∀ r, evs.head? = some r → r.2.1 = (s.ticdata slot).cmds) := by
  intro n
  induction n with
  | zero =>
    intro s
    refine ⟨by simp [TryRunTics_dup], rfl, rfl, rfl, rfl, rfl, rfl, rfl, rfl, fun _ _ => rfl,
      [], by simp [TryRunTics_dup], rfl, by simp, by simp⟩
  | succ n ih =>
    intro s
    obtain ⟨h1, h2, h3, h4, h5, h6, h7, h8, h9, h10, evs, h11, h12, h13, -⟩ :=
      ih (TryRunTics_dup_body E slot s)
    simp only [TryRunTics_dup]
    rw [h1, h2, h3, h4, h5, h6, h7, h8, h9]
    refine ⟨?_, rfl, rfl, rfl, rfl, rfl, rfl, rfl, rfl, ?_, ?_⟩
    · simp only [TryRunTics_dup_body, State.log]
      push_cast
      omega
    · intro t ht
      rw [h10 t ht]
      simp only [TryRunTics_dup_body, State.log]
      exact arr_set_ne _ _ _ _ ht
    · refine ⟨(slot, (s.ticdata slot).cmds, (s.ticdata slot).ingame) :: evs, ?_, ?_, ?_, ?_⟩
      · rw [h11]
        have : (TryRunTics_dup_body E slot s).trace
            = s.trace ++ [Event.RunTic slot (s.ticdata slot).cmds (s.ticdata slot).ingame] := rfl
        rw [this, runTics_append]
        simp [runTics]
      · simp [h12]
      · intro r hr
        rcases List.mem_cons.mp hr with h | h
        · rw [h]
        · exact h13 r h
      · intro r hr
        simp only [List.head?_cons, Option.some.injEq] at hr
        rw [← hr]

/-- The effect of running one slot (lines 440-453 of `TryRunTics`). -/
theorem TryRunTics_slot_spec (E : Env) (s : State) :
    (TryRunTics_slot E s).gametic = s.gametic + s.ticdup.toNat ∧
    (TryRunTics_slot E s).maketic = s.maketic ∧
    (TryRunTics_slot E s).recvtic = s.recvtic ∧
    (TryRunTics_slot E s).ticdup = s.ticdup ∧
    (TryRunTics_slot E s).localplayer = s.localplayer ∧
    (TryRunTics_slot E s).new_sync = s.new_sync ∧
    (TryRunTics_slot E s).singletics = s.singletics ∧
    (TryRunTics_slot E s).skiptics = s.skiptics ∧
    (TryRunTics_slot E s).lasttime = s.lasttime ∧
    (∀ t, t ≠ Int.tmod (Int.tdiv s.gametic s.ticdup) E.BACKUPTICS →
      (TryRunTics_slot E s).ticdata t = s.ticdata t) ∧
    ∃ evs, runTics (TryRunTics_slot E s).trace = runTics s.trace ++ evs ∧
      evs.length = s.ticdup.toNat ∧
      (∀ r ∈ evs, r.1 = Int.tmod (Int.tdiv s.gametic s.ticdup) E.BACKUPTICS) ∧
      (∀ r, evs.head? = some r →
        r.2.1 = (s.ticdata (Int.tmod (Int.tdiv s.gametic s.ticdup) E.BACKUPTICS)).cmds) := by
  obtain ⟨h1, h2, h3, h4, h5, h6, h7, h8, h9, h10, evs, h11, h12, h13, h14⟩ :=
    TryRunTics_dup_spec E (Int.tmod (Int.tdiv s.gametic s.ticdup) E.BACKUPTICS) s.ticdup.toNat
      { s with
        ticdata := arr_set s.ticdata (Int.tmod (Int.tdiv s.gametic s.ticdup) E.BACKUPTICS)
          (SinglePlayerClear E s.localplayer
            (s.ticdata (Int.tmod (Int.tdiv s.gametic s.ticdup) E.BACKUPTICS))) }
  refine ⟨h1, h2, h3, h4, h5, h6, h7, h8, h9, ?_, evs, h11, h12, h13, ?_⟩
  · intro t ht
    have := h10 t ht
    simp only [TryRunTics_slot]
    rw [this]
    exact arr_set_ne _ _ _ _ ht
  · intro r hr
    rw [h14 r hr]
    simp only [arr_set_same, SinglePlayerClear]
    exact SinglePlayerClear_loop_cmds _ _ _

theorem TryRunTics_counts_pos (b : Bool) (realtics availabletics : Int) :
    1 ≤ TryRunTics_counts b realtics availabletics := by
  unfold TryRunTics_counts
  simp only
  split <;> omega

/-- What `NetUpdate` leaves alone whatever the mode: `gametic`, `ticdup`, and
it never lowers `maketic`. -/
theorem NetUpdate_cursors (E : Env) (s : State) :
    (NetUpdate E s).gametic = s.gametic ∧ (NetUpdate E s).ticdup = s.ticdup ∧
    s.maketic ≤ (NetUpdate E s).maketic := by
  refine NetUpdate_inv E
    (fun u => u.gametic = s.gametic ∧ u.ticdup = s.ticdup ∧ s.maketic ≤ u.maketic)
    ?_ (fun _ _ _ _ h => h) s ⟨rfl, rfl, Int.le_refl _⟩
  intro u hu
  obtain ⟨hg, htd, -, -, -, -, -, -, hmk⟩ := BuildNewTic_snd_fields E u
  rw [hg, htd, hmk]
  refine ⟨hu.1, hu.2.1, ?_⟩
  split <;> omega

/-- The wait loop of `TryRunTics`, when it returns, has preserved every
property `NetUpdate` preserves and has made `counts` tics available. -/
theorem TryRunTics_wait_inv (E : Env) (counts : Int) (P : State → Prop)
    (hN : ∀ s, P s → P (NetUpdate E s)) :
    ∀ (fuel : Nat) (lowtic : Int) (s : State) (r : Int × State),
      P s → lowtic = s.maketic → TryRunTics_wait E counts fuel lowtic s = some r →
      P r.2 ∧ Int.tdiv r.2.gametic r.2.ticdup + counts ≤ r.2.maketic := by
  intro fuel
  induction fuel with
  | zero =>
    intro lowtic s r hP hl h
    simp only [TryRunTics_wait, PlayersInGame, Bool.not_true, Bool.false_or,
      decide_eq_true_eq] at h
    split at h
    · simp at h
    · simp only [Option.some.injEq] at h
      subst h
      exact ⟨hP, by simp only; omega⟩
  | succ fuel ih =>
    intro lowtic s r hP hl h
    simp only [TryRunTics_wait, PlayersInGame, Bool.not_true, Bool.false_or,
      decide_eq_true_eq] at h
    split at h
    · exact ih _ _ r (hN s hP) rfl h
    · simp only [Option.some.injEq] at h
      subst h
      exact ⟨hP, by simp only; omega⟩

/-- The run loop of `TryRunTics` preserves every property that `NetUpdate`
preserves and that the run of one available slot preserves. -/
theorem TryRunTics_run_inv (E : Env) (P : State → Prop)
    (hP : ∀ s, P s → 1 ≤ s.ticdup ∧ 0 ≤ s.gametic)
    (hN : ∀ s, P s → P (NetUpdate E s))
    (hS : ∀ s, P s → Int.tdiv s.gametic s.ticdup < s.maketic → P (TryRunTics_slot E s)) :
    ∀ (n : Nat) (s : State), P s → Int.tdiv s.gametic s.ticdup + n ≤ s.maketic →
      P (TryRunTics_run E n s) := by
  intro n
  induction n with
  | zero => intro s h _; exact h
  | succ n ih =>
    intro s h hn
    simp only [TryRunTics_run, PlayersInGame, Bool.not_true, Bool.false_eq_true, if_false]
    have h1 : P (TryRunTics_slot E s) := hS s h (by push_cast at hn; omega)
    obtain ⟨hd, hg⟩ := hP s h
    obtain ⟨e1, e2, -, e4, -⟩ := TryRunTics_slot_spec E s
    obtain ⟨c1, c2, c3⟩ := NetUpdate_cursors E (TryRunTics_slot E s)
    apply ih _ (hN _ h1)
    rw [c1, c2, e1, e4, Int.toNat_of_nonneg (by omega), tdiv_add_self _ _ hg hd]
    push_cast at hn
    omega

/-- A returning call of `TryRunTics` preserves every property that
`BuildNewTic` and the run of one available slot preserve and that does not
depend on the timers, `lasttime`, `skiptics` and `oldentertics`. -/
theorem TryRunTics_inv (E : Env) (P : State → Prop)
    (hP : ∀ s, P s → 1 ≤ s.ticdup ∧ 0 ≤ s.gametic)
    (hB : ∀ s, P s → P (BuildNewTic E s).2)
    (hT : ∀ (s : State) (r : Nat) (l k : Int), P s →
      P { s with reads_ms := r, lasttime := l, skiptics := k })
    (hO : ∀ (s : State) (r : Nat) (o : Int), P s →
      P { s with reads_tic := r, oldentertics := o })
    (hS : ∀ s, P s → Int.tdiv s.gametic s.ticdup < s.maketic → P (TryRunTics_slot E s)) :
    ∀ (fuel : Nat) (s s1 : State), P s → TryRunTics E fuel s = some s1 → P s1 := by
  intro fuel s s1 h hr
  have hN := NetUpdate_inv E P hB hT
  have h2 : P (TryRunTics_enter E s) := by
    unfold TryRunTics_enter
    simp only
    split
    · exact hB _ (hO s _ _ h)
    · exact hN _ (hO s _ _ h)
  unfold TryRunTics at hr
  simp only at hr
  split at hr
  · simp at hr
  · rename_i r hw
    simp only [Option.some.injEq] at hr
    subst hr
    obtain ⟨h3, h4⟩ := TryRunTics_wait_inv E _ P hN fuel _ _ r h2 rfl hw
    apply TryRunTics_run_inv E P hP hN hS _ _ h3
    rw [Int.toNat_of_nonneg (by
      have := TryRunTics_counts_pos (TryRunTics_enter E s).new_sync
        (Int.tdiv (E.I_GetTime s.reads_tic) s.ticdup - s.oldentertics)
        (GetLowTic (TryRunTics_enter E s)
          - Int.tdiv (TryRunTics_enter E s).gametic (TryRunTics_enter E s).ticdup)
      omega)]
    exact h4

/-- A sequence of calls that returns preserves every property that each of
`BuildNewTic`, `D_ReceiveTic` and the run of one available slot preserves and
that does not depend on the timers, `lasttime`, `skiptics` and
`oldentertics`. -/
theorem run_ops_inv (E : Env) (P : State → Prop)
    (hP : ∀ s, P s → 1 ≤ s.ticdup ∧ 0 ≤ s.gametic)
    (hB : ∀ s, P s → P (BuildNewTic E s).2)
    (hT : ∀ (s : State) (r : Nat) (l k : Int), P s →
      P { s with reads_ms := r, lasttime := l, skiptics := k })
    (hO : ∀ (s : State) (r : Nat) (o : Int), P s →
      P { s with reads_tic := r, oldentertics := o })
    (hS : ∀ s, P s → Int.tdiv s.gametic s.ticdup < s.maketic → P (TryRunTics_slot E s))
    (hR : ∀ s c m s1, P s → D_ReceiveTic E s c m = some s1 → P s1) :
    ∀ (ops : List Op) (s s1 : State), P s → run_ops E ops s = some s1 → P s1 := by
  intro ops
  induction ops with
  | nil =>
    intro s s1 h hr
    simp only [run_ops, Option.some.injEq] at hr
    subst hr
    exact h
  | cons op ops ih =>
    intro s s1 h hr
    simp only [run_ops] at hr
    split at hr
    · simp at hr
    · rename_i s2 h2
      apply ih s2 s1 _ hr
      cases op with
      | NetUpdate =>
        simp only [Op.apply, Option.some.injEq] at h2
        subst h2
        exact NetUpdate_inv E P hB hT s h
      | BuildNewTic =>
        simp only [Op.apply, Option.some.injEq] at h2
        subst h2
        exact hB s h
      | D_ReceiveTic c m => exact hR s c m s2 h h2
      | TryRunTics fuel => exact TryRunTics_inv E P hP hB hT hO hS fuel s s2 h h2

/-! ## The cursor invariant -/

theorem CursorInv_BuildNewTic (E : Env) (s : State) (h : CursorInv s) :
    CursorInv (BuildNewTic E s).2 := by
  obtain ⟨hg, htd, -, -, -, -, -, -, hmk⟩ := BuildNewTic_snd_fields E s
  unfold CursorInv at h ⊢
  rw [hg, htd, hmk]
  refine ⟨h.1, h.2.1, ?_⟩
  split <;> omega

theorem CursorInv_slot (E : Env) (s : State) (h : CursorInv s)
    (hlt : Int.tdiv s.gametic s.ticdup < s.maketic) : CursorInv (TryRunTics_slot E s) := by
  obtain ⟨e1, e2, -, e4, -⟩ := TryRunTics_slot_spec E s
  unfold CursorInv at h ⊢
  rw [e1, e2, e4, Int.toNat_of_nonneg (by omega), tdiv_add_self _ _ h.2.1 h.1]
  refine ⟨h.1, ?_, ?_⟩ <;> omega

/-- What `D_ReceiveTic` does to the cursors and the parameters: `recvtic`
advances by one unless both arguments are absent, the rest is unchanged. -/
theorem D_ReceiveTic_fields (E : Env) (s s1 : State) (c : Option (Int → ticcmd_t))
    (m : Option (Int → Bool)) (h : D_ReceiveTic E s c m = some s1) :
    s1.recvtic = s.recvtic + (if (c.isNone && m.isNone) = true then 0 else 1) ∧
    s1.gametic = s.gametic ∧ s1.maketic = s.maketic ∧ s1.ticdup = s.ticdup ∧
    s1.localplayer = s.localplayer ∧ s1.trace = s.trace := by
  unfold D_ReceiveTic at h
  by_cases hs : (c.isNone && m.isNone) = true
  · simp only [hs, if_true, Option.some.injEq] at h
    subst h
    rw [if_pos hs]
    exact ⟨by omega, rfl, rfl, rfl, rfl, rfl⟩
  · simp only [hs] at h
    cases hl : D_ReceiveTic_loop s.localplayer c m E.NET_MAXPLAYERS
        (s.ticdata (Int.tmod s.recvtic E.BACKUPTICS)) with
    | none => simp [hl] at h
    | some set =>
      simp only [hl, Bool.false_eq_true, if_false, Option.some.injEq] at h
      subst h
      rw [if_neg hs]
      exact ⟨rfl, rfl, rfl, rfl, rfl, rfl⟩

theorem CursorInv_D_ReceiveTic (E : Env) (s s1 : State) (c : Option (Int → ticcmd_t))
    (m : Option (Int → Bool)) (h : CursorInv s) (hr : D_ReceiveTic E s c m = some s1) :
    CursorInv s1 := by
  obtain ⟨-, e2, e3, e4, -⟩ := D_ReceiveTic_fields E s s1 c m hr
  unfold CursorInv at h ⊢
  rw [e2, e3, e4]
  exact h

/-- The cursor invariant, together with any fixed value of `ticdup`, is kept
by every sequence of calls that returns. -/
theorem CursorInv_run_ops (E : Env) (d : Int) (ops : List Op) (s s1 : State)
    (h : CursorInv s ∧ s.ticdup = d) (hr : run_ops E ops s = some s1) :
    CursorInv s1 ∧ s1.ticdup = d := by
  refine run_ops_inv E (fun u => CursorInv u ∧ u.ticdup = d) ?_ ?_ ?_ ?_ ?_ ?_ ops s s1 h hr
  · intro u hu
    exact ⟨hu.1.1, hu.1.2.1⟩
  · intro u hu
    exact ⟨CursorInv_BuildNewTic E u hu.1, by rw [(BuildNewTic_snd_fields E u).2.1]; exact hu.2⟩
  · intro u _ _ _ hu
    exact hu
  · intro u _ _ hu
    exact hu
  · intro u hu hlt
    exact ⟨CursorInv_slot E u hu.1 hlt, by rw [(TryRunTics_slot_spec E u).2.2.2.1]; exact hu.2⟩
  · intro u c m u1 hu h1
    exact ⟨CursorInv_D_ReceiveTic E u u1 c m hu.1 h1,
      by rw [(D_ReceiveTic_fields E u u1 c m h1).2.2.2.1]; exact hu.2⟩

theorem CursorInv_zeroed (s : State) (hz : s.zeroed) (hd : 1 ≤ s.ticdup) : CursorInv s := by
  obtain ⟨h1, -, h3⟩ := hz
  unfold CursorInv
  rw [h1, h3]
  simp [hd]

/-- C1: from zeroed cursors and with `ticdup ≥ 1`, after every sequence of
`NetUpdate`, `BuildNewTic`, `D_ReceiveTic` and `TryRunTics` calls that returns,
`ticdup` is what it was and `gametic/ticdup ≤ maketic`. -/
theorem C1_cursor_invariant_producer (E : Env) (ops : List Op) (s0 s : State)
    (hz : s0.zeroed) (hd : 1 ≤ s0.ticdup) (h : run_ops E ops s0 = some s) :
    s.ticdup = s0.ticdup ∧ Int.tdiv s.gametic s.ticdup ≤ s.maketic := by
  have h1 := CursorInv_run_ops E s0.ticdup ops s0 s ⟨CursorInv_zeroed s0 hz hd, rfl⟩ h
  exact ⟨h1.2, h1.1.2.2⟩

/-- C1 on the sequence `demoOps` from the initial state. -/
theorem C1_cursor_invariant_producer_witness :
    ∃ s, run_ops demoEnv demoOps demoState = some s ∧
      s.ticdup = demoState.ticdup ∧ Int.tdiv s.gametic s.ticdup ≤ s.maketic :=
  ⟨(run_ops demoEnv demoOps demoState).getD demoState, rfl,
    C1_cursor_invariant_producer demoEnv demoOps demoState _ ⟨rfl, rfl, rfl⟩ (by decide) rfl⟩

/-- C2, as stated, fails: from the initial state (zeroed cursors, `ticdup = 1`)
one call of `TryRunTics` returns having run tic 0 (`gametic = 1`) although
nothing was ever received (`recvtic = 0`), so `gametic/ticdup ≤ recvtic` does
not hold. -/
theorem C2_cursor_invariant_remote_counterexample :
    demoState.zeroed ∧ 1 ≤ demoState.ticdup ∧
    ∃ s, run_ops demoEnv [Op.TryRunTics 0] demoState = some s ∧
      s.gametic = 1 ∧ s.ticdup = 1 ∧ s.recvtic = 0 ∧
      ¬ (Int.tdiv s.gametic s.ticdup ≤ s.recvtic) := by
  refine ⟨⟨rfl, rfl, rfl⟩, by decide,
    (run_ops demoEnv [Op.TryRunTics 0] demoState).getD demoState, rfl, ?_, ?_, ?_, ?_⟩ <;>
    decide

/-- The number of batches taken in by a sequence of calls is what `recvtic`
has advanced by, when the sequence returns. -/
theorem recvtic_run_ops (E : Env) :
    ∀ (ops : List Op) (s s1 : State), CursorInv s → run_ops E ops s = some s1 →
      s1.recvtic = s.recvtic + (ops.countP Op.isIntake : Nat) := by
  intro ops
  induction ops with
  | nil =>
    intro s s1 _ hr
    simp only [run_ops, Option.some.injEq] at hr
    subst hr
    simp
  | cons op ops ih =>
    intro s s1 h hr
    have hstep : ∀ s2, op.apply E s = some s2 →
        CursorInv s2 ∧ s2.recvtic = s.recvtic + (if op.isIntake = true then 1 else 0) := by
      intro s2 h2
      have hc := (CursorInv_run_ops E s.ticdup [op] s s2 ⟨h, rfl⟩
        (by simp [run_ops, h2])).1
      refine ⟨hc, ?_⟩
      cases op with
      | NetUpdate =>
        simp only [Op.apply, Option.some.injEq] at h2
        subst h2
        have := NetUpdate_inv E (fun u => u.recvtic = s.recvtic)
          (fun u hu => ((BuildNewTic_snd_fields E u).2.2.2.2.2.1).trans hu)
          (fun _ _ _ _ hu => hu) s rfl
        simpa [Op.isIntake] using this
      | BuildNewTic =>
        simp only [Op.apply, Option.some.injEq] at h2
        subst h2
        simpa [Op.isIntake] using (BuildNewTic_snd_fields E s).2.2.2.2.2.1
      | D_ReceiveTic c m =>
        have := (D_ReceiveTic_fields E s s2 c m h2).1
        cases c <;> cases m <;> simpa [Op.isIntake] using this
      | TryRunTics fuel =>
        have := TryRunTics_inv E (fun u => CursorInv u ∧ u.recvtic = s.recvtic)
          (fun u hu => ⟨hu.1.1, hu.1.2.1⟩)
          (fun u hu => ⟨CursorInv_BuildNewTic E u hu.1,
            ((BuildNewTic_snd_fields E u).2.2.2.2.2.1).trans hu.2⟩)
          (fun _ _ _ _ hu => hu) (fun _ _ _ hu => hu)
          (fun u hu hlt => ⟨CursorInv_slot E u hu.1 hlt,
            ((TryRunTics_slot_spec E u).2.2.1).trans hu.2⟩)
          fuel s s2 ⟨h, rfl⟩ h2
        simpa [Op.isIntake] using this.2
    simp only [run_ops] at hr
    split at hr
    · simp at hr
    · rename_i s2 h2
      obtain ⟨hc, hrv⟩ := hstep s2 h2
      rw [ih s2 s1 hc hr, hrv, List.countP_cons]
      split <;> push_cast <;> omega

/-- C2, amended: from zeroed cursors and with `ticdup ≥ 1`, after every
sequence of `NetUpdate`, `BuildNewTic`, `D_ReceiveTic` and `TryRunTics` calls
that returns, `recvtic` is the number of `D_ReceiveTic` calls of the sequence
that had an argument present; `TryRunTics` leaves it alone and is bounded by
`maketic` instead: `gametic/ticdup ≤ maketic`. -/
theorem C2_cursor_invariant_remote_amended (E : Env) (ops : List Op) (s0 s : State)
    (hz : s0.zeroed) (hd : 1 ≤ s0.ticdup) (h : run_ops E ops s0 = some s) :
    s.recvtic = (ops.countP Op.isIntake : Nat) ∧
    Int.tdiv s.gametic s.ticdup ≤ s.maketic := by
  have hc := CursorInv_zeroed s0 hz hd
  have h1 := recvtic_run_ops E ops s0 s hc h
  have h2 := CursorInv_run_ops E s0.ticdup ops s0 s ⟨hc, rfl⟩ h
  rw [hz.2.1] at h1
  exact ⟨by omega, h2.1.2.2⟩

/-- C2, amended, on the sequence `demoOps`, which takes one batch in. -/
theorem C2_cursor_invariant_remote_amended_witness :
    ∃ s, run_ops demoEnv demoOps demoState = some s ∧
      s.recvtic = (1 : Nat) ∧ Int.tdiv s.gametic s.ticdup ≤ s.maketic :=
  ⟨(run_ops demoEnv demoOps demoState).getD demoState, rfl,
    C2_cursor_invariant_remote_amended demoEnv demoOps demoState _ ⟨rfl, rfl, rfl⟩
      (by decide) rfl⟩

/-! ## Lockstep order -/

theorem tmod_ne_of_lt (a b B : Int) (ha : 0 ≤ a) (hab : a < b) (hB : b - a < B) :
    Int.tmod a B ≠ Int.tmod b B := by
  rw [Int.tmod_eq_emod ha (by omega), Int.tmod_eq_emod (by omega) (by omega)]
  intro h
  have h1 := Int.emod_eq_emod_iff_emod_sub_eq_zero.mp h.symm
  rw [Int.emod_eq_of_lt (by omega) hB] at h1
  omega

theorem tdiv_mul_add (G d i : Int) (hG : 0 ≤ G) (hi : 0 ≤ i) (hid : i < d) :
    Int.tdiv (G * d + i) d = G ∧ Int.tmod (G * d + i) d = i := by
  have hGd : 0 ≤ G * d := Int.mul_nonneg hG (by omega)
  rw [Int.tdiv_eq_ediv (by omega) (by omega), Int.tmod_eq_emod (by omega) (by omega)]
  constructor
  · rw [Int.add_comm, Int.add_mul_ediv_right _ _ (by omega), Int.ediv_eq_zero_of_lt hi hid]
    omega
  · rw [Int.add_comm, Int.add_mul_emod_self, Int.emod_eq_of_lt hi hid]

/-- The calls of `RunTic` recorded are not changed by `BuildNewTic`. -/
theorem BuildNewTic_runTics (E : Env) (s : State) :
    runTics (BuildNewTic E s).2.trace = runTics s.trace := by
  rw [BuildNewTic_eq]
  cases BuildNewTic_refuses s
  · simp only [Bool.false_eq_true, if_false, BuildNewTic_store, State.log, runTics_append]
    simp [runTics]
  · simp only [if_true, State.log, runTics_append]
    simp [runTics]

/-- The local command of a slot after `BuildNewTic`: the command built for
`maketic` in the slot `maketic % BACKUPTICS` when a tic is built, and what it
was otherwise. -/
theorem BuildNewTic_local (E : Env) (s : State) (t : Int) :
    ((BuildNewTic E s).2.ticdata t).cmds s.localplayer =
      if BuildNewTic_refuses s = false ∧ t = Int.tmod s.maketic E.BACKUPTICS then
        E.BuildTiccmd ticcmd_t.zero s.maketic
      else (s.ticdata t).cmds s.localplayer := by
  rw [BuildNewTic_eq]
  cases hr : BuildNewTic_refuses s
  · simp only [Bool.false_eq_true, if_false, BuildNewTic_store, State.log, true_and]
    by_cases ht : t = Int.tmod s.maketic E.BACKUPTICS
    · subst ht
      simp
    · simp [ht]
  · simp only [if_true, Bool.true_eq_false, false_and, if_false]
    rfl

theorem RingInv_BuildNewTic (E : Env) (hB5 : 5 ≤ E.BACKUPTICS) (s : State)
    (h : RingInv E s) : RingInv E (BuildNewTic E s).2 := by
  obtain ⟨hg, htd, -, -, hlp, -, -, -, hmk⟩ := BuildNewTic_snd_fields E s
  have hc := h.cursor
  have hrt := BuildNewTic_runTics E s
  have hnr : BuildNewTic_refuses s = false →
      s.maketic - Int.tdiv s.gametic s.ticdup ≤ 4 := by
    intro hr
    have hn : ¬ (BuildNewTic_refuses s = true) := by simp [hr]
    rw [BuildNewTic_refuses_iff] at hn
    cases hs : s.new_sync
    · simp only [hs, Bool.false_eq_true, false_and, true_and, false_or] at hn
      omega
    · simp only [hs, true_and, Bool.true_eq_false, false_and, or_false] at hn
      omega
  have hG : 0 ≤ Int.tdiv s.gametic s.ticdup := Int.tdiv_nonneg hc.2.1 (by have := hc.1; omega)
  refine ⟨CursorInv_BuildNewTic E s hc, ?_, ?_, ?_, ?_, ?_⟩
  · rw [hg, htd]; exact h.aligned
  · rw [hg, htd, hmk]
    cases hr : BuildNewTic_refuses s
    · have := hnr hr
      simp only [Bool.false_eq_true, if_false]
      omega
    · have := h.high
      simp only [if_true]
      omega
  · rw [hrt, hg]; exact h.count
  · rw [hrt, htd, hlp]; exact h.order
  · intro k hk1 hk2
    rw [hg, htd] at hk1
    rw [hmk] at hk2
    rw [hlp, BuildNewTic_local]
    cases hr : BuildNewTic_refuses s
    · have h4 := hnr hr
      simp only [hr, Bool.false_eq_true, if_false] at hk2
      by_cases hkm : k = s.maketic
      · subst hkm
        simp
      · have hne : Int.tmod k E.BACKUPTICS ≠ Int.tmod s.maketic E.BACKUPTICS :=
          tmod_ne_of_lt k s.maketic E.BACKUPTICS (by omega) (by omega) (by omega)
        simp only [hne, and_false, if_false]
        exact h.ring k hk1 (by omega)
    · simp only [hr, if_true] at hk2
      simp only [Bool.true_eq_false, false_and, if_false]
      exact h.ring k hk1 (by omega)

theorem RingInv_slot (E : Env) (hB5 : 5 ≤ E.BACKUPTICS) (s : State) (h : RingInv E s)
    (hlt : Int.tdiv s.gametic s.ticdup < s.maketic) : RingInv E (TryRunTics_slot E s) := by
  obtain ⟨e1, e2, -, e4, e5, -, -, -, -, e10, evs, e11, e12, e13, e14⟩ :=
    TryRunTics_slot_spec E s
  have hc := h.cursor
  have hd : 1 ≤ s.ticdup := hc.1
  have hG : 0 ≤ Int.tdiv s.gametic s.ticdup := Int.tdiv_nonneg hc.2.1 (by omega)
  have htn : ((s.ticdup.toNat : Nat) : Int) = s.ticdup := Int.toNat_of_nonneg (by omega)
  have hdiv : Int.tdiv (s.gametic + s.ticdup) s.ticdup = Int.tdiv s.gametic s.ticdup + 1 :=
    tdiv_add_self _ _ hc.2.1 hd
  have hal := h.aligned
  have hcount := h.count
  refine ⟨CursorInv_slot E s hc hlt, ?_, ?_, ?_, ?_, ?_⟩
  · rw [e1, e4, htn, hdiv, Int.add_mul, Int.one_mul, ← hal]
  · rw [e1, e2, e4, htn, hdiv]
    have := h.high
    omega
  · rw [e11, e1, List.length_append, e12]
    push_cast
    rw [htn, hcount]
  · intro j r hj
    rw [e4, e5]
    rw [e11] at hj
    by_cases hjl : j < (runTics s.trace).length
    · rw [List.getElem?_append_left hjl] at hj
      exact h.order j r hj
    · have hjl2 : (runTics s.trace).length ≤ j := by omega
      rw [List.getElem?_append_right hjl2] at hj
      have hi : j - (runTics s.trace).length < evs.length := by
        rcases List.getElem?_eq_some_iff.mp hj with ⟨hlt2, -⟩
        exact hlt2
      have hjeq : (j : Int)
          = Int.tdiv s.gametic s.ticdup * s.ticdup
            + ((j - (runTics s.trace).length : Nat) : Int) := by
        rw [← hal, ← hcount]
        omega
      have hi2 : ((j - (runTics s.trace).length : Nat) : Int) < s.ticdup := by
        rw [e12] at hi
        omega
      obtain ⟨d1, d2⟩ := tdiv_mul_add (Int.tdiv s.gametic s.ticdup) s.ticdup
        ((j - (runTics s.trace).length : Nat) : Int) hG (by omega) hi2
      rw [hjeq, d1, d2]
      refine ⟨e13 r (List.getElem?_mem hj), ?_⟩
      intro hz
      have hz0 : j - (runTics s.trace).length = 0 := by omega
      rw [hz0, ← List.head?_eq_getElem?] at hj
      rw [e14 r hj]
      exact h.ring _ (Int.le_refl _) hlt
  · intro k hk1 hk2
    rw [e1, e4, htn, hdiv] at hk1
    rw [e2] at hk2
    rw [e5]
    have hhigh := h.high
    have hne : Int.tmod k E.BACKUPTICS
        ≠ Int.tmod (Int.tdiv s.gametic s.ticdup) E.BACKUPTICS :=
      fun e => tmod_ne_of_lt (Int.tdiv s.gametic s.ticdup) k E.BACKUPTICS hG (by omega)
        (by omega) e.symm
    rw [e10 _ hne]
    exact h.ring k (by omega) hk2

/-- `D_ReceiveTic` leaves the local player's commands alone in every slot. -/
theorem D_ReceiveTic_local (E : Env) (s s1 : State) (c : Option (Int → ticcmd_t))
    (m : Option (Int → Bool)) (h : D_ReceiveTic E s c m = some s1) (t : Int) :
    (s1.ticdata t).cmds s.localplayer = (s.ticdata t).cmds s.localplayer ∧
    (s1.ticdata t).ingame s.localplayer = (s.ticdata t).ingame s.localplayer := by
  rcases D_ReceiveTic_cases E s s1 c m h with h1 | ⟨set, hl, h1⟩
  · subst h1
    exact ⟨rfl, rfl⟩
  · subst h1
    have h0 := D_ReceiveTic_loop_local s.localplayer c m _ _ _ hl
    by_cases ht : t = Int.tmod s.recvtic E.BACKUPTICS
    · subst ht
      simp [h0.1, h0.2]
    · simp [ht]

theorem RingInv_D_ReceiveTic (E : Env) (s s1 : State) (c : Option (Int → ticcmd_t))
    (m : Option (Int → Bool)) (h : RingInv E s) (hr : D_ReceiveTic E s c m = some s1) :
    RingInv E s1 := by
  obtain ⟨-, e2, e3, e4, e5, e6⟩ := D_ReceiveTic_fields E s s1 c m hr
  refine ⟨CursorInv_D_ReceiveTic E s s1 c m h.cursor hr, ?_, ?_, ?_, ?_, ?_⟩
  · rw [e2, e4]; exact h.aligned
  · rw [e2, e3, e4]; exact h.high
  · rw [e6, e2]; exact h.count
  · rw [e6, e4, e5]; exact h.order
  · intro k hk1 hk2
    rw [e2, e4] at hk1
    rw [e3] at hk2
    rw [e5, (D_ReceiveTic_local E s s1 c m hr _).1]
    exact h.ring k hk1 hk2

/-- The lockstep invariant, together with any fixed values of `ticdup` and
`localplayer`, is kept by every sequence of calls that returns, when the ring
has at least 5 slots. -/
theorem RingInv_run_ops (E : Env) (hB5 : 5 ≤ E.BACKUPTICS) (d lp : Int) (ops : List Op)
    (s s1 : State) (h : RingInv E s ∧ s.ticdup = d ∧ s.localplayer = lp)
    (hr : run_ops E ops s = some s1) :
    RingInv E s1 ∧ s1.ticdup = d ∧ s1.localplayer = lp := by
  refine run_ops_inv E (fun u => RingInv E u ∧ u.ticdup = d ∧ u.localplayer = lp)
    ?_ ?_ ?_ ?_ ?_ ?_ ops s s1 h hr
  · intro u hu
    exact ⟨hu.1.cursor.1, hu.1.cursor.2.1⟩
  · intro u hu
    exact ⟨RingInv_BuildNewTic E hB5 u hu.1,
      ((BuildNewTic_snd_fields E u).2.1).trans hu.2.1,
      ((BuildNewTic_snd_fields E u).2.2.2.2.1).trans hu.2.2⟩
  · intro u _ _ _ hu
    exact ⟨⟨hu.1.cursor, hu.1.aligned, hu.1.high, hu.1.count, hu.1.order, hu.1.ring⟩, hu.2⟩
  · intro u _ _ hu
    exact ⟨⟨hu.1.cursor, hu.1.aligned, hu.1.high, hu.1.count, hu.1.order, hu.1.ring⟩, hu.2⟩
  · intro u hu hlt
    exact ⟨RingInv_slot E hB5 u hu.1 hlt,
      ((TryRunTics_slot_spec E u).2.2.2.1).trans hu.2.1,
      ((TryRunTics_slot_spec E u).2.2.2.2.1).trans hu.2.2⟩
  · intro u c m u1 hu h1
    exact ⟨RingInv_D_ReceiveTic E u u1 c m hu.1 h1,
      ((D_ReceiveTic_fields E u u1 c m h1).2.2.2.1).trans hu.2.1,
      ((D_ReceiveTic_fields E u u1 c m h1).2.2.2.2.1).trans hu.2.2⟩

theorem RingInv_zeroed (E : Env) (s : State) (hz : s.zeroed) (ht : s.trace = [])
    (hd : 1 ≤ s.ticdup) : RingInv E s := by
  obtain ⟨h1, h2, h3⟩ := hz
  have hdiv : Int.tdiv s.gametic s.ticdup = 0 := by rw [h3]; simp
  refine ⟨CursorInv_zeroed s ⟨h1, h2, h3⟩ hd, ?_, ?_, ?_, ?_, ?_⟩
  · rw [hdiv, h3]; simp
  · rw [hdiv, h1]; omega
  · rw [ht, h3]; rfl
  · intro j r hj
    rw [ht] at hj
    simp [runTics] at hj
  · intro k hk1 hk2
    rw [hdiv] at hk1
    rw [h1] at hk2
    omega

/-- C3: when the ring has at least 5 slots, from zeroed cursors with nothing
yet run and with `ticdup ≥ 1`, after every sequence of `NetUpdate`,
`BuildNewTic`, `D_ReceiveTic` and `TryRunTics` calls that returns, the `RunTic`
calls made are `gametic` in number, a whole number of slots; the calls
`k * ticdup .. k * ticdup + ticdup - 1` (the `k`-th slot run) were all made on
the slot `k % BACKUPTICS` of `ticdata`, and the first of them received as the
local player's command the command `BuildTiccmd` made from a zeroed command
for tic `k`. -/
theorem C3_lockstep_order (E : Env) (ops : List Op) (s0 s : State)
    (hB5 : 5 ≤ E.BACKUPTICS) (hz : s0.zeroed) (ht : s0.trace = []) (hd : 1 ≤ s0.ticdup)
    (h : run_ops E ops s0 = some s) :
    s.ticdup = s0.ticdup ∧ s.localplayer = s0.localplayer ∧
    ((runTics s.trace).length : Int) = s.gametic ∧
    s.gametic = Int.tdiv s.gametic s.ticdup * s.ticdup ∧
    ∀ (k i : Nat) (r : Int × (Int → ticcmd_t) × (Int → Bool)),
      (i : Int) < s.ticdup → (runTics s.trace)[k * s.ticdup.toNat + i]? = some r →
        r.1 = (k : Int) % E.BACKUPTICS ∧
        (i = 0 → r.2.1 s.localplayer = E.BuildTiccmd ticcmd_t.zero k) := by
  obtain ⟨hinv, h1, h2⟩ := RingInv_run_ops E hB5 s0.ticdup s0.localplayer ops s0 s
    ⟨RingInv_zeroed E s0 hz ht hd, rfl, rfl⟩ h
  refine ⟨h1, h2, hinv.count, hinv.aligned, ?_⟩
  intro k i r hi hr
  have hd1 : 1 ≤ s.ticdup := hinv.cursor.1
  have htn : ((s.ticdup.toNat : Nat) : Int) = s.ticdup := Int.toNat_of_nonneg (by omega)
  obtain ⟨o1, o2⟩ := hinv.order _ r hr
  have hj : ((k * s.ticdup.toNat + i : Nat) : Int) = (k : Int) * s.ticdup + (i : Int) := by
    push_cast
    rw [htn]
  obtain ⟨d1, d2⟩ := tdiv_mul_add (k : Int) s.ticdup (i : Int) (by omega) (by omega) hi
  rw [hj, d1] at o1 o2
  rw [d2] at o2
  rw [Int.tmod_eq_emod (by omega) (by omega)] at o1
  refine ⟨o1, ?_⟩
  intro hi0
  apply o2
  omega

/-- C3 on the sequence `demoOps` from the initial state, with the 128 slots
of `demoEnv`. -/
theorem C3_lockstep_order_witness :
    ∃ s, run_ops demoEnv demoOps demoState = some s ∧
      s.ticdup = demoState.ticdup ∧ s.localplayer = demoState.localplayer ∧
      ((runTics s.trace).length : Int) = s.gametic ∧
      s.gametic = Int.tdiv s.gametic s.ticdup * s.ticdup ∧
      ∀ (k i : Nat) (r : Int × (Int → ticcmd_t) × (Int → Bool)),
        (i : Int) < s.ticdup → (runTics s.trace)[k * s.ticdup.toNat + i]? = some r →
          r.1 = (k : Int) % demoEnv.BACKUPTICS ∧
          (i = 0 → r.2.1 s.localplayer = demoEnv.BuildTiccmd ticcmd_t.zero k) :=
  ⟨(run_ops demoEnv demoOps demoState).getD demoState, rfl,
    C3_lockstep_order demoEnv demoOps demoState _ (by decide) ⟨rfl, rfl, rfl⟩ rfl
      (by decide) rfl⟩

/-! ## Sanitization of duplicated tics -/

theorem TicdupSquash_cmd_chatchar (E : Env) (cmd : ticcmd_t) :
    (TicdupSquash_cmd E cmd).chatchar = 0 := by
  unfold TicdupSquash_cmd
  simp only
  split <;> rfl

theorem TicdupSquash_cmd_buttons (E : Env) (cmd : ticcmd_t) :
    (TicdupSquash_cmd E cmd).buttons &&& E.BT_SPECIAL = 0 := by
  unfold TicdupSquash_cmd
  simp only
  split
  · exact Nat.zero_and _
  · rename_i h
    simpa using h

theorem TicdupSquash_cmd_movement (E : Env) (cmd : ticcmd_t) :
    (TicdupSquash_cmd E cmd).movement = cmd.movement := by
  unfold TicdupSquash_cmd
  simp only
  split <;> rfl

theorem TicdupSquash_cmd_idem (E : Env) (cmd : ticcmd_t) :
    TicdupSquash_cmd E (TicdupSquash_cmd E cmd) = TicdupSquash_cmd E cmd := by
  have hb := TicdupSquash_cmd_buttons E cmd
  have hc := TicdupSquash_cmd_chatchar E cmd
  generalize TicdupSquash_cmd E cmd = c at hb hc
  unfold TicdupSquash_cmd
  cases c with
  | mk mv ch bt =>
    simp only at hb hc
    simp [hb, hc]

/-- The loop of `TicdupSquash` applies `TicdupSquash_cmd` to the commands of
the players `0 .. n-1` and leaves everything else alone. -/
theorem TicdupSquash_loop_spec (E : Env) :
    ∀ (n : Nat) (set : ticcmd_set_t),
      (∀ j : Int, (TicdupSquash_loop E n set).cmds j =
        if 0 ≤ j ∧ j < (n : Int) then TicdupSquash_cmd E (set.cmds j) else set.cmds j) ∧
      (TicdupSquash_loop E n set).ingame = set.ingame := by
  intro n
  induction n with
  | zero =>
    intro set
    refine ⟨?_, rfl⟩
    intro j
    simp only [TicdupSquash_loop]
    split_ifs with h <;> first | rfl | (exfalso; omega)
  | succ n ih =>
    intro set
    obtain ⟨hc, hi⟩ := ih set
    refine ⟨?_, hi⟩
    intro j
    simp only [TicdupSquash_loop]
    by_cases hjn : j = (n : Int)
    · subst hjn
      rw [arr_set_same, hc]
      split_ifs with h1 h2 h2 <;> first | rfl | (exfalso; omega)
    · rw [arr_set_ne _ _ _ _ hjn, hc j]
      split_ifs with h1 h2 h2 <;> first | rfl | (exfalso; omega)

/-- The exact effect of `n` iterations of the duplication loop on the slot
it runs and on the recorded `RunTic` calls. -/
theorem TryRunTics_dup_exact (E : Env) (slot : Int) :
    ∀ (n : Nat) (s : State),
      runTics (TryRunTics_dup E slot n s).trace
        = runTics s.trace ++ TryRunTics_dup_calls E slot n (s.ticdata slot) ∧
      (TryRunTics_dup E slot n s).ticdata slot
        = Nat.iterate (TicdupSquash E) n (s.ticdata slot) := by
  intro n
  induction n with
  | zero =>
    intro s
    simp [TryRunTics_dup, TryRunTics_dup_calls]
  | succ n ih =>
    intro s
    obtain ⟨h1, h2⟩ := ih (TryRunTics_dup_body E slot s)
    have ht : (TryRunTics_dup_body E slot s).trace
        = s.trace ++ [Event.RunTic slot (s.ticdata slot).cmds (s.ticdata slot).ingame] := rfl
    have hd : (TryRunTics_dup_body E slot s).ticdata slot = TicdupSquash E (s.ticdata slot) := by
      simp only [TryRunTics_dup_body, State.log]
      exact arr_set_same _ _ _
    simp only [TryRunTics_dup, TryRunTics_dup_calls, Function.iterate_succ_apply]
    rw [h1, h2, ht, hd, runTics_append]
    simp [runTics]

/-- The exact effect of running one slot: the slot, cleared of the other
players, has been squashed `ticdup` times, and the `RunTic` calls of the
duplication loop have been recorded. -/
theorem TryRunTics_slot_exact (E : Env) (s : State) :
    runTics (TryRunTics_slot E s).trace
      = runTics s.trace ++ TryRunTics_dup_calls E
          (Int.tmod (Int.tdiv s.gametic s.ticdup) E.BACKUPTICS) s.ticdup.toNat
          (SinglePlayerClear E s.localplayer
            (s.ticdata (Int.tmod (Int.tdiv s.gametic s.ticdup) E.BACKUPTICS))) ∧
    (TryRunTics_slot E s).ticdata (Int.tmod (Int.tdiv s.gametic s.ticdup) E.BACKUPTICS)
      = Nat.iterate (TicdupSquash E) s.ticdup.toNat
          (SinglePlayerClear E s.localplayer
            (s.ticdata (Int.tmod (Int.tdiv s.gametic s.ticdup) E.BACKUPTICS))) := by
  obtain ⟨h1, h2⟩ := TryRunTics_dup_exact E
    (Int.tmod (Int.tdiv s.gametic s.ticdup) E.BACKUPTICS) s.ticdup.toNat
    { s with
      ticdata := arr_set s.ticdata (Int.tmod (Int.tdiv s.gametic s.ticdup) E.BACKUPTICS)
        (SinglePlayerClear E s.localplayer
          (s.ticdata (Int.tmod (Int.tdiv s.gametic s.ticdup) E.BACKUPTICS))) }
  simp only [arr_set_same] at h1 h2
  exact ⟨h1, h2⟩

/-- C11: for every `ticdup ≥ 1` and every contents of the slot, after the slot
has been run by `TryRunTics` (`ticdup` calls of `RunTic`, each followed by
`TicdupSquash`), the command of every player `0 ≤ i < NET_MAXPLAYERS` in that
slot has `chatchar = 0` and the `BT_SPECIAL` bit of `buttons` clear. -/
theorem C11_sanitization (E : Env) (s : State) (hd : 1 ≤ s.ticdup) (i : Int)
    (h0 : 0 ≤ i) (h1 : i < (E.NET_MAXPLAYERS : Int)) :
    (((TryRunTics_slot E s).ticdata
        (Int.tmod (Int.tdiv s.gametic s.ticdup) E.BACKUPTICS)).cmds i).chatchar = 0 ∧
    (((TryRunTics_slot E s).ticdata
        (Int.tmod (Int.tdiv s.gametic s.ticdup) E.BACKUPTICS)).cmds i).buttons
      &&& E.BT_SPECIAL = 0 := by
  obtain ⟨n, hn⟩ : ∃ n : Nat, s.ticdup.toNat = n + 1 :=
    ⟨s.ticdup.toNat - 1, by have := Int.toNat_of_nonneg (show 0 ≤ s.ticdup by omega); omega⟩
  rw [(TryRunTics_slot_exact E s).2, hn, Function.iterate_succ_apply']
  unfold TicdupSquash
  rw [(TicdupSquash_loop_spec E _ _).1 i, if_pos ⟨h0, h1⟩]
  exact ⟨TicdupSquash_cmd_chatchar E _, TicdupSquash_cmd_buttons E _⟩

/-- C11 on a slot whose commands chat and have every button down, run three
times: player 3 ends with no chat character and no special bit. -/
theorem C11_sanitization_witness :
    (((TryRunTics_slot demoEnv demoDup3).ticdata
        (Int.tmod (Int.tdiv demoDup3.gametic demoDup3.ticdup) demoEnv.BACKUPTICS)).cmds
          3).chatchar = 0 ∧
    (((TryRunTics_slot demoEnv demoDup3).ticdata
        (Int.tmod (Int.tdiv demoDup3.gametic demoDup3.ticdup) demoEnv.BACKUPTICS)).cmds
          3).buttons &&& demoEnv.BT_SPECIAL = 0 :=
  C11_sanitization demoEnv demoDup3 (by decide) 3 (by decide) (by decide)

/-! ## Exact evaluation of `TryRunTics` -/

theorem Frame_refl (s : State) : Frame s s :=
  ⟨rfl, rfl, rfl, rfl, rfl, rfl, rfl, rfl⟩

theorem BuildNewTic_offsetms (E : Env) (s : State) :
    (BuildNewTic E s).2.offsetms = s.offsetms := by
  rw [BuildNewTic_eq]
  split <;> rfl

theorem Frame_BuildNewTic (E : Env) (s u : State) (h : Frame s u) :
    Frame s (BuildNewTic E u).2 := by
  obtain ⟨hg, htd, hns, hst, hlp, hrv, -, -, -⟩ := BuildNewTic_snd_fields E u
  obtain ⟨f1, f2, f3, f4, f5, f6, f7, f8⟩ := h
  exact ⟨htd.trans f1, hg.trans f2, hlp.trans f3, hns.trans f4, hst.trans f5,
    (BuildNewTic_offsetms E u).trans f6, hrv.trans f7, (BuildNewTic_runTics E u).trans f8⟩

theorem Frame_NetUpdate (E : Env) (s u : State) (h : Frame s u) : Frame s (NetUpdate E u) :=
  NetUpdate_inv E (Frame s) (Frame_BuildNewTic E s) (fun _ _ _ _ hu => hu) u h

theorem Frame_enter (E : Env) (s : State) : Frame s (TryRunTics_enter E s) := by
  unfold TryRunTics_enter
  simp only
  split
  · exact Frame_BuildNewTic E s _ (Frame_refl s)
  · exact Frame_NetUpdate E s _ (Frame_refl s)

/-- `TryRunTics` in terms of the count it decides. -/
theorem TryRunTics_unfold (E : Env) (fuel : Nat) (s : State) :
    TryRunTics E fuel s =
      match TryRunTics_wait E (TryRunTics_decided E s) fuel
          (GetLowTic (TryRunTics_enter E s)) (TryRunTics_enter E s) with
      | none => none
      | some r => some (TryRunTics_run E (TryRunTics_decided E s).toNat r.2) :=
  rfl

/-- When enough tics are available the wait loop returns at once, whatever
the fuel. -/
theorem TryRunTics_wait_ready (E : Env) (counts : Int) (fuel : Nat) (lowtic : Int)
    (s : State) (h : Int.tdiv s.gametic s.ticdup + counts ≤ lowtic) :
    TryRunTics_wait E counts fuel lowtic s = some (lowtic, s) := by
  have hn : ¬ lowtic < Int.tdiv s.gametic s.ticdup + counts := by omega
  cases fuel <;> simp [TryRunTics_wait, PlayersInGame, hn]

/-- When more tics are needed and there is fuel, the wait loop calls
`NetUpdate` and goes on. -/
theorem TryRunTics_wait_step (E : Env) (counts : Int) (fuel : Nat) (lowtic : Int)
    (s : State) (h : lowtic < Int.tdiv s.gametic s.ticdup + counts) :
    TryRunTics_wait E counts (fuel + 1) lowtic s
      = TryRunTics_wait E counts fuel (GetLowTic (NetUpdate E s)) (NetUpdate E s) := by
  simp [TryRunTics_wait, PlayersInGame, h]

theorem TryRunTics_run_one (E : Env) (s : State) :
    TryRunTics_run E 1 s = NetUpdate E (TryRunTics_slot E s) := by
  simp [TryRunTics_run, PlayersInGame]

theorem TryRunTics_counts_one (b : Bool) (realtics : Int) :
    TryRunTics_counts b realtics 1 = 1 := by
  unfold TryRunTics_counts
  cases b
  · simp only [Bool.false_eq_true, if_false]
    split_ifs <;> omega
  · simp

/-- C12: with `ticdup = 3` and exactly one tic available after the production
step, `TryRunTics` returns whatever the fuel, having made exactly three calls
of `RunTic`, all on the slot of that tic; the first receives the local
player's stored command unchanged, the second and the third receive it
squashed, with `chatchar = 0` (the local player being one of the
`NET_MAXPLAYERS` players). -/
theorem C12_duplication (E : Env) (s : State) (fuel : Nat) (hd : s.ticdup = 3)
    (hav : TryRunTics_availabletics E s = 1)
    (h0 : 0 ≤ s.localplayer) (h1 : s.localplayer < (E.NET_MAXPLAYERS : Int)) :
    ∃ (s1 : State) (c1 c2 c3 : Int → ticcmd_t) (g1 g2 g3 : Int → Bool),
      TryRunTics E fuel s = some s1 ∧
      runTics s1.trace = runTics s.trace ++
        [(Int.tmod (Int.tdiv s.gametic 3) E.BACKUPTICS, c1, g1),
         (Int.tmod (Int.tdiv s.gametic 3) E.BACKUPTICS, c2, g2),
         (Int.tmod (Int.tdiv s.gametic 3) E.BACKUPTICS, c3, g3)] ∧
      c1 s.localplayer = ((TryRunTics_enter E s).ticdata
        (Int.tmod (Int.tdiv s.gametic 3) E.BACKUPTICS)).cmds s.localplayer ∧
      c2 s.localplayer = TicdupSquash_cmd E (c1 s.localplayer) ∧
      c3 s.localplayer = TicdupSquash_cmd E (c1 s.localplayer) ∧
      (c2 s.localplayer).chatchar = 0 ∧ (c3 s.localplayer).chatchar = 0 := by
  obtain ⟨f1, f2, f3, -, -, -, -, f8⟩ := Frame_enter E s
  have hdec : TryRunTics_decided E s = 1 := by
    unfold TryRunTics_decided
    rw [hav]
    exact TryRunTics_counts_one _ _
  have hav2 := hav
  unfold TryRunTics_availabletics at hav2
  have hrun : TryRunTics E fuel s
      = some (NetUpdate E (TryRunTics_slot E (TryRunTics_enter E s))) := by
    rw [TryRunTics_unfold, hdec, TryRunTics_wait_ready E 1 fuel _ _ (by omega)]
    simp only [Int.toNat_one]
    rw [TryRunTics_run_one]
  obtain ⟨-, -, -, -, -, -, -, n8⟩ :=
    Frame_NetUpdate E (TryRunTics_slot E (TryRunTics_enter E s)) _ (Frame_refl _)
  have hsl := (TryRunTics_slot_exact E (TryRunTics_enter E s)).1
  rw [f1, f2, f3, f8, hd] at hsl
  have h3 : (3 : Int).toNat = 3 := rfl
  rw [h3] at hsl
  have hsq : ∀ set : ticcmd_set_t, (TicdupSquash E set).cmds s.localplayer
      = TicdupSquash_cmd E (set.cmds s.localplayer) := by
    intro set
    unfold TicdupSquash
    rw [(TicdupSquash_loop_spec E _ _).1, if_pos ⟨h0, h1⟩]
  have hspc : (SinglePlayerClear E s.localplayer ((TryRunTics_enter E s).ticdata
      (Int.tmod (Int.tdiv s.gametic 3) E.BACKUPTICS))).cmds
      = ((TryRunTics_enter E s).ticdata
          (Int.tmod (Int.tdiv s.gametic 3) E.BACKUPTICS)).cmds :=
    SinglePlayerClear_loop_cmds _ _ _
  generalize hX : SinglePlayerClear E s.localplayer ((TryRunTics_enter E s).ticdata
      (Int.tmod (Int.tdiv s.gametic 3) E.BACKUPTICS)) = X at hsl hspc
  refine ⟨_, X.cmds, (TicdupSquash E X).cmds, (TicdupSquash E (TicdupSquash E X)).cmds,
    X.ingame, (TicdupSquash E X).ingame, (TicdupSquash E (TicdupSquash E X)).ingame,
    hrun, ?_, ?_, ?_, ?_, ?_, ?_⟩
  · rw [n8, hsl]
    rfl
  · rw [hspc]
  · rw [hsq]
  · rw [hsq, hsq, TicdupSquash_cmd_idem]
  · rw [hsq]
    exact TicdupSquash_cmd_chatchar E _
  · rw [hsq]
    exact TicdupSquash_cmd_chatchar E _

/-- C12 on a state with `ticdup = 3` whose one available command chats (65):
the hypotheses hold there and the three calls are made. -/
theorem C12_duplication_witness :
    (((TryRunTics_enter demoEnv demoDup3).ticdata
        (Int.tmod (Int.tdiv demoDup3.gametic 3) demoEnv.BACKUPTICS)).cmds
          demoDup3.localplayer).chatchar = 65 ∧
    ∃ (s1 : State) (c1 c2 c3 : Int → ticcmd_t) (g1 g2 g3 : Int → Bool),
      TryRunTics demoEnv 0 demoDup3 = some s1 ∧
      runTics s1.trace = runTics demoDup3.trace ++
        [(Int.tmod (Int.tdiv demoDup3.gametic 3) demoEnv.BACKUPTICS, c1, g1),
         (Int.tmod (Int.tdiv demoDup3.gametic 3) demoEnv.BACKUPTICS, c2, g2),
         (Int.tmod (Int.tdiv demoDup3.gametic 3) demoEnv.BACKUPTICS, c3, g3)] ∧
      c1 demoDup3.localplayer = ((TryRunTics_enter demoEnv demoDup3).ticdata
        (Int.tmod (Int.tdiv demoDup3.gametic 3) demoEnv.BACKUPTICS)).cmds
          demoDup3.localplayer ∧
      c2 demoDup3.localplayer = TicdupSquash_cmd demoEnv (c1 demoDup3.localplayer) ∧
      c3 demoDup3.localplayer = TicdupSquash_cmd demoEnv (c1 demoDup3.localplayer) ∧
      (c2 demoDup3.localplayer).chatchar = 0 ∧ (c3 demoDup3.localplayer).chatchar = 0 :=
  ⟨by decide, C12_duplication demoEnv demoDup3 0 rfl (by decide) (by decide) (by decide)⟩

theorem TryRunTics_enter_eq (E : Env) (s : State) :
    TryRunTics_enter E s =
      if s.singletics then (BuildNewTic E (TryRunTics_sampled E s)).2
      else NetUpdate E (TryRunTics_sampled E s) :=
  rfl

/-- `NetUpdate` with `singletics` off: the time step, then the production
loop with the number of tics asked for as bound. -/
theorem NetUpdate_eq_loop (E : Env) (s : State) (h : s.singletics = false) :
    NetUpdate E s
      = NetUpdate_loop E (NetUpdate_requested E s).toNat (NetUpdate_timed E s) := by
  unfold NetUpdate
  simp only [h, Bool.false_eq_true, if_false]
  rfl

theorem NetUpdate_of_requested_zero (E : Env) (s : State) (h : s.singletics = false)
    (hr : NetUpdate_requested E s = 0) : NetUpdate E s = NetUpdate_timed E s := by
  rw [NetUpdate_eq_loop E s h, hr]
  rfl

theorem NetUpdate_of_requested_one (E : Env) (s : State) (h : s.singletics = false)
    (hr : NetUpdate_requested E s = 1) :
    NetUpdate E s = (BuildNewTic E (NetUpdate_timed E s)).2 := by
  rw [NetUpdate_eq_loop E s h, hr]
  simp only [Int.toNat_one, NetUpdate_loop]
  split <;> rfl

/-- The first tic: when `BuildNewTic` is called with nothing built nor run and
`ticdup = 1` in `new_sync` mode, it builds tic 0, and the run of one slot that
follows makes one call of `RunTic`, on slot 0, with the local command built
for tic 0, and leaves `gametic = 1`. -/
theorem first_slot_run (E : Env) (T2 : State)
    (m2 : T2.maketic = 0) (g2 : T2.gametic = 0) (d2 : T2.ticdup = 1)
    (n2 : T2.new_sync = true) :
    (BuildNewTic E T2).2.maketic = 1 ∧ (BuildNewTic E T2).2.gametic = 0 ∧
    (BuildNewTic E T2).2.ticdup = 1 ∧ (BuildNewTic E T2).2.new_sync = true ∧
    (NetUpdate E (TryRunTics_slot E (BuildNewTic E T2).2)).gametic = 1 ∧
    1 ≤ (NetUpdate E (TryRunTics_slot E (BuildNewTic E T2).2)).maketic ∧
    runTics (NetUpdate E (TryRunTics_slot E (BuildNewTic E T2).2)).trace
      = runTics T2.trace ++
        [(0, (SinglePlayerClear E T2.localplayer ((BuildNewTic E T2).2.ticdata 0)).cmds,
          (SinglePlayerClear E T2.localplayer ((BuildNewTic E T2).2.ticdata 0)).ingame)] ∧
    (SinglePlayerClear E T2.localplayer ((BuildNewTic E T2).2.ticdata 0)).cmds T2.localplayer
      = E.BuildTiccmd ticcmd_t.zero 0 := by
  have t0 : Int.tdiv 0 1 = 0 := rfl
  have hrf : BuildNewTic_refuses T2 = false := by
    unfold BuildNewTic_refuses
    rw [m2, g2, d2, n2]
    rfl
  obtain ⟨bg, bd, bn, -, bp, -, -, -, bm⟩ := BuildNewTic_snd_fields E T2
  have bl := BuildNewTic_local E T2 (Int.tmod T2.maketic E.BACKUPTICS)
  have br := BuildNewTic_runTics E T2
  rw [hrf] at bm
  rw [hrf, if_pos ⟨rfl, rfl⟩, m2, Int.zero_tmod] at bl
  rw [g2] at bg
  rw [d2] at bd
  rw [n2] at bn
  rw [m2] at bm
  simp only [Bool.false_eq_true, if_false, Int.zero_add] at bm
  generalize (BuildNewTic E T2).2 = W at bg bd bn bp bm bl br
  obtain ⟨x1, x2, -, -, -, -, -, -, -, -, -⟩ := TryRunTics_slot_spec E W
  have x3 := (TryRunTics_slot_exact E W).1
  rw [bg, bd] at x1 x3
  rw [bm] at x2
  rw [bp, br, t0, Int.zero_tmod] at x3
  have h1n : (1 : Int).toNat = 1 := rfl
  rw [h1n] at x1 x3
  obtain ⟨-, y2, -, -, -, -, -, y8⟩ :=
    Frame_NetUpdate E (TryRunTics_slot E W) _ (Frame_refl _)
  obtain ⟨-, -, y9⟩ := NetUpdate_cursors E (TryRunTics_slot E W)
  refine ⟨bm, bg, bd, bn, ?_, ?_, ?_, ?_⟩
  · rw [y2, x1]
    rfl
  · omega
  · rw [y8, x3]
    rfl
  · have := SinglePlayerClear_loop_cmds T2.localplayer E.NET_MAXPLAYERS (W.ticdata 0)
    unfold SinglePlayerClear
    rw [this]
    exact bl

/-- C13: with `ticdup = 1`, `new_sync` set, `singletics` off, zeroed cursors,
`lasttime` and `skiptics` zero as at program start, and an adjusted clock
that reads 0 and then 1, the first call of `TryRunTics` returns as soon as its
wait loop may run once; it decides `counts = 1`, builds tic 0, and makes
exactly one call of `RunTic`, on slot 0, with the local command built for
tic 0; on return `gametic = 1`.  The same holds, whatever the fuel, when
`D_StartGameLoop` has taken the reading 0 before the call. -/
theorem C13_first_step (E : Env) (s : State) (fuel : Nat)
    (hd : s.ticdup = 1) (hns : s.new_sync = true) (hst : s.singletics = false)
    (hz : s.zeroed) (hl : s.lasttime = 0) (hsk : s.skiptics = 0)
    (hc0 : GetAdjustedTime_nth E s 0 = 0) (hc1 : GetAdjustedTime_nth E s 1 = 1) :
    (TryRunTics_decided E s = 1 ∧
     ∃ (s1 : State) (cmds : Int → ticcmd_t) (ingame : Int → Bool),
      TryRunTics E (fuel + 1) s = some s1 ∧ s1.gametic = 1 ∧ 1 ≤ s1.maketic ∧
      runTics s1.trace = runTics s.trace ++ [(0, cmds, ingame)] ∧
      cmds s.localplayer = E.BuildTiccmd ticcmd_t.zero 0) ∧
    (TryRunTics_decided E (D_StartGameLoop E s) = 1 ∧
     ∃ (s1 : State) (cmds : Int → ticcmd_t) (ingame : Int → Bool),
      TryRunTics E fuel (D_StartGameLoop E s) = some s1 ∧ s1.gametic = 1 ∧ 1 ≤ s1.maketic ∧
      runTics s1.trace = runTics s.trace ++ [(0, cmds, ingame)] ∧
      cmds s.localplayer = E.BuildTiccmd ticcmd_t.zero 0) := by
  obtain ⟨hm, -, hg⟩ := hz
  have t0 : Int.tdiv 0 1 = 0 := rfl
  have t1 : Int.tdiv 1 1 = 1 := rfl
  constructor
  · -- the production step: no tic has elapsed
    have a0 : (GetAdjustedTime E (TryRunTics_sampled E s)).1 = 0 := hc0
    have hel : NetUpdate_elapsed E (TryRunTics_sampled E s) = 0 := by
      unfold NetUpdate_elapsed
      rw [a0]
      have b : (TryRunTics_sampled E s).ticdup = 1 := hd
      have c : (TryRunTics_sampled E s).lasttime = 0 := hl
      rw [b, c]
      rfl
    have d : (TryRunTics_sampled E s).skiptics = 0 := hsk
    have rq0 : NetUpdate_requested E (TryRunTics_sampled E s) = 0 := by
      unfold NetUpdate_requested
      rw [hel, d]
      rfl
    have e0 : TryRunTics_enter E s = NetUpdate_timed E (TryRunTics_sampled E s) := by
      rw [TryRunTics_enter_eq, hst]
      exact NetUpdate_of_requested_zero E _ hst rq0
    have hsk1 : (NetUpdate_timed E (TryRunTics_sampled E s)).skiptics = 0 := by
      show (NetUpdate_debt (TryRunTics_sampled E s).skiptics
        (NetUpdate_elapsed E (TryRunTics_sampled E s))).2 = 0
      rw [hel, d]
      rfl
    have hl1 : (NetUpdate_timed E (TryRunTics_sampled E s)).lasttime = 0 := by
      show Int.tdiv (GetAdjustedTime E (TryRunTics_sampled E s)).1
        (TryRunTics_sampled E s).ticdup = 0
      rw [a0]
      have b : (TryRunTics_sampled E s).ticdup = 1 := hd
      rw [b]
      rfl
    generalize hT1 : NetUpdate_timed E (TryRunTics_sampled E s) = T1 at e0 hsk1 hl1
    have m1 : T1.maketic = 0 := by rw [← hT1]; exact hm
    have g1 : T1.gametic = 0 := by rw [← hT1]; exact hg
    have d1 : T1.ticdup = 1 := by rw [← hT1]; exact hd
    have n1 : T1.new_sync = true := by rw [← hT1]; exact hns
    have s1 : T1.singletics = false := by rw [← hT1]; exact hst
    have p1 : T1.localplayer = s.localplayer := by rw [← hT1]; rfl
    have r1 : T1.trace = s.trace := by rw [← hT1]; rfl
    have a1 : (GetAdjustedTime E T1).1 = 1 := by rw [← hT1]; exact hc1
    have hav : TryRunTics_availabletics E s = 0 := by
      unfold TryRunTics_availabletics GetLowTic
      rw [e0, m1, g1, d1]
      rfl
    have hdec : TryRunTics_decided E s = 1 := by
      unfold TryRunTics_decided
      rw [hav, e0, n1]
      rfl
    -- the wait loop: one tic elapses and tic 0 is built
    have rq1 : NetUpdate_requested E T1 = 1 := by
      unfold NetUpdate_requested NetUpdate_elapsed
      rw [a1, d1, hl1, hsk1]
      rfl
    have w0 : NetUpdate E T1 = (BuildNewTic E (NetUpdate_timed E T1)).2 :=
      NetUpdate_of_requested_one E T1 s1 rq1
    have p2 : (NetUpdate_timed E T1).localplayer = s.localplayer := p1
    have r2 : (NetUpdate_timed E T1).trace = s.trace := r1
    obtain ⟨q1, q2, q3, -, q5, q6, q7, q8⟩ :=
      first_slot_run E (NetUpdate_timed E T1) m1 g1 d1 n1
    rw [p2, r2] at q7
    rw [p2] at q8
    have hrun : TryRunTics E (fuel + 1) s
        = some (NetUpdate E (TryRunTics_slot E (BuildNewTic E (NetUpdate_timed E T1)).2)) := by
      rw [TryRunTics_unfold, hdec, e0,
        TryRunTics_wait_step E 1 fuel _ T1 (by unfold GetLowTic; rw [m1, g1, d1]; decide),
        w0, TryRunTics_wait_ready E 1 fuel _ _
          (by unfold GetLowTic; rw [q1, q2, q3]; decide)]
      simp only [Int.toNat_one]
      rw [TryRunTics_run_one]
    exact ⟨hdec, _, _, _, hrun, q5, q6, q7, q8⟩
  · -- after `D_StartGameLoop` the production step builds tic 0
    have hst2 : (TryRunTics_sampled E (D_StartGameLoop E s)).singletics = false := hst
    have a1 : (GetAdjustedTime E (TryRunTics_sampled E (D_StartGameLoop E s))).1 = 1 := hc1
    have l1 : (TryRunTics_sampled E (D_StartGameLoop E s)).lasttime = 0 := by
      show Int.tdiv (GetAdjustedTime E s).1 s.ticdup = 0
      have : (GetAdjustedTime E s).1 = 0 := hc0
      rw [this, hd]
      rfl
    have rq1 : NetUpdate_requested E (TryRunTics_sampled E (D_StartGameLoop E s)) = 1 := by
      unfold NetUpdate_requested NetUpdate_elapsed
      rw [a1, l1]
      have b : (TryRunTics_sampled E (D_StartGameLoop E s)).ticdup = 1 := hd
      have d : (TryRunTics_sampled E (D_StartGameLoop E s)).skiptics = 0 := hsk
      rw [b, d]
      rfl
    have e0 : TryRunTics_enter E (D_StartGameLoop E s)
        = (BuildNewTic E
            (NetUpdate_timed E (TryRunTics_sampled E (D_StartGameLoop E s)))).2 := by
      have hst3 : (D_StartGameLoop E s).singletics = false := hst
      rw [TryRunTics_enter_eq, hst3]
      exact NetUpdate_of_requested_one E _ hst2 rq1
    have p2 : (NetUpdate_timed E (TryRunTics_sampled E (D_StartGameLoop E s))).localplayer
        = s.localplayer := rfl
    have r2 : (NetUpdate_timed E (TryRunTics_sampled E (D_StartGameLoop E s))).trace
        = s.trace := rfl
    obtain ⟨q1, q2, q3, q4, q5, q6, q7, q8⟩ :=
      first_slot_run E (NetUpdate_timed E (TryRunTics_sampled E (D_StartGameLoop E s)))
        hm hg hd hns
    rw [p2, r2] at q7
    rw [p2] at q8
    have hav : TryRunTics_availabletics E (D_StartGameLoop E s) = 1 := by
      unfold TryRunTics_availabletics GetLowTic
      rw [e0, q1, q2, q3]
      rfl
    have hdec : TryRunTics_decided E (D_StartGameLoop E s) = 1 := by
      unfold TryRunTics_decided
      rw [hav]
      exact TryRunTics_counts_one _ _
    have hrun : TryRunTics E fuel (D_StartGameLoop E s)
        = some (NetUpdate E (TryRunTics_slot E (BuildNewTic E
            (NetUpdate_timed E (TryRunTics_sampled E (D_StartGameLoop E s)))).2)) := by
      rw [TryRunTics_unfold, hdec, e0, TryRunTics_wait_ready E 1 fuel _ _
          (by unfold GetLowTic; rw [q1, q2, q3]; decide)]
      simp only [Int.toNat_one]
      rw [TryRunTics_run_one]
    exact ⟨hdec, _, _, _, hrun, q5, q6, q7, q8⟩

/-- C13 on the state at program start with the clock of `demoZeroEnv`, whose
adjusted readings are 0, 1, 2, ... -/
theorem C13_first_step_witness :
    (TryRunTics_decided demoZeroEnv demoState = 1 ∧
     ∃ (s1 : State) (cmds : Int → ticcmd_t) (ingame : Int → Bool),
      TryRunTics demoZeroEnv (0 + 1) demoState = some s1 ∧ s1.gametic = 1 ∧ 1 ≤ s1.maketic ∧
      runTics s1.trace = runTics demoState.trace ++ [(0, cmds, ingame)] ∧
      cmds demoState.localplayer = demoZeroEnv.BuildTiccmd ticcmd_t.zero 0) ∧
    (TryRunTics_decided demoZeroEnv (D_StartGameLoop demoZeroEnv demoState) = 1 ∧
     ∃ (s1 : State) (cmds : Int → ticcmd_t) (ingame : Int → Bool),
      TryRunTics demoZeroEnv 0 (D_StartGameLoop demoZeroEnv demoState) = some s1 ∧
      s1.gametic = 1 ∧ 1 ≤ s1.maketic ∧
      runTics s1.trace = runTics demoState.trace ++ [(0, cmds, ingame)] ∧
      cmds demoState.localplayer = demoZeroEnv.BuildTiccmd ticcmd_t.zero 0) :=
  C13_first_step demoZeroEnv demoState 0 rfl rfl rfl ⟨rfl, rfl, rfl⟩ rfl rfl
    (by decide) (by decide)

/-! ## The number of tics to run -/

/-- C14, as stated, fails: at program start with a clock that reads 0 the
production step builds nothing, so `availabletics = 0`, yet in `new_sync` mode
`TryRunTics` decides `counts = 1`, waits for a tic and runs it. -/
theorem C14_fixed_count_counterexample :
    demoState.new_sync = true ∧
    TryRunTics_availabletics demoZeroEnv demoState = 0 ∧
    TryRunTics_decided demoZeroEnv demoState = 1 ∧
    TryRunTics_decided demoZeroEnv demoState ≠ TryRunTics_availabletics demoZeroEnv demoState ∧
    ((TryRunTics demoZeroEnv 1 demoState).map fun u => u.gametic) = some 1 := by
  decide

/-- C14, amended: in `new_sync` mode the count `TryRunTics` decides is the
maximum of 1 and `availabletics`; it is `availabletics` whenever at least one
tic is available. -/
theorem C14_fixed_count_amended (E : Env) (s : State) (h : s.new_sync = true) :
    TryRunTics_decided E s = max 1 (TryRunTics_availabletics E s) ∧
    (1 ≤ TryRunTics_availabletics E s →
      TryRunTics_decided E s = TryRunTics_availabletics E s) := by
  obtain ⟨-, -, -, f4, -⟩ := Frame_enter E s
  unfold TryRunTics_decided TryRunTics_counts
  rw [f4, h]
  simp only [if_true]
  constructor
  · split <;> omega
  · intro h1
    split <;> omega

/-- C14, amended, on the state with three tics built: three are available and
three are decided. -/
theorem C14_fixed_count_amended_witness :
    demoAhead3.new_sync = true ∧ 1 ≤ TryRunTics_availabletics demoFrozenEnv demoAhead3 ∧
    TryRunTics_decided demoFrozenEnv demoAhead3
      = max 1 (TryRunTics_availabletics demoFrozenEnv demoAhead3) ∧
    TryRunTics_decided demoFrozenEnv demoAhead3
      = TryRunTics_availabletics demoFrozenEnv demoAhead3 :=
  ⟨rfl, by decide, (C14_fixed_count_amended demoFrozenEnv demoAhead3 rfl).1,
    (C14_fixed_count_amended demoFrozenEnv demoAhead3 rfl).2 (by decide)⟩

theorem TryRunTics_counts_adaptive (realtics availabletics : Int) :
    TryRunTics_counts false realtics availabletics
      = adaptive_count_spec realtics availabletics := by
  unfold TryRunTics_counts adaptive_count_spec
  simp only [Bool.false_eq_true, if_false]
  split_ifs <;> omega

/-- C15: in the old sync mode, for all integers `realtics` and
`availabletics` the count computed by lines 402-421 of `TryRunTics` is the
maximum of 1 and `c`, with `c` as the specification words it; and the count
`TryRunTics` decides in a state is that function of the `realtics` it samples
and of `availabletics`. -/
theorem C15_adaptive_count (E : Env) (s : State) (realtics availabletics : Int)
    (h : s.new_sync = false) :
    TryRunTics_counts false realtics availabletics
      = adaptive_count_spec realtics availabletics ∧
    TryRunTics_decided E s
      = adaptive_count_spec (Int.tdiv (E.I_GetTime s.reads_tic) s.ticdup - s.oldentertics)
          (TryRunTics_availabletics E s) := by
  refine ⟨TryRunTics_counts_adaptive _ _, ?_⟩
  obtain ⟨-, -, -, f4, -⟩ := Frame_enter E s
  unfold TryRunTics_decided
  rw [f4, h]
  exact TryRunTics_counts_adaptive _ _

/-- C15 in the old sync mode with three tics available and one tic elapsed:
the count is 2. -/
theorem C15_adaptive_count_witness :
    demoOldSync.new_sync = false ∧
    TryRunTics_counts false 1 3 = adaptive_count_spec 1 3 ∧
    TryRunTics_decided demoFrozenEnv demoOldSync
      = adaptive_count_spec
          (Int.tdiv (demoFrozenEnv.I_GetTime demoOldSync.reads_tic) demoOldSync.ticdup
            - demoOldSync.oldentertics)
          (TryRunTics_availabletics demoFrozenEnv demoOldSync) ∧
    TryRunTics_decided demoFrozenEnv demoOldSync = 2 :=
  ⟨rfl, (C15_adaptive_count demoFrozenEnv demoOldSync 1 3 rfl).1,
    (C15_adaptive_count demoFrozenEnv demoOldSync 1 3 rfl).2, by decide⟩

/-! ## The wait loop has no stall guard -/

theorem TryRunTics_run_gametic_mono (E : Env) :
    ∀ (n : Nat) (u : State), u.gametic ≤ (TryRunTics_run E n u).gametic := by
  intro n
  induction n with
  | zero => intro u; exact Int.le_refl _
  | succ n ih =>
    intro u
    simp only [TryRunTics_run, PlayersInGame, Bool.not_true, Bool.false_eq_true, if_false]
    have h1 := ih (NetUpdate E (TryRunTics_slot E u))
    have h2 := (NetUpdate_cursors E (TryRunTics_slot E u)).1
    have h3 := (TryRunTics_slot_spec E u).1
    omega

/-- Whenever `TryRunTics` returns it has run at least one slot: `gametic` has
advanced by at least `ticdup`.  It never returns without running a tic. -/
theorem TryRunTics_runs_a_slot (E : Env) (fuel : Nat) (s s1 : State)
    (h : TryRunTics E fuel s = some s1) : s.gametic + s.ticdup.toNat ≤ s1.gametic := by
  rw [TryRunTics_unfold] at h
  split at h
  · simp at h
  · rename_i r hw
    simp only [Option.some.injEq] at h
    subst h
    obtain ⟨hf, -⟩ := TryRunTics_wait_inv E _ (Frame s) (Frame_NetUpdate E s) fuel _ _ r
      (Frame_enter E s) rfl hw
    obtain ⟨f1, f2, -⟩ := hf
    obtain ⟨n, hn⟩ : ∃ n : Nat, (TryRunTics_decided E s).toNat = n + 1 := by
      have hpos : 1 ≤ TryRunTics_decided E s := TryRunTics_counts_pos _ _ _
      exact ⟨(TryRunTics_decided E s).toNat - 1,
        by have := Int.toNat_of_nonneg (show 0 ≤ TryRunTics_decided E s by omega); omega⟩
    rw [hn]
    simp only [TryRunTics_run, PlayersInGame, Bool.not_true, Bool.false_eq_true, if_false]
    have h1 := TryRunTics_run_gametic_mono E n (NetUpdate E (TryRunTics_slot E r.2))
    have h2 := (NetUpdate_cursors E (TryRunTics_slot E r.2)).1
    obtain ⟨h3, -, -, h4, -⟩ := TryRunTics_slot_spec E r.2
    rw [f1] at h3
    omega

/-- With the clock standing still, `NetUpdate` on a stalled state only reads
the clock, and leaves the state stalled. -/
theorem Stalled_NetUpdate (s : State) (h : Stalled s) :
    NetUpdate demoFrozenEnv s = NetUpdate_timed demoFrozenEnv s ∧
    Stalled (NetUpdate_timed demoFrozenEnv s) := by
  obtain ⟨hst, hns, hoff, hd, hl, hsk, hm, hg⟩ := h
  have a0 : (GetAdjustedTime demoFrozenEnv s).1 = 0 := by
    unfold GetAdjustedTime
    simp only [hns, hoff, if_true]
    rfl
  have hel : NetUpdate_elapsed demoFrozenEnv s = 0 := by
    unfold NetUpdate_elapsed
    rw [a0, hd, hl]
    rfl
  have rq0 : NetUpdate_requested demoFrozenEnv s = 0 := by
    unfold NetUpdate_requested
    rw [hel, hsk]
    rfl
  refine ⟨NetUpdate_of_requested_zero demoFrozenEnv s hst rq0, hst, hns, hoff, hd, ?_, ?_, hm, hg⟩
  · show Int.tdiv (GetAdjustedTime demoFrozenEnv s).1 s.ticdup = 0
    rw [a0, hd]
    rfl
  · show (NetUpdate_debt s.skiptics (NetUpdate_elapsed demoFrozenEnv s)).2 = 0
    rw [hel, hsk]
    rfl

/-- With the clock standing still the wait loop for one tic runs out of any
fuel from a stalled state. -/
theorem Stalled_wait (fuel : Nat) :
    ∀ s : State, Stalled s → TryRunTics_wait demoFrozenEnv 1 fuel s.maketic s = none := by
  induction fuel with
  | zero =>
    intro s h
    obtain ⟨-, -, -, hd, -, -, hm, hg⟩ := h
    simp [TryRunTics_wait, PlayersInGame, hm, hg, hd]
  | succ fuel ih =>
    intro s h
    obtain ⟨h1, h2⟩ := Stalled_NetUpdate s h
    obtain ⟨-, -, -, hd, -, -, hm, hg⟩ := h
    rw [TryRunTics_wait_step demoFrozenEnv 1 fuel _ s (by rw [hm, hg, hd]; decide), h1]
    exact ih _ h2

/-- C16: the wait loop of `TryRunTics` has no stall guard.  From the state at
program start with a clock that stands still, `TryRunTics` does not return
whatever the fuel; and seventeen hours into a session, when the 32-bit
product of `GetAdjustedTime` wraps and leaves a tic debt, `TryRunTics` is
still waiting after 60 polls of a clock that advances by one tic at each
poll. -/
theorem C16_stall_guard_absent :
    (∀ fuel : Nat, TryRunTics demoFrozenEnv fuel demoState = none) ∧
    (TryRunTics demoLateEnv 60 demoLateState).isNone = true ∧
    (NetUpdate demoLateEnv demoLateState).skiptics = 4294965 := by
  refine ⟨?_, by decide, by decide⟩
  intro fuel
  have hs : Stalled demoState := ⟨rfl, rfl, rfl, rfl, rfl, rfl, rfl, rfl⟩
  have hsam : Stalled (TryRunTics_sampled demoFrozenEnv demoState) := hs
  obtain ⟨h1, h2⟩ := Stalled_NetUpdate _ hsam
  have he : TryRunTics_enter demoFrozenEnv demoState
      = NetUpdate_timed demoFrozenEnv (TryRunTics_sampled demoFrozenEnv demoState) := by
    rw [TryRunTics_enter_eq]
    exact h1
  have hdec : TryRunTics_decided demoFrozenEnv demoState = 1 := by decide
  rw [TryRunTics_unfold, hdec, he]
  have := Stalled_wait fuel _ h2
  unfold GetLowTic
  rw [this]

/-! ## `GetAdjustedTime` -/

theorem wrap32_of_range (x : Int) (h1 : -2147483648 ≤ x) (h2 : x ≤ 2147483647) :
    wrap32 x = x := by
  unfold wrap32
  omega

/-- C17, as stated, fails, in two ways.  At the reading 61 356 680 ms (about
seventeen hours) with no skew the 32-bit product wraps: `GetAdjustedTime`
returns -2 147 483 where the floor is 2 147 483.  And with the reading 0 and
a skew of minus one millisecond the sum is negative and the C division rounds
toward zero: `GetAdjustedTime` returns 0 where the floor is -1. -/
theorem C17_clock_conversion_counterexample :
    (0 ≤ GetAdjustedTime_reading demoLateEnv demoState ∧
     GetAdjustedTime_reading demoLateEnv demoState ≤ 2147483647 ∧
     (GetAdjustedTime demoLateEnv demoState).1 = -2147483 ∧
     GetAdjustedTime_spec demoLateEnv demoState = 2147483 ∧
     (GetAdjustedTime demoLateEnv demoState).1 ≠ GetAdjustedTime_spec demoLateEnv demoState) ∧
    (GetAdjustedTime_reading demoFrozenEnv demoSkewed = 0 ∧
     GetAdjustedTime_shift demoFrozenEnv demoSkewed = -1 ∧
     (GetAdjustedTime demoFrozenEnv demoSkewed).1 = 0 ∧
     GetAdjustedTime_spec demoFrozenEnv demoSkewed = -1 ∧
     (GetAdjustedTime demoFrozenEnv demoSkewed).1
       ≠ GetAdjustedTime_spec demoFrozenEnv demoSkewed) := by
  decide

/-- C17, amended: whenever the product `(t + s) * TICRATE` of the shifted
reading lies in the range of a 32-bit `int`, `GetAdjustedTime` returns that
product divided by 1000 and rounded toward zero, which is the floor of the
specification when `t + s` is not negative. -/
theorem C17_clock_conversion_amended (E : Env) (s : State)
    (h1 : -2147483648
      ≤ (GetAdjustedTime_reading E s + GetAdjustedTime_shift E s) * TICRATE)
    (h2 : (GetAdjustedTime_reading E s + GetAdjustedTime_shift E s) * TICRATE
      ≤ 2147483647) :
    (GetAdjustedTime E s).1
      = Int.tdiv ((GetAdjustedTime_reading E s + GetAdjustedTime_shift E s) * TICRATE) 1000 ∧
    (0 ≤ GetAdjustedTime_reading E s + GetAdjustedTime_shift E s →
      (GetAdjustedTime E s).1 = GetAdjustedTime_spec E s) := by
  have hT : TICRATE = 35 := rfl
  rw [hT] at h1 h2
  have key : (GetAdjustedTime E s).1
      = Int.tdiv ((GetAdjustedTime_reading E s + GetAdjustedTime_shift E s) * TICRATE) 1000 := by
    unfold GetAdjustedTime GetAdjustedTime_reading GetAdjustedTime_shift at *
    simp only
    cases hn : s.new_sync
    · simp only [hn, Bool.false_eq_true, if_false, Int.add_zero] at h1 h2 ⊢
      rw [hT, wrap32_of_range _ h1 h2]
    · simp only [hn, if_true] at h1 h2 ⊢
      rw [hT, wrap32_of_range (E.I_GetTimeMS s.reads_ms + Int.tdiv s.offsetms E.FRACUNIT)
        (by omega) (by omega), wrap32_of_range _ h1 h2]
  refine ⟨key, ?_⟩
  intro h0
  rw [key]
  unfold GetAdjustedTime_spec
  rw [hT]
  exact Int.tdiv_eq_ediv (by omega) (by decide)

/-- C17, amended, at the reading 29 000 ms with no skew: 1015 tics. -/
theorem C17_clock_conversion_amended_witness :
    (GetAdjustedTime demoEnv { demoState with reads_ms := 999 }).1 = 1015 ∧
    (GetAdjustedTime demoEnv { demoState with reads_ms := 999 }).1
      = GetAdjustedTime_spec demoEnv { demoState with reads_ms := 999 } :=
  ⟨by decide,
    (C17_clock_conversion_amended demoEnv { demoState with reads_ms := 999 }
      (by decide) (by decide)).2 (by decide)⟩

/-! ## `D_StartNetGame` -/

theorem D_StartNetGame_loop_spec (np : Int) :
    ∀ (n : Nat) (a : Int → Bool) (j : Int),
      D_StartNetGame_loop np n a j
        = if 0 ≤ j ∧ j < (n : Int) then decide (j < np) else a j := by
  intro n
  induction n with
  | zero =>
    intro a j
    simp only [D_StartNetGame_loop]
    split_ifs with h <;> first | rfl | (exfalso; omega)
  | succ n ih =>
    intro a j
    simp only [D_StartNetGame_loop]
    by_cases hjn : j = (n : Int)
    · subst hjn
      rw [arr_set_same]
      split_ifs with h <;> first | rfl | (exfalso; omega)
    · rw [arr_set_ne _ _ _ _ hjn, ih a j]
      split_ifs with h1 h2 h2 <;> first | rfl | (exfalso; omega)

/-- C18, as stated, fails: called in the middle of a session (three tics
built, two run), `D_StartNetGame` leaves `maketic = 3` and `gametic = 2`. -/
theorem C18_bootstrap_reset_counterexample :
    demoMidGame.maketic = 3 ∧ demoMidGame.gametic = 2 ∧
    (D_StartNetGame demoEnv demoMidGame demoSettings).2.maketic = 3 ∧
    (D_StartNetGame demoEnv demoMidGame demoSettings).2.gametic = 2 ∧
    ¬ ((D_StartNetGame demoEnv demoMidGame demoSettings).2.offsetms = 0 ∧
       (D_StartNetGame demoEnv demoMidGame demoSettings).2.maketic = 0 ∧
       (D_StartNetGame demoEnv demoMidGame demoSettings).2.recvtic = 0 ∧
       (D_StartNetGame demoEnv demoMidGame demoSettings).2.gametic = 0) := by
  decide

/-- C18, amended: for every prior state and settings, after `D_StartNetGame`
`offsetms = 0` and `recvtic = 0`, while `maketic` and `gametic` are what they
were. -/
theorem C18_bootstrap_reset_amended (E : Env) (s : State) (settings : net_gamesettings_t) :
    (D_StartNetGame E s settings).2.offsetms = 0 ∧
    (D_StartNetGame E s settings).2.recvtic = 0 ∧
    (D_StartNetGame E s settings).2.maketic = s.maketic ∧
    (D_StartNetGame E s settings).2.gametic = s.gametic :=
  ⟨rfl, rfl, rfl, rfl⟩

/-- C19, as stated, fails: called with `ticdup = 3`, `consoleplayer = 2` and
`num_players = 4`, `D_StartNetGame` sets `ticdup = 1` and `localplayer = 0`
and marks player 1 absent although `1 < 4`. -/
theorem C19_bootstrap_settings_counterexample :
    demoSettings.ticdup = 3 ∧ demoSettings.consoleplayer = 2 ∧ demoSettings.num_players = 4 ∧
    (D_StartNetGame demoEnv demoState demoSettings).2.ticdup = 1 ∧
    (D_StartNetGame demoEnv demoState demoSettings).2.localplayer = 0 ∧
    (D_StartNetGame demoEnv demoState demoSettings).2.local_playeringame 1 = false ∧
    (D_StartNetGame demoEnv demoState demoSettings).2.ticdup ≠ demoSettings.ticdup ∧
    (D_StartNetGame demoEnv demoState demoSettings).2.localplayer
      ≠ demoSettings.consoleplayer ∧
    ¬ ((D_StartNetGame demoEnv demoState demoSettings).2.local_playeringame 1 = true
      ↔ (1 : Int) < demoSettings.num_players) := by
  decide

/-- C19, amended: whatever settings the caller passes, `D_StartNetGame`
overwrites them with those of a single-player game (`consoleplayer = 0`,
`num_players = 1`, `ticdup = 1`, `extratics = 1`, `player_classes[0]` the
recorded class) and then follows them: `ticdup = 1`, `localplayer = 0`,
`local_playeringame[i]` is true iff `i = 0` for `0 ≤ i < NET_MAXPLAYERS`; only
`new_sync` is the caller's `settings->new_sync`. -/
theorem C19_bootstrap_settings_amended (E : Env) (s : State) (settings : net_gamesettings_t) :
    (D_StartNetGame E s settings).2.ticdup = 1 ∧
    (D_StartNetGame E s settings).2.localplayer = 0 ∧
    (D_StartNetGame E s settings).2.new_sync = settings.new_sync ∧
    (∀ i : Int, 0 ≤ i → i < (E.NET_MAXPLAYERS : Int) →
      ((D_StartNetGame E s settings).2.local_playeringame i = true ↔ i = 0)) ∧
    (D_StartNetGame E s settings).1.consoleplayer = 0 ∧
    (D_StartNetGame E s settings).1.num_players = 1 ∧
    (D_StartNetGame E s settings).1.ticdup = 1 ∧
    (D_StartNetGame E s settings).1.extratics = 1 ∧
    (D_StartNetGame E s settings).1.player_classes 0 = s.player_class ∧
    (D_StartNetGame E s settings).1.new_sync = settings.new_sync := by
  refine ⟨rfl, rfl, rfl, ?_, rfl, rfl, rfl, rfl, ?_, rfl⟩
  · intro i h0 h1
    show D_StartNetGame_loop 1 E.NET_MAXPLAYERS s.local_playeringame i = true ↔ i = 0
    rw [D_StartNetGame_loop_spec, if_pos ⟨h0, h1⟩]
    simp only [decide_eq_true_eq]
    omega
  · show arr_set settings.player_classes 0 s.player_class 0 = s.player_class
    exact arr_set_same _ _ _

/-- C19, amended, on the settings `demoSettings`, for player 1. -/
theorem C19_bootstrap_settings_amended_witness :
    (D_StartNetGame demoEnv demoState demoSettings).2.ticdup = 1 ∧
    (D_StartNetGame demoEnv demoState demoSettings).2.localplayer = 0 ∧
    (D_StartNetGame demoEnv demoState demoSettings).2.new_sync = demoSettings.new_sync ∧
    ((D_StartNetGame demoEnv demoState demoSettings).2.local_playeringame 1 = true
      ↔ (1 : Int) = 0) :=
  ⟨(C19_bootstrap_settings_amended demoEnv demoState demoSettings).1,
    (C19_bootstrap_settings_amended demoEnv demoState demoSettings).2.1,
    (C19_bootstrap_settings_amended demoEnv demoState demoSettings).2.2.1,
    (C19_bootstrap_settings_amended demoEnv demoState demoSettings).2.2.2.1 1
      (by decide) (by decide)⟩

/-! ## The demo-compatibility guard -/

/-- The code's test on the lower-cased path is the specification's "ends in
`.lmp` compared case-insensitively". -/
theorem M_StringEndsWith_lmp_iff (path : List Char) :
    M_StringEndsWith (M_ForceLowercase path) lmp_suffix = true ↔ EndsInLmp path := by
  unfold M_StringEndsWith M_ForceLowercase EndsInLmp
  simp only [decide_eq_true_eq, List.length_map]
  constructor
  · rintro ⟨hlen, hdrop⟩
    refine ⟨path.take (path.length - lmp_suffix.length),
      path.drop (path.length - lmp_suffix.length), (List.take_append_drop _ _).symm, ?_⟩
    rw [List.map_drop]
    exact hdrop
  · rintro ⟨pre, suf, hp, hs⟩
    have hl : suf.length = lmp_suffix.length := by
      rw [← hs, List.length_map]
    subst hp
    refine ⟨by rw [List.length_append]; omega, ?_⟩
    rw [List.map_append, hs]
    apply List.drop_left'
    rw [List.length_map, List.length_append]
    omega

/-- C20: when the lump exists, `D_NonVanillaPlayback` returns, and it returns
true iff `conditional` is true, `-strictdemos` is not given, and the path of
the file holding the lump ends in `.lmp` compared case-insensitively; it
returns false otherwise.  When `conditional` is false or `-strictdemos` is
given it returns false without looking at the lump. -/
theorem C20_playback_guard (W : Wad) (conditional : Bool) (lumpnum : Int)
    (feature : String) :
    (conditional = false ∨ W.M_ParmExists "-strictdemos" = true →
      D_NonVanillaPlayback W conditional lumpnum feature = some (false, [])) ∧
    (∀ path : List Char, W.lump_path lumpnum = some path →
      ∃ r, D_NonVanillaPlayback W conditional lumpnum feature = some r ∧
        (r.1 = true ↔
          conditional = true ∧ W.M_ParmExists "-strictdemos" = false ∧ EndsInLmp path) ∧
        (r.1 = false ↔
          ¬ (conditional = true ∧ W.M_ParmExists "-strictdemos" = false ∧
            EndsInLmp path))) := by
  constructor
  · intro h
    unfold D_NonVanillaPlayback StrictDemos
    rcases h with h | h
    · simp [h]
    · simp [h]
  · intro path hp
    have hiff := M_StringEndsWith_lmp_iff path
    unfold D_NonVanillaPlayback IsDemoFile StrictDemos
    rw [hp]
    cases hc : conditional
    · exact ⟨(false, []), by simp, by simp, by simp⟩
    · cases hs : W.M_ParmExists "-strictdemos"
      · cases he : M_StringEndsWith (M_ForceLowercase path) lmp_suffix
        · have hne : ¬ EndsInLmp path := by
            rw [← hiff, he]
            simp
          exact ⟨(false, [Warning.wad_demo feature]), by simp [he], by simp [hne],
            by simp [hne]⟩
        · have hy : EndsInLmp path := hiff.mp he
          exact ⟨(true, [Warning.playing feature]), by simp [he], by simp [hy], by simp [hy]⟩
      · exact ⟨(false, []), by simp, by simp, by simp⟩

/-- C20 on a run without `-strictdemos`: a demo held in `DEMO1.LMP` may use
the extension. -/
theorem C20_playback_guard_witness :
    demoWad.lump_path 7 = some ['D', 'E', 'M', 'O', '1', '.', 'L', 'M', 'P'] ∧
    D_NonVanillaPlayback demoWad true 7 "x" = some (true, [Warning.playing "x"]) ∧
    ∃ r, D_NonVanillaPlayback demoWad true 7 "x" = some r ∧
      (r.1 = true ↔
        true = true ∧ demoWad.M_ParmExists "-strictdemos" = false ∧
          EndsInLmp ['D', 'E', 'M', 'O', '1', '.', 'L', 'M', 'P']) ∧
      (r.1 = false ↔
        ¬ (true = true ∧ demoWad.M_ParmExists "-strictdemos" = false ∧
          EndsInLmp ['D', 'E', 'M', 'O', '1', '.', 'L', 'M', 'P'])) :=
  ⟨rfl, by decide, (C20_playback_guard demoWad true 7 "x").2 _ rfl⟩

/-! ## The recording guard -/

/-- C21: `D_NonVanillaRecord` returns true iff `conditional` is true and
`-strictdemos` is not given, and it prints its warning, once, exactly when it
returns true. -/
theorem C21_record_guard (W : Wad) (conditional : Bool) (feature : String) :
    ((D_NonVanillaRecord W conditional feature).1 = true ↔
      conditional = true ∧ W.M_ParmExists "-strictdemos" = false) ∧
    ((D_NonVanillaRecord W conditional feature).1 = true →
      (D_NonVanillaRecord W conditional feature).2 = [Warning.recording feature]) ∧
    ((D_NonVanillaRecord W conditional feature).1 = false →
      (D_NonVanillaRecord W conditional feature).2 = []) := by
  unfold D_NonVanillaRecord StrictDemos
  cases conditional <;> cases W.M_ParmExists "-strictdemos" <;> simp

/-- C21 on a run without `-strictdemos` and on a run with it. -/
theorem C21_record_guard_witness :
    D_NonVanillaRecord demoWad true "x" = (true, [Warning.recording "x"]) ∧
    (D_NonVanillaRecord demoWad true "x").2 = [Warning.recording "x"] ∧
    D_NonVanillaRecord demoStrictWad true "x" = (false, []) ∧
    (D_NonVanillaRecord demoStrictWad true "x").2 = [] :=
  ⟨by decide, (C21_record_guard demoWad true "x").2.1 (by decide), by decide,
    (C21_record_guard demoStrictWad true "x").2.2 (by decide)⟩

/-! ## The callbacks of `BuildNewTic` -/

/-- The trace after `BuildNewTic`: the three callbacks, then `BuildTiccmd`
when a tic is built. -/
theorem BuildNewTic_trace (E : Env) (s : State) :
    (BuildNewTic E s).2.trace
      = s.trace ++ [Event.StartTic, Event.ProcessEvents, Event.RunMenu]
        ++ (if (BuildNewTic E s).1 = true then [Event.BuildTiccmd s.maketic] else []) := by
  rw [BuildNewTic_eq]
  cases BuildNewTic_refuses s
  · simp [BuildNewTic_store, State.log]
  · simp [State.log]

/-- C23, as stated, fails: on a state three tics ahead `BuildNewTic` refuses,
and yet `I_StartTic`, `ProcessEvents` and `RunMenu` have each been called
once. -/
theorem C23_sampling_counterexample :
    (BuildNewTic demoEnv demoAhead3).1 = false ∧ demoAhead3.trace = [] ∧
    (BuildNewTic demoEnv demoAhead3).2.trace.countP Event.isStartTic = 1 ∧
    (BuildNewTic demoEnv demoAhead3).2.trace.countP Event.isProcessEvents = 1 ∧
    (BuildNewTic demoEnv demoAhead3).2.trace.countP Event.isRunMenu = 1 ∧
    (BuildNewTic demoEnv demoAhead3).2.trace.countP Event.isBuildTiccmd = 0 :=
  ⟨by decide, rfl, by decide, by decide, by decide, by decide⟩

/-- C23, amended: every call of `BuildNewTic` invokes `I_StartTic`,
`ProcessEvents` and `RunMenu` exactly once each, in that order, whether it
builds a command or refuses; `BuildTiccmd` is invoked once, after them, when
the call returns true and not at all when it refuses. -/
theorem C23_sampling_amended (E : Env) (s : State) :
    (BuildNewTic E s).2.trace
      = s.trace ++ [Event.StartTic, Event.ProcessEvents, Event.RunMenu]
        ++ (if (BuildNewTic E s).1 = true then [Event.BuildTiccmd s.maketic] else []) ∧
    (BuildNewTic E s).2.trace.countP Event.isStartTic
      = s.trace.countP Event.isStartTic + 1 ∧
    (BuildNewTic E s).2.trace.countP Event.isProcessEvents
      = s.trace.countP Event.isProcessEvents + 1 ∧
    (BuildNewTic E s).2.trace.countP Event.isRunMenu
      = s.trace.countP Event.isRunMenu + 1 ∧
    (BuildNewTic E s).2.trace.countP Event.isBuildTiccmd
      = s.trace.countP Event.isBuildTiccmd
        + (if (BuildNewTic E s).1 = true then 1 else 0) := by
  have h := BuildNewTic_trace E s
  refine ⟨h, ?_, ?_, ?_, ?_⟩ <;> rw [h] <;>
    cases (BuildNewTic E s).1 <;>
    simp [List.countP_append, List.countP_cons, Event.isStartTic, Event.isProcessEvents,
      Event.isRunMenu, Event.isBuildTiccmd]

/-! ## What `TicdupSquash` changes -/

/-- C25, as stated, fails: on a command whose `buttons` is 129 (the special
bit 128 and the bit 1) `TicdupSquash` leaves `buttons = 0`, so that the bit 1
is lost, where the specification keeps it. -/
theorem C25_squash_frame_counterexample :
    demoSpecialCmd.buttons &&& 1 = 1 ∧
    (TicdupSquash_cmd demoEnv demoSpecialCmd).buttons = 0 ∧
    (TicdupSquash_cmd demoEnv demoSpecialCmd).buttons &&& 1 = 0 ∧
    (TicdupSquash_cmd_spec demoEnv demoSpecialCmd).buttons = 1 ∧
    TicdupSquash_cmd demoEnv demoSpecialCmd ≠ TicdupSquash_cmd_spec demoEnv demoSpecialCmd ∧
    ((TicdupSquash demoEnv ⟨fun _ => demoSpecialCmd, fun _ => true⟩).cmds 0).buttons = 0 := by
  decide

/-- C25, amended: on every command of the players `0 .. NET_MAXPLAYERS-1`
`TicdupSquash` sets `chatchar` to 0 and, when the `BT_SPECIAL` bit of
`buttons` is set, sets `buttons` to 0 altogether; `buttons` is unchanged when
the bit is clear, and every other field, every other command and the
`ingame` array are unchanged. -/
theorem C25_squash_frame_amended (E : Env) (set : ticcmd_set_t) (j : Int) :
    (TicdupSquash E set).ingame = set.ingame ∧
    (¬ (0 ≤ j ∧ j < (E.NET_MAXPLAYERS : Int)) → (TicdupSquash E set).cmds j = set.cmds j) ∧
    (0 ≤ j ∧ j < (E.NET_MAXPLAYERS : Int) →
      ((TicdupSquash E set).cmds j).movement = (set.cmds j).movement ∧
      ((TicdupSquash E set).cmds j).chatchar = 0 ∧
      ((TicdupSquash E set).cmds j).buttons
        = if (set.cmds j).buttons &&& E.BT_SPECIAL ≠ 0 then 0 else (set.cmds j).buttons) := by
  obtain ⟨hc, hi⟩ := TicdupSquash_loop_spec E E.NET_MAXPLAYERS set
  unfold TicdupSquash
  refine ⟨hi, ?_, ?_⟩
  · intro hj
    rw [hc j, if_neg hj]
  · intro hj
    rw [hc j, if_pos hj]
    refine ⟨TicdupSquash_cmd_movement E _, TicdupSquash_cmd_chatchar E _, ?_⟩
    unfold TicdupSquash_cmd
    simp only
    split <;> rfl

/-- C25, amended, on a slot whose commands have the special bit and the bit
1 set: player 3 keeps its movement and loses all its buttons. -/
theorem C25_squash_frame_amended_witness :
    ((TicdupSquash demoEnv ⟨fun _ => demoSpecialCmd, fun _ => true⟩).cmds 3).movement = 5 ∧
    ((TicdupSquash demoEnv ⟨fun _ => demoSpecialCmd, fun _ => true⟩).cmds 3).chatchar = 0 ∧
    ((TicdupSquash demoEnv ⟨fun _ => demoSpecialCmd, fun _ => true⟩).cmds 3).buttons
      = (if demoSpecialCmd.buttons &&& demoEnv.BT_SPECIAL ≠ 0 then 0
         else demoSpecialCmd.buttons) ∧
    (TicdupSquash demoEnv ⟨fun _ => demoSpecialCmd, fun _ => true⟩).cmds 8
      = demoSpecialCmd :=
  ⟨((C25_squash_frame_amended demoEnv ⟨fun _ => demoSpecialCmd, fun _ => true⟩ 3).2.2
      (by decide)).1,
    ((C25_squash_frame_amended demoEnv ⟨fun _ => demoSpecialCmd, fun _ => true⟩ 3).2.2
      (by decide)).2.1,
    ((C25_squash_frame_amended demoEnv ⟨fun _ => demoSpecialCmd, fun _ => true⟩ 3).2.2
      (by decide)).2.2,
    (C25_squash_frame_amended demoEnv ⟨fun _ => demoSpecialCmd, fun _ => true⟩ 8).2.1
      (by decide)⟩

/-! ## The pacing limits of `BuildNewTic` -/

/-- C29: after every call of `BuildNewTic` that returns true,
`maketic - gametic/ticdup` is at most 3 in `new_sync` mode and at most 5 in
the old sync mode, whatever `ticdup`; and `BuildNewTic` is the same function
as `BuildNewTic` with the test `ahead > 8` removed, so that this test never
decides the outcome. -/
theorem C29_tight_pacing (E : Env) (s : State) :
    ((BuildNewTic E s).1 = true →
      (BuildNewTic E s).2.maketic
          - Int.tdiv (BuildNewTic E s).2.gametic (BuildNewTic E s).2.ticdup
        ≤ (if s.new_sync = true then 3 else 5)) ∧
    BuildNewTic E s = BuildNewTic_without_hard_limit E s := by
  constructor
  · intro h
    obtain ⟨hg, htd, -, -, -, -, -, -, hmk⟩ := BuildNewTic_snd_fields E s
    rw [BuildNewTic_fst] at h
    have hr : BuildNewTic_refuses s = false := by
      cases hb : BuildNewTic_refuses s
      · rfl
      · rw [hb] at h; simp at h
    have hn : ¬ (BuildNewTic_refuses s = true) := by simp [hr]
    rw [BuildNewTic_refuses_iff] at hn
    rw [hg, htd, hmk, hr]
    simp only [Bool.false_eq_true, if_false]
    cases hs : s.new_sync
    · simp only [hs, Bool.false_eq_true, false_and, true_and, false_or, if_false] at hn ⊢
      omega
    · simp only [hs, true_and, Bool.true_eq_false, false_and, or_false, if_true] at hn ⊢
      omega
  · unfold BuildNewTic BuildNewTic_without_hard_limit
    have hl : (s.log [Event.StartTic, Event.ProcessEvents, Event.RunMenu]).new_sync
        = s.new_sync := rfl
    have hm : (s.log [Event.StartTic, Event.ProcessEvents, Event.RunMenu]).maketic
        = s.maketic := rfl
    simp only [hl, hm]
    cases hs : s.new_sync
    · rfl
    · by_cases h2 : s.maketic - s.gametic.tdiv s.ticdup > 2
      · simp [h2]
      · have h8 : ¬ s.maketic - s.gametic.tdiv s.ticdup > 8 := by omega
        simp [h2, h8]

/-- C29 at the initial state: the first call builds a tic and ends one tic
ahead. -/
theorem C29_tight_pacing_witness :
    (BuildNewTic demoEnv demoState).1 = true ∧
    (BuildNewTic demoEnv demoState).2.maketic
        - Int.tdiv (BuildNewTic demoEnv demoState).2.gametic
            (BuildNewTic demoEnv demoState).2.ticdup
      ≤ (if demoState.new_sync = true then 3 else 5) :=
  ⟨by decide, (C29_tight_pacing demoEnv demoState).1 (by decide)⟩

/-! ## The production count of the pump -/

theorem BuildNewTic_refuses_iff_limit (s : State) :
    BuildNewTic_refuses s = true ↔
      pacing_limit s ≤ s.maketic - Int.tdiv s.gametic s.ticdup := by
  rw [BuildNewTic_refuses_iff]
  unfold pacing_limit
  cases s.new_sync
  · simp only [Bool.false_eq_true, false_and, true_and, false_or, if_false]
  · simp only [true_and, Bool.true_eq_false, false_and, or_false, if_true]
    omega

theorem BuildNewTic_calls (E : Env) (s : State) :
    (BuildNewTic E s).2.trace.countP Event.isRunMenu
      = s.trace.countP Event.isRunMenu + 1 := by
  rw [BuildNewTic_trace]
  cases (BuildNewTic E s).1 <;>
    simp [List.countP_append, List.countP_cons, Event.isRunMenu]

/-- The production loop with bound `k` builds `min(k, max(0, L - ahead))`
tics, and calls `BuildNewTic` once more than that when this is less than `k`:
the loop stops at the first refusal. -/
theorem NetUpdate_loop_exact (E : Env) :
    ∀ (k : Nat) (s : State),
      (NetUpdate_loop E k s).maketic = s.maketic + pump_count_spec s k ∧
      (((NetUpdate_loop E k s).trace.countP Event.isRunMenu : Nat) : Int)
        = s.trace.countP Event.isRunMenu + pump_count_spec s k
          + (if pump_count_spec s k < k then 1 else 0) := by
  intro k
  induction k with
  | zero =>
    intro s
    unfold pump_count_spec
    simp only [NetUpdate_loop]
    constructor
    · push_cast; omega
    · push_cast
      split_ifs <;> omega
  | succ k ih =>
    intro s
    obtain ⟨hg, htd, hns, -, -, -, -, -, hmk⟩ := BuildNewTic_snd_fields E s
    have hcalls := BuildNewTic_calls E s
    have hlim := BuildNewTic_refuses_iff_limit s
    have hfst := BuildNewTic_fst E s
    simp only [NetUpdate_loop]
    cases hr : BuildNewTic_refuses s
    · -- a tic is built
      have hlt : ¬ pacing_limit s ≤ s.maketic - Int.tdiv s.gametic s.ticdup := by
        rw [← hlim, hr]; simp
      rw [hr] at hfst hmk
      simp only [Bool.not_false] at hfst
      simp only [hfst, if_true]
      obtain ⟨i1, i2⟩ := ih (BuildNewTic E s).2
      have hpl : pacing_limit (BuildNewTic E s).2 = pacing_limit s := by
        unfold pacing_limit; rw [hns]
      unfold pump_count_spec at i1 i2 ⊢
      rw [hpl, hg, htd, hmk] at i1 i2
      rw [hcalls] at i2
      simp only [Bool.false_eq_true, if_false] at i1 i2
      constructor
      · rw [i1]; push_cast; omega
      · rw [i2]; push_cast
        split_ifs at * <;> omega
    · -- the call is refused
      have hge : pacing_limit s ≤ s.maketic - Int.tdiv s.gametic s.ticdup := by
        rw [← hlim, hr]
      rw [hr] at hfst hmk
      simp only [Bool.not_true] at hfst
      simp only [hfst, Bool.false_eq_true, if_false]
      rw [hmk, hcalls]
      unfold pump_count_spec
      simp only [if_true]
      constructor
      · push_cast; omega
      · push_cast
        split_ifs <;> omega

/-- C24: for every call of `NetUpdate` with `singletics` off, with `e` the
elapsed tics, `s` the debt and `ahead = maketic - gametic/ticdup` on entry:
the number asked for is `n = e - s`, and the debt becomes 0, when `s ≤ e`,
otherwise `n = 0` and the debt becomes `s - e`; `lasttime` becomes the new
time; `maketic` increases by exactly `min(n, max(0, L - ahead))` with `L = 3`
in `new_sync` mode and 5 otherwise; and `BuildNewTic` is called once for each
tic built and once more, for the refusal, when fewer than `n` are built. -/
theorem C24_pump_count (E : Env) (s : State) (h : s.singletics = false) :
    (s.skiptics ≤ NetUpdate_elapsed E s →
      NetUpdate_requested E s = NetUpdate_elapsed E s - s.skiptics ∧
      (NetUpdate E s).skiptics = 0) ∧
    (NetUpdate_elapsed E s < s.skiptics →
      NetUpdate_requested E s = 0 ∧
      (NetUpdate E s).skiptics = s.skiptics - NetUpdate_elapsed E s) ∧
    (NetUpdate E s).lasttime = NetUpdate_elapsed E s + s.lasttime ∧
    (NetUpdate E s).maketic
      = s.maketic + pump_count_spec s (NetUpdate_requested E s) ∧
    (((NetUpdate E s).trace.countP Event.isRunMenu : Nat) : Int)
      = s.trace.countP Event.isRunMenu + pump_count_spec s (NetUpdate_requested E s)
        + (if pump_count_spec s (NetUpdate_requested E s) < NetUpdate_requested E s
           then 1 else 0) := by
  have hd := NetUpdate_debt_spec s.skiptics (NetUpdate_elapsed E s)
  have hn : ((NetUpdate_requested E s).toNat : Int) = NetUpdate_requested E s :=
    Int.toNat_of_nonneg hd.2
  obtain ⟨-, -, l3, l4, -⟩ := NetUpdate_loop_fields E (NetUpdate_requested E s).toNat
    (NetUpdate_timed E s)
  obtain ⟨x1, x2⟩ := NetUpdate_loop_exact E (NetUpdate_requested E s).toNat
    (NetUpdate_timed E s)
  have hspec : pump_count_spec (NetUpdate_timed E s) (NetUpdate_requested E s)
      = pump_count_spec s (NetUpdate_requested E s) := rfl
  have hsk : (NetUpdate_timed E s).skiptics
      = (NetUpdate_debt s.skiptics (NetUpdate_elapsed E s)).2 := rfl
  have hlt : (NetUpdate_timed E s).lasttime = NetUpdate_elapsed E s + s.lasttime := by
    show Int.tdiv (GetAdjustedTime E s).1 s.ticdup
      = Int.tdiv (GetAdjustedTime E s).1 s.ticdup - s.lasttime + s.lasttime
    omega
  have hmk : (NetUpdate_timed E s).maketic = s.maketic := rfl
  have htr : (NetUpdate_timed E s).trace = s.trace := rfl
  rw [hn, hspec, hmk] at x1
  rw [hn, hspec, htr] at x2
  rw [NetUpdate_eq_loop E s h]
  rw [l3, l4, hsk, hlt]
  refine ⟨?_, ?_, rfl, x1, x2⟩
  · intro hle
    unfold NetUpdate_requested NetUpdate_debt
    simp [hle]
  · intro hgt
    have hnle : ¬ s.skiptics ≤ NetUpdate_elapsed E s := by omega
    unfold NetUpdate_requested NetUpdate_debt
    simp [hnle]

/-- C24 on the jumped clock, from the initial state (ten tics asked for,
three built, four calls) and from a state with a debt of two. -/
theorem C24_pump_count_witness :
    (NetUpdate_requested demoJumpEnv demoState = 10 ∧
     (NetUpdate demoJumpEnv demoState).maketic = demoState.maketic + 3 ∧
     (NetUpdate demoJumpEnv demoState).trace.countP Event.isRunMenu = 4) ∧
    (NetUpdate_requested demoJumpEnv demoState
        = NetUpdate_elapsed demoJumpEnv demoState - demoState.skiptics ∧
      (NetUpdate demoJumpEnv demoState).skiptics = 0) ∧
    (NetUpdate_requested demoZeroEnv demoDebt = 0 ∧
      (NetUpdate demoZeroEnv demoDebt).skiptics
        = demoDebt.skiptics - NetUpdate_elapsed demoZeroEnv demoDebt) :=
  ⟨by decide, (C24_pump_count demoJumpEnv demoState rfl).1 (by decide),
    (C24_pump_count demoZeroEnv demoDebt rfl).2.1 (by decide)⟩

/-! ## Presence in a single-player game -/

/-- The loop of `SinglePlayerClear` clears the flags of the players
`0 .. n-1` other than the local one and leaves the other flags alone. -/
theorem SinglePlayerClear_loop_ingame (lp : Int) :
    ∀ (n : Nat) (set : ticcmd_set_t) (j : Int),
      (SinglePlayerClear_loop lp n set).ingame j
        = if 0 ≤ j ∧ j < (n : Int) ∧ j ≠ lp then false else set.ingame j := by
  intro n
  induction n with
  | zero =>
    intro set j
    simp only [SinglePlayerClear_loop]
    split_ifs with h <;> first | rfl | (exfalso; omega)
  | succ n ih =>
    intro set j
    simp only [SinglePlayerClear_loop]
    by_cases hn : (n : Int) = lp
    · simp only [hn, ne_eq, not_true_eq_false, if_false]
      rw [ih set j]
      split_ifs with h1 h2 h2 <;> first | rfl | (exfalso; omega)
    · simp only [ne_eq, hn, not_false_eq_true, if_true]
      by_cases hjn : j = (n : Int)
      · subst hjn
        rw [arr_set_same]
        split_ifs with h1 <;> first | rfl | (exfalso; omega)
      · rw [arr_set_ne _ _ _ _ hjn, ih set j]
        split_ifs with h1 h2 h2 <;> first | rfl | (exfalso; omega)

theorem TicdupSquash_ingame (E : Env) (set : ticcmd_set_t) :
    (TicdupSquash E set).ingame = set.ingame :=
  (TicdupSquash_loop_spec E E.NET_MAXPLAYERS set).2

/-- Every call of the duplication loop is made on the slot and with the
presence array the slot had on entry. -/
theorem TryRunTics_dup_calls_spec (E : Env) (slot : Int) :
    ∀ (n : Nat) (set : ticcmd_set_t),
      (TryRunTics_dup_calls E slot n set).length = n ∧
      ∀ r ∈ TryRunTics_dup_calls E slot n set, r.1 = slot ∧ r.2.2 = set.ingame := by
  intro n
  induction n with
  | zero =>
    intro set
    simp [TryRunTics_dup_calls]
  | succ n ih =>
    intro set
    obtain ⟨h1, h2⟩ := ih (TicdupSquash E set)
    simp only [TryRunTics_dup_calls, List.length_cons, h1, List.mem_cons, true_and]
    intro r hr
    rcases hr with hr | hr
    · rw [hr]
      exact ⟨rfl, rfl⟩
    · obtain ⟨a, b⟩ := h2 r hr
      exact ⟨a, by rw [b, TicdupSquash_ingame]⟩

/-- A property kept by `BuildNewTic` and by the run of any slot, and which
does not depend on the timers, `lasttime`, `skiptics` and `oldentertics`, is
kept by the run loop of `TryRunTics`. -/
theorem TryRunTics_run_inv_all (E : Env) (P : State → Prop)
    (hN : ∀ s, P s → P (NetUpdate E s))
    (hS : ∀ s, P s → P (TryRunTics_slot E s)) :
    ∀ (n : Nat) (s : State), P s → P (TryRunTics_run E n s) := by
  intro n
  induction n with
  | zero => intro s h; exact h
  | succ n ih =>
    intro s h
    simp only [TryRunTics_run, PlayersInGame, Bool.not_true, Bool.false_eq_true, if_false]
    exact ih _ (hN _ (hS s h))

theorem TryRunTics_inv_all (E : Env) (P : State → Prop)
    (hB : ∀ s, P s → P (BuildNewTic E s).2)
    (hT : ∀ (s : State) (r : Nat) (l k : Int), P s →
      P { s with reads_ms := r, lasttime := l, skiptics := k })
    (hO : ∀ (s : State) (r : Nat) (o : Int), P s →
      P { s with reads_tic := r, oldentertics := o })
    (hS : ∀ s, P s → P (TryRunTics_slot E s)) :
    ∀ (fuel : Nat) (s s1 : State), P s → TryRunTics E fuel s = some s1 → P s1 := by
  intro fuel s s1 h hr
  have hN := NetUpdate_inv E P hB hT
  have h2 : P (TryRunTics_enter E s) := by
    rw [TryRunTics_enter_eq]
    split
    · exact hB _ (hO s _ _ h)
    · exact hN _ (hO s _ _ h)
  rw [TryRunTics_unfold] at hr
  split at hr
  · simp at hr
  · rename_i r hw
    simp only [Option.some.injEq] at hr
    subst hr
    obtain ⟨h3, -⟩ := TryRunTics_wait_inv E _ P hN fuel _ _ r h2 rfl hw
    exact TryRunTics_run_inv_all E P hN hS _ _ h3

/-- C26: `SinglePlayerClear` changes no command; every `RunTic` call of the
run of a slot receives a presence array in which `ingame[i]` is false for
every player `i` of `0 .. NET_MAXPLAYERS-1` other than the local one and
`ingame[localplayer]` has the value stored in the slot; after each call
`local_playeringame` is that presence array on `0 .. NET_MAXPLAYERS-1`; and
every `RunTic` call made by a returning `TryRunTics` receives such an array. -/
theorem C26_single_player_presence (E : Env) (s : State) (slot : Int) (fuel : Nat) :
    (∀ set : ticcmd_set_t, (SinglePlayerClear E s.localplayer set).cmds = set.cmds) ∧
    (∃ calls, runTics (TryRunTics_slot E s).trace = runTics s.trace ++ calls ∧
      calls.length = s.ticdup.toNat ∧
      ∀ r ∈ calls, OnlyLocal E s.localplayer r.2.2 ∧
        r.2.2 s.localplayer
          = (s.ticdata (Int.tmod (Int.tdiv s.gametic s.ticdup) E.BACKUPTICS)).ingame
              s.localplayer) ∧
    ((TryRunTics_dup_body E slot s).trace
        = s.trace ++ [Event.RunTic slot (s.ticdata slot).cmds (s.ticdata slot).ingame] ∧
      ∀ i : Int, 0 ≤ i → i < (E.NET_MAXPLAYERS : Int) →
        (TryRunTics_dup_body E slot s).local_playeringame i = (s.ticdata slot).ingame i) ∧
    (∀ s1, TryRunTics E fuel s = some s1 →
      ∃ calls, runTics s1.trace = runTics s.trace ++ calls ∧
        ∀ r ∈ calls, OnlyLocal E s.localplayer r.2.2) := by
  have hslot : ∀ u : State, ∃ calls,
      runTics (TryRunTics_slot E u).trace = runTics u.trace ++ calls ∧
      calls.length = u.ticdup.toNat ∧
      ∀ r ∈ calls, OnlyLocal E u.localplayer r.2.2 ∧
        r.2.2 u.localplayer
          = (u.ticdata (Int.tmod (Int.tdiv u.gametic u.ticdup) E.BACKUPTICS)).ingame
              u.localplayer := by
    intro u
    obtain ⟨c1, c2⟩ := TryRunTics_dup_calls_spec E
      (Int.tmod (Int.tdiv u.gametic u.ticdup) E.BACKUPTICS) u.ticdup.toNat
      (SinglePlayerClear E u.localplayer
        (u.ticdata (Int.tmod (Int.tdiv u.gametic u.ticdup) E.BACKUPTICS)))
    refine ⟨_, (TryRunTics_slot_exact E u).1, c1, ?_⟩
    intro r hr
    rw [(c2 r hr).2]
    exact ⟨by
      intro i h0 h1 h2
      unfold SinglePlayerClear
      rw [SinglePlayerClear_loop_ingame, if_pos ⟨h0, h1, h2⟩], by
      unfold SinglePlayerClear
      rw [SinglePlayerClear_loop_ingame]
      split_ifs with h
      · exact absurd rfl h.2.2
      · rfl⟩
  refine ⟨fun set => SinglePlayerClear_loop_cmds _ _ _, hslot s, ⟨rfl, ?_⟩, ?_⟩
  · intro i h0 h1
    show arr_copy E.NET_MAXPLAYERS s.local_playeringame (s.ticdata slot).ingame i
      = (s.ticdata slot).ingame i
    unfold arr_copy
    rw [if_pos ⟨h0, h1⟩]
  · intro s1 hr
    have hP := TryRunTics_inv_all E
      (fun u => u.localplayer = s.localplayer ∧
        ∃ calls, runTics u.trace = runTics s.trace ++ calls ∧
          ∀ r ∈ calls, OnlyLocal E s.localplayer r.2.2)
      ?_ (fun _ _ _ _ hu => hu) (fun _ _ _ hu => hu) ?_ fuel s s1
      ⟨rfl, [], by simp, by simp⟩ hr
    · exact hP.2
    · rintro u ⟨hl, calls, hc, hq⟩
      exact ⟨((BuildNewTic_snd_fields E u).2.2.2.2.1).trans hl, calls,
        (BuildNewTic_runTics E u).trans hc, hq⟩
    · rintro u ⟨hl, calls, hc, hq⟩
      obtain ⟨new, n1, -, n3⟩ := hslot u
      refine ⟨((TryRunTics_slot_spec E u).2.2.2.2.1).trans hl, calls ++ new, ?_, ?_⟩
      · rw [n1, hc, List.append_assoc]
      · intro r hr
        rcases List.mem_append.mp hr with h | h
        · exact hq r h
        · have := (n3 r h).1
          rw [hl] at this
          exact this

/-- C26 on a slot in which every player is marked present, run three times:
the three calls see only the local player present. -/
theorem C26_single_player_presence_witness :
    (∃ calls, runTics (TryRunTics_slot demoEnv demoDup3).trace
        = runTics demoDup3.trace ++ calls ∧
      calls.length = demoDup3.ticdup.toNat ∧
      ∀ r ∈ calls, OnlyLocal demoEnv demoDup3.localplayer r.2.2 ∧
        r.2.2 demoDup3.localplayer
          = (demoDup3.ticdata (Int.tmod (Int.tdiv demoDup3.gametic demoDup3.ticdup)
              demoEnv.BACKUPTICS)).ingame demoDup3.localplayer) ∧
    (TryRunTics_dup_body demoEnv 0 demoDup3).local_playeringame 3
      = (demoDup3.ticdata 0).ingame 3 ∧
    ∃ s1, TryRunTics demoEnv 0 demoDup3 = some s1 ∧
      ∃ calls, runTics s1.trace = runTics demoDup3.trace ++ calls ∧
        ∀ r ∈ calls, OnlyLocal demoEnv demoDup3.localplayer r.2.2 :=
  ⟨(C26_single_player_presence demoEnv demoDup3 0 0).2.1,
    (C26_single_player_presence demoEnv demoDup3 0 0).2.2.1.2 3 (by decide) (by decide),
    (TryRunTics demoEnv 0 demoDup3).getD demoDup3, rfl,
    (C26_single_player_presence demoEnv demoDup3 0 0).2.2.2 _ rfl⟩

/-! ## Single-step mode -/

/-- The duplication loop and the run of a slot call nothing but `RunTic`. -/
theorem TryRunTics_dup_menu (E : Env) (slot : Int) :
    ∀ (n : Nat) (s : State),
      (TryRunTics_dup E slot n s).trace.countP Event.isRunMenu
        = s.trace.countP Event.isRunMenu ∧
      (TryRunTics_dup E slot n s).trace.countP Event.isBuildTiccmd
        = s.trace.countP Event.isBuildTiccmd := by
  intro n
  induction n with
  | zero => intro s; exact ⟨rfl, rfl⟩
  | succ n ih =>
    intro s
    simp only [TryRunTics_dup]
    obtain ⟨a, b⟩ := ih (TryRunTics_dup_body E slot s)
    rw [a, b]
    simp [TryRunTics_dup_body, State.log, List.countP_append, List.countP_cons,
      Event.isRunMenu, Event.isBuildTiccmd]

theorem TryRunTics_slot_menu (E : Env) (s : State) :
    (TryRunTics_slot E s).trace.countP Event.isRunMenu
      = s.trace.countP Event.isRunMenu ∧
    (TryRunTics_slot E s).trace.countP Event.isBuildTiccmd
      = s.trace.countP Event.isBuildTiccmd :=
  TryRunTics_dup_menu E _ _ _

/-- C27: with `singletics` set, `ticdup ≥ 1`, `gametic ≥ 0` and
`maketic = gametic/ticdup` on entry, in either sync mode and for any clock
readings: the pump `NetUpdate` does nothing; `TryRunTics` returns whatever the
fuel, the condition of its wait loop being false at the first test; the state
it returns is the one `BuildNewTic`, called once, followed by the run of one
slot leaves; `RunMenu` and `BuildTiccmd` have been called exactly once,
`RunTic` exactly `ticdup` times; and `maketic = gametic/ticdup` on return. -/
theorem C27_single_step (E : Env) (s : State) (fuel : Nat)
    (hst : s.singletics = true) (hd : 1 ≤ s.ticdup) (hg : 0 ≤ s.gametic)
    (hm : s.maketic = Int.tdiv s.gametic s.ticdup) :
    (∀ u : State, u.singletics = true → NetUpdate E u = u) ∧
    TryRunTics_wait E (TryRunTics_decided E s) 0 (GetLowTic (TryRunTics_enter E s))
        (TryRunTics_enter E s)
      = some (GetLowTic (TryRunTics_enter E s), TryRunTics_enter E s) ∧
    TryRunTics_decided E s = 1 ∧
    TryRunTics E fuel s
      = some (TryRunTics_slot E (BuildNewTic E (TryRunTics_sampled E s)).2) ∧
    (BuildNewTic E (TryRunTics_sampled E s)).1 = true ∧
    ∀ s1, TryRunTics E fuel s = some s1 →
      s1.trace.countP Event.isRunMenu = s.trace.countP Event.isRunMenu + 1 ∧
      s1.trace.countP Event.isBuildTiccmd = s.trace.countP Event.isBuildTiccmd + 1 ∧
      (runTics s1.trace).length = (runTics s.trace).length + s.ticdup.toNat ∧
      s1.gametic = s.gametic + s.ticdup ∧
      s1.maketic = s.maketic + 1 ∧
      s1.maketic = Int.tdiv s1.gametic s1.ticdup := by
  have hnu : ∀ u : State, u.singletics = true → NetUpdate E u = u := by
    intro u hu
    unfold NetUpdate
    rw [if_pos hu]
  have he : TryRunTics_enter E s = (BuildNewTic E (TryRunTics_sampled E s)).2 := by
    rw [TryRunTics_enter_eq, if_pos hst]
  have hrf : BuildNewTic_refuses (TryRunTics_sampled E s) = false := by
    cases hr : BuildNewTic_refuses (TryRunTics_sampled E s)
    · rfl
    · exfalso
      have h := (BuildNewTic_refuses_iff_limit (TryRunTics_sampled E s)).mp hr
      have h2 : (TryRunTics_sampled E s).maketic
          - Int.tdiv (TryRunTics_sampled E s).gametic (TryRunTics_sampled E s).ticdup = 0 := by
        show s.maketic - Int.tdiv s.gametic s.ticdup = 0
        omega
      rw [h2] at h
      unfold pacing_limit at h
      split at h <;> omega
  have hfst : (BuildNewTic E (TryRunTics_sampled E s)).1 = true := by
    rw [BuildNewTic_fst, hrf]
    rfl
  obtain ⟨bg, bd, bn, bs, -, -, -, -, bm⟩ := BuildNewTic_snd_fields E (TryRunTics_sampled E s)
  have br := BuildNewTic_runTics E (TryRunTics_sampled E s)
  have bt := BuildNewTic_trace E (TryRunTics_sampled E s)
  rw [hfst, if_pos rfl] at bt
  rw [hrf] at bm
  simp only [Bool.false_eq_true, if_false] at bm
  have bg2 : (BuildNewTic E (TryRunTics_sampled E s)).2.gametic = s.gametic := bg
  have bd2 : (BuildNewTic E (TryRunTics_sampled E s)).2.ticdup = s.ticdup := bd
  have bs2 : (BuildNewTic E (TryRunTics_sampled E s)).2.singletics = true := bs.trans hst
  have bm2 : (BuildNewTic E (TryRunTics_sampled E s)).2.maketic = s.maketic + 1 := bm
  have br2 : runTics (BuildNewTic E (TryRunTics_sampled E s)).2.trace = runTics s.trace := br
  have bt2 : (BuildNewTic E (TryRunTics_sampled E s)).2.trace
      = s.trace ++ [Event.StartTic, Event.ProcessEvents, Event.RunMenu]
        ++ [Event.BuildTiccmd s.maketic] := bt
  have hav : TryRunTics_availabletics E s = 1 := by
    unfold TryRunTics_availabletics GetLowTic
    rw [he, bm2, bg2, bd2]
    dsimp only
    omega
  have hdec : TryRunTics_decided E s = 1 := by
    unfold TryRunTics_decided
    rw [hav]
    exact TryRunTics_counts_one _ _
  have hw : ∀ f, TryRunTics_wait E (TryRunTics_decided E s) f
      (GetLowTic (TryRunTics_enter E s)) (TryRunTics_enter E s)
      = some (GetLowTic (TryRunTics_enter E s), TryRunTics_enter E s) := by
    intro f
    apply TryRunTics_wait_ready
    rw [hdec]
    unfold GetLowTic
    rw [he, bm2, bg2, bd2]
    dsimp only
    omega
  have hres : TryRunTics E fuel s
      = some (TryRunTics_slot E (BuildNewTic E (TryRunTics_sampled E s)).2) := by
    rw [TryRunTics_unfold, hw fuel, hdec]
    show some (TryRunTics_run E 1 (TryRunTics_enter E s)) = _
    rw [TryRunTics_run_one, he, hnu]
    rw [(TryRunTics_slot_spec E _).2.2.2.2.2.2.1]
    exact bs2
  refine ⟨hnu, hw 0, hdec, hres, hfst, ?_⟩
  intro s1 h1
  rw [hres] at h1
  simp only [Option.some.injEq] at h1
  subst h1
  obtain ⟨x1, x2, -, x4, -, -, -, -, -, -, -⟩ :=
    TryRunTics_slot_spec E (BuildNewTic E (TryRunTics_sampled E s)).2
  obtain ⟨y1, y2⟩ := TryRunTics_slot_menu E (BuildNewTic E (TryRunTics_sampled E s)).2
  have z1 := (TryRunTics_slot_exact E (BuildNewTic E (TryRunTics_sampled E s)).2).1
  have z2 := (TryRunTics_dup_calls_spec E
    (Int.tmod (Int.tdiv (BuildNewTic E (TryRunTics_sampled E s)).2.gametic
      (BuildNewTic E (TryRunTics_sampled E s)).2.ticdup) E.BACKUPTICS)
    (BuildNewTic E (TryRunTics_sampled E s)).2.ticdup.toNat
    (SinglePlayerClear E (BuildNewTic E (TryRunTics_sampled E s)).2.localplayer
      ((BuildNewTic E (TryRunTics_sampled E s)).2.ticdata
        (Int.tmod (Int.tdiv (BuildNewTic E (TryRunTics_sampled E s)).2.gametic
          (BuildNewTic E (TryRunTics_sampled E s)).2.ticdup) E.BACKUPTICS)))).1
  have hcast : ((s.ticdup.toNat : Nat) : Int) = s.ticdup := Int.toNat_of_nonneg (by omega)
  have hgm : (TryRunTics_slot E (BuildNewTic E (TryRunTics_sampled E s)).2).gametic
      = s.gametic + s.ticdup := by
    rw [x1, bg2, bd2, hcast]
  refine ⟨?_, ?_, ?_, hgm, x2.trans bm2, ?_⟩
  · rw [y1, bt2]
    simp [List.countP_append, List.countP_cons, Event.isRunMenu]
  · rw [y2, bt2]
    simp [List.countP_append, List.countP_cons, Event.isBuildTiccmd]
  · rw [z1, List.length_append, z2, br2, bd2]
  · rw [x2, bm2, hgm, x4, bd2, tdiv_add_self _ _ hg hd, hm]

/-- C27 on a fresh game in single-step mode: one call of `TryRunTics` without
fuel builds one tic and runs it. -/
theorem C27_single_step_witness :
    demoSingle.singletics = true ∧ 1 ≤ demoSingle.ticdup ∧ 0 ≤ demoSingle.gametic ∧
    demoSingle.maketic = Int.tdiv demoSingle.gametic demoSingle.ticdup ∧
    TryRunTics demoEnv 0 demoSingle
      = some (TryRunTics_slot demoEnv (BuildNewTic demoEnv
          (TryRunTics_sampled demoEnv demoSingle)).2) :=
  ⟨rfl, by decide, by decide, by decide,
    (C27_single_step demoEnv demoSingle 0 rfl (by decide) (by decide) (by decide)).2.2.2.1⟩

/-! ## Fixed-point arithmetic -/

theorem pow_two_of_and_pred : ∀ n : Nat, 0 < n → n &&& (n - 1) = 0 → ∃ k, n = 2 ^ k := by
  intro n
  induction n using Nat.strong_induction_on with
  | _ n ih =>
    intro hn h
    by_cases h1 : n = 1
    · exact ⟨0, h1⟩
    have hd : (n &&& (n - 1)) / 2 = n / 2 &&& (n - 1) / 2 := Nat.and_div_two
    rw [h] at hd
    rcases Nat.even_or_odd n with he | ho
    · obtain ⟨m, hm⟩ := he
      have e1 : n / 2 = m := by omega
      have e2 : (n - 1) / 2 = m - 1 := by omega
      rw [e1, e2] at hd
      obtain ⟨k, hk⟩ := ih m (by omega) (by omega) hd.symm
      exact ⟨k + 1, by rw [pow_succ, ← hk]; omega⟩
    · obtain ⟨m, hm⟩ := ho
      have e1 : n / 2 = m := by omega
      have e2 : (n - 1) / 2 = m := by omega
      rw [e1, e2, Nat.and_self] at hd
      omega

theorem toU32_lt (x : Int) : toU32 x < 4294967296 := by
  unfold toU32
  omega

theorem toU32_of_nonneg (x : Int) (h0 : 0 ≤ x) (h1 : x < 4294967296) :
    toU32 x = x.toNat := by
  unfold toU32
  omega

theorem and32_pow_two (a b : Int) (hb0 : 0 < b) (hb1 : b ≤ 2147483647)
    (h : and32 b (wrap32 (b - 1)) = 0) :
    and32 a (wrap32 (b - 1)) = a % b := by
  have hw : wrap32 (b - 1) = b - 1 := wrap32_of_range _ (by omega) (by omega)
  rw [hw] at h ⊢
  have u1 : toU32 b = b.toNat := toU32_of_nonneg b (by omega) (by omega)
  have u2 : toU32 (b - 1) = b.toNat - 1 := by
    rw [toU32_of_nonneg (b - 1) (by omega) (by omega)]
    omega
  unfold and32 at h ⊢
  rw [u1, u2] at h
  rw [u2]
  have hle : b.toNat &&& (b.toNat - 1) ≤ b.toNat := Nat.and_le_left
  have h0 : b.toNat &&& (b.toNat - 1) = 0 := by
    unfold wrap32 at h
    omega
  obtain ⟨k, hk⟩ := pow_two_of_and_pred b.toNat (by omega) h0
  rw [hk, Nat.and_pow_two_sub_one_eq_mod, ← hk]
  have hb : ((b.toNat : Nat) : Int) = b := Int.toNat_of_nonneg (by omega)
  have hk32 : b.toNat ∣ 4294967296 := by
    rw [hk]
    have hk2 : k ≤ 32 := by
      by_contra hc
      have h3 : 2 ^ 32 ≤ 2 ^ k := Nat.pow_le_pow_right (by norm_num) (by omega)
      have h4 : (2 : Nat) ^ 32 = 4294967296 := by norm_num
      omega
    have h5 : (4294967296 : Nat) = 2 ^ 32 := by norm_num
    rw [h5]
    exact pow_dvd_pow 2 hk2
  have hm : ((toU32 a % b.toNat : Nat) : Int) = a % b := by
    unfold toU32
    rw [Int.natCast_mod, hb, Int.toNat_of_nonneg (Int.emod_nonneg _ (by norm_num))]
    apply Int.emod_emod_of_dvd
    obtain ⟨c, hc⟩ := hk32
    exact ⟨c, by rw [← hb]; exact_mod_cast hc⟩
  rw [hm]
  apply wrap32_of_range
  · have := Int.emod_nonneg a (show b ≠ 0 by omega)
    omega
  · have := Int.emod_lt_of_pos a hb0
    omega

/-- C22: for every `a` (in particular every 32-bit `a`) and every 32-bit
`b > 0`, `FixedMod a b` returns a value `r` with `0 ≤ r < b` and `r` congruent
to `a` modulo `b`; on the general path (`b & (b-1)` not zero) `r` is `a % b`
of C, with `b` added when it is negative, and on the power-of-two path `r` is
`a & (b-1)`. -/
theorem C22_FixedMod_range (a b : Int) (hb0 : 0 < b) (hb1 : b ≤ INT_MAX) :
    ∃ r, FixedMod a b = some r ∧ 0 ≤ r ∧ r < b ∧ r % b = a % b ∧
      (and32 b (wrap32 (b - 1)) ≠ 0 →
        r = if Int.tmod a b < 0 then Int.tmod a b + b else Int.tmod a b) ∧
      (and32 b (wrap32 (b - 1)) = 0 → r = and32 a (wrap32 (b - 1))) := by
  unfold INT_MAX at hb1
  have hlt := Int.tmod_lt_of_pos a hb0
  have hdef := Int.tmod_def a b
  have hgt : -b < Int.tmod a b := by
    have h1 := Int.tmod_lt_of_pos (-a) hb0
    have h2 := Int.tmod_def (-a) b
    rw [Int.neg_tdiv] at h2
    have h3 : b * -a.tdiv b = -(b * a.tdiv b) := by ring
    omega
  by_cases hc : and32 b (wrap32 (b - 1)) = 0
  · refine ⟨a % b, ?_, Int.emod_nonneg a (by omega), Int.emod_lt_of_pos a hb0,
      Int.emod_emod_of_dvd a (dvd_refl b), fun h => absurd hc h,
      fun _ => (and32_pow_two a b hb0 hb1 hc).symm⟩
    unfold FixedMod
    rw [if_neg (not_not.mpr hc), and32_pow_two a b hb0 hb1 hc]
  · have hnb : ¬ (a = INT_MIN ∧ b = -1) := by omega
    by_cases hr : Int.tmod a b < 0
    · refine ⟨Int.tmod a b + b, ?_, by omega, by omega, ?_, fun _ => by rw [if_pos hr],
        fun h => absurd h hc⟩
      · unfold FixedMod
        rw [if_pos hc, if_neg hnb]
        simp only [hr, if_true]
        rw [wrap32_of_range _ (by omega) (by omega)]
      · rw [hdef]
        have : a - b * a.tdiv b + b = a + b * (1 - a.tdiv b) := by ring
        rw [this, Int.add_mul_emod_self_left]
    · refine ⟨Int.tmod a b, ?_, by omega, by omega, ?_, fun _ => by rw [if_neg hr],
        fun h => absurd h hc⟩
      · unfold FixedMod
        rw [if_pos hc, if_neg hnb]
        simp only [hr, if_false]
      · rw [hdef]
        have : a - b * a.tdiv b = a + b * (- a.tdiv b) := by ring
        rw [this, Int.add_mul_emod_self_left]

/-- C22 on `a = -7`: with `b = 3` (general path) the result is 2, and with
`b = 4` (power-of-two path) the result is 1. -/
theorem C22_FixedMod_range_witness :
    (0 : Int) < 3 ∧ (3 : Int) ≤ INT_MAX ∧ FixedMod (-7) 3 = some 2 ∧
    FixedMod (-7) 4 = some 1 ∧
    (∃ r, FixedMod (-7) 3 = some r ∧ 0 ≤ r ∧ r < 3 ∧ r % 3 = (-7) % 3 ∧
      (and32 3 (wrap32 (3 - 1)) ≠ 0 →
        r = if Int.tmod (-7) 3 < 0 then Int.tmod (-7) 3 + 3 else Int.tmod (-7) 3) ∧
      (and32 3 (wrap32 (3 - 1)) = 0 → r = and32 (-7) (wrap32 (3 - 1)))) ∧
    ∃ r, FixedMod (-7) 4 = some r ∧ 0 ≤ r ∧ r < 4 ∧ r % 4 = (-7) % 4 ∧
      (and32 4 (wrap32 (4 - 1)) ≠ 0 →
        r = if Int.tmod (-7) 4 < 0 then Int.tmod (-7) 4 + 4 else Int.tmod (-7) 4) ∧
      (and32 4 (wrap32 (4 - 1)) = 0 → r = and32 (-7) (wrap32 (4 - 1))) :=
  ⟨by decide, by decide, by decide, by decide,
    C22_FixedMod_range (-7) 3 (by decide) (by decide),
    C22_FixedMod_range (-7) 4 (by decide) (by decide)⟩

theorem wrap64_of_range (x : Int) (h1 : -9223372036854775808 ≤ x)
    (h2 : x ≤ 9223372036854775807) : wrap64 x = x := by
  unfold wrap64
  omega

theorem abs32_eq (x : Int) (h1 : INT_MIN < x) (h2 : x ≤ INT_MAX) :
    abs32 x = (x.natAbs : Int) := by
  unfold INT_MIN at h1
  unfold INT_MAX at h2
  unfold abs32
  split
  · rw [wrap32_of_range _ (by omega) (by omega)]
    omega
  · rw [wrap32_of_range _ (by omega) (by omega)]
    omega

theorem testBit_31 (n : Nat) (h : n < 4294967296) :
    n.testBit 31 = decide (2147483648 ≤ n) := by
  rw [Nat.testBit_to_div_mod]
  have h2 : (2 : Nat) ^ 31 = 2147483648 := by norm_num
  rw [h2]
  congr 1
  apply propext
  omega

theorem toU32_sign (x : Int) (h1 : INT_MIN ≤ x) (h2 : x ≤ INT_MAX) :
    2147483648 ≤ toU32 x ↔ x < 0 := by
  unfold INT_MIN at h1
  unfold INT_MAX at h2
  unfold toU32
  omega

theorem xor32_sign (a b : Int) (ha1 : INT_MIN ≤ a) (ha2 : a ≤ INT_MAX)
    (hb1 : INT_MIN ≤ b) (hb2 : b ≤ INT_MAX) :
    xor32 a b < 0 ↔ (a < 0 ↔ ¬ b < 0) := by
  have hx : toU32 a ^^^ toU32 b < 4294967296 := by
    have h := @Nat.xor_lt_two_pow (toU32 a) (toU32 b) 32
      (by have := toU32_lt a; norm_num; exact this) (by have := toU32_lt b; norm_num; exact this)
    norm_num at h
    exact h
  have h1 : xor32 a b < 0 ↔ 2147483648 ≤ toU32 a ^^^ toU32 b := by
    unfold xor32 wrap32
    omega
  have h2 := testBit_31 _ hx
  rw [Nat.testBit_xor, testBit_31 _ (toU32_lt a), testBit_31 _ (toU32_lt b)] at h2
  rw [h1, ← toU32_sign a ha1 ha2, ← toU32_sign b hb1 hb2]
  by_cases p : 2147483648 ≤ toU32 a <;> by_cases q : 2147483648 ≤ toU32 b <;>
    simp [p, q] at h2 ⊢ <;> omega

/-- C30: for all 32-bit `a` and `b` other than `INT_MIN`, `abs` is the
absolute value and `a ^ b` is negative exactly when the signs differ; when
`(abs(a) >> 14) >= abs(b)`, which is the case whenever `b = 0`, `FixedDiv`
returns `INT_MIN` when `a ^ b` is negative and `INT_MAX` otherwise; in every
other case `b ≠ 0`, the division is made, and the result is the truncated
quotient `(a * 65536) / b`, which lies in the range of a 32-bit `int`
(`FRACBITS` being 16). -/
theorem C30_FixedDiv_safe (a b : Int) (ha1 : INT_MIN < a) (ha2 : a ≤ INT_MAX)
    (hb1 : INT_MIN < b) (hb2 : b ≤ INT_MAX) :
    (abs32 a = (a.natAbs : Int) ∧ abs32 b = (b.natAbs : Int)) ∧
    (xor32 a b < 0 ↔ (a < 0 ↔ ¬ b < 0)) ∧
    (b = 0 → abs32 b ≤ abs32 a / 16384) ∧
    (abs32 b ≤ abs32 a / 16384 →
      FixedDiv 16 a b = some (if xor32 a b < 0 then INT_MIN else INT_MAX)) ∧
    (¬ abs32 b ≤ abs32 a / 16384 →
      b ≠ 0 ∧ FixedDiv 16 a b = some (Int.tdiv (a * 65536) b) ∧
      INT_MIN ≤ Int.tdiv (a * 65536) b ∧ Int.tdiv (a * 65536) b ≤ INT_MAX) := by
  have ea := abs32_eq a ha1 ha2
  have eb := abs32_eq b hb1 hb2
  have hs := xor32_sign a b (le_of_lt ha1) ha2 (le_of_lt hb1) hb2
  unfold INT_MIN at ha1 hb1
  unfold INT_MAX at ha2 hb2
  refine ⟨⟨ea, eb⟩, hs, ?_, ?_, ?_⟩
  · intro h0
    rw [ea, eb, h0]
    simp only [Int.natAbs_zero, Nat.cast_zero]
    omega
  · intro h
    unfold FixedDiv
    rw [if_pos h]
  · intro h
    have hb0 : b ≠ 0 := by
      intro h0
      apply h
      rw [ea, eb, h0]
      simp only [Int.natAbs_zero, Nat.cast_zero]
      omega
    rw [ea, eb] at h
    have hlt : a.natAbs < 16384 * b.natAbs := by omega
    have hq : (Int.tdiv (a * 65536) b).natAbs < 1073741824 := by
      rw [Int.natAbs_tdiv, Int.natAbs_mul]
      apply Nat.div_lt_of_lt_mul
      have : (65536 : Int).natAbs = 65536 := rfl
      rw [this]
      omega
    have hp : (2 : Int) ^ 16 = 65536 := by norm_num
    refine ⟨hb0, ?_, by unfold INT_MIN; omega, by unfold INT_MAX; omega⟩
    unfold FixedDiv
    rw [if_neg (by rw [ea, eb]; exact h), if_neg hb0]
    simp only [hp]
    rw [wrap64_of_range (a * 65536) (by omega) (by omega),
      wrap64_of_range _ (by omega) (by omega), wrap32_of_range _ (by omega) (by omega)]

/-- C30 on `-3.0 / 2.0`: the division is made and gives `-1.5`; and on
`-1.0 / 0` the result is `INT_MIN`. -/
theorem C30_FixedDiv_safe_witness :
    INT_MIN < -196608 ∧ (-196608 : Int) ≤ INT_MAX ∧ INT_MIN < 131072 ∧
    (131072 : Int) ≤ INT_MAX ∧ ¬ abs32 131072 ≤ abs32 (-196608) / 16384 ∧
    Int.tdiv (-196608 * 65536) 131072 = -98304 ∧
    ((131072 : Int) ≠ 0 ∧
      FixedDiv 16 (-196608) 131072 = some (Int.tdiv (-196608 * 65536) 131072) ∧
      INT_MIN ≤ Int.tdiv (-196608 * 65536) 131072 ∧
      Int.tdiv (-196608 * 65536) 131072 ≤ INT_MAX) ∧
    FixedDiv 16 (-65536) 0 = some (if xor32 (-65536) 0 < 0 then INT_MIN else INT_MAX) :=
  ⟨by decide, by decide, by decide, by decide, by decide, by decide,
    (C30_FixedDiv_safe (-196608) 131072 (by decide) (by decide) (by decide)
      (by decide)).2.2.2.2 (by decide),
    (C30_FixedDiv_safe (-65536) 0 (by decide) (by decide) (by decide)
      (by decide)).2.2.2.1 (by decide)⟩

/-! ## The next highest floor -/

theorem mem_higher_floors (L : Level) (sec : Nat) (c : Int) :
    ∀ (n : Nat) (x : Int), x ∈ higher_floors L sec c n ↔
      ∃ i : Nat, i < n ∧ ∃ other, getNextSector L ((L.sectors sec).lines i) sec = some other ∧
        (L.sectors other).floorheight = x ∧ c < x := by
  intro n
  induction n with
  | zero => intro x; simp [higher_floors]
  | succ n ih =>
    intro x
    have key : ∀ (P : Nat → Prop), (∃ i, i < n + 1 ∧ P i) ↔ ((∃ i, i < n ∧ P i) ∨ P n) := by
      intro P
      constructor
      · rintro ⟨i, hi, hp⟩
        by_cases h : i = n
        · subst h; exact Or.inr hp
        · exact Or.inl ⟨i, by omega, hp⟩
      · rintro (⟨i, hi, hp⟩ | hp)
        · exact ⟨i, by omega, hp⟩
        · exact ⟨n, by omega, hp⟩
    rw [key, ← ih x]
    simp only [higher_floors]
    cases hg : getNextSector L ((L.sectors sec).lines n) sec with
    | none => simp
    | some other =>
      simp only [Option.some.injEq, exists_eq_left']
      by_cases hc : c < (L.sectors other).floorheight
      · simp only [hc, if_true, List.mem_append, List.mem_singleton]
        constructor
        · rintro (h | h)
          · exact Or.inl h
          · exact Or.inr ⟨h.symm, by rw [h]; exact hc⟩
        · rintro (h | ⟨h, -⟩)
          · exact Or.inl h
          · exact Or.inr h.symm
      · simp only [hc, if_false]
        constructor
        · exact Or.inl
        · rintro (h | ⟨h, h2⟩)
          · exact h
          · rw [h] at hc; exact absurd h2 hc

theorem higher_floors_mono (L : Level) (sec : Nat) (c : Int) (n : Nat) :
    (higher_floors L sec c n).length ≤ (higher_floors L sec c (n + 1)).length := by
  simp only [higher_floors]
  split
  · exact le_refl _
  · split
    · simp
    · exact le_refl _

theorem higher_floors_le (L : Level) (sec : Nat) (c : Int) (n k : Nat) :
    (higher_floors L sec c n).length ≤ (higher_floors L sec c (n + k)).length := by
  induction k with
  | zero => exact le_refl _
  | succ k ih => exact le_trans ih (higher_floors_mono L sec c (n + k))

theorem P_FindNextHighestFloor_scan_spec (L : Level) (sec : Nat) (c : Int)
    (hl0 : Int → Int) :
    ∀ n : Nat, (higher_floors L sec c n).length ≤ 22 →
      (P_FindNextHighestFloor_scan L sec n ⟨c, 0, hl0⟩).h
        = ((higher_floors L sec c n).length : Int) ∧
      (∀ i : Nat, i < (higher_floors L sec c n).length →
        (P_FindNextHighestFloor_scan L sec n ⟨c, 0, hl0⟩).heightlist (i : Int)
          = (higher_floors L sec c n).getD i 0) ∧
      c ≤ (P_FindNextHighestFloor_scan L sec n ⟨c, 0, hl0⟩).height ∧
      ((higher_floors L sec c n).length ≤ 21 →
        (P_FindNextHighestFloor_scan L sec n ⟨c, 0, hl0⟩).height = c) := by
  intro n
  induction n with
  | zero =>
    intro _
    simp [P_FindNextHighestFloor_scan, higher_floors]
  | succ n ih =>
    intro hlen
    obtain ⟨i1, i2, i3, i4⟩ := ih (le_trans (higher_floors_mono L sec c n) hlen)
    simp only [P_FindNextHighestFloor_scan, P_FindNextHighestFloor_body]
    simp only [higher_floors] at hlen ⊢
    generalize P_FindNextHighestFloor_scan L sec n ⟨c, 0, hl0⟩ = st at i1 i2 i3 i4
    generalize higher_floors L sec c n = H at i1 i2 i3 i4 hlen
    cases hg : getNextSector L ((L.sectors sec).lines n) sec with
    | none => exact ⟨i1, i2, i3, i4⟩
    | some other =>
      simp only [hg] at hlen
      simp only
      by_cases hc : c < (L.sectors other).floorheight
      · simp only [hc, if_true, List.length_append, List.length_singleton] at hlen ⊢
        have hh := i4 (by omega)
        have hgt : (L.sectors other).floorheight > st.height := by rw [hh]; exact hc
        simp only [hgt, if_true]
        refine ⟨by rw [i1]; push_cast; rfl, ?_, ?_, ?_⟩
        · intro i hi
          by_cases hi2 : i < H.length
          · rw [arr_set_ne _ _ _ _ (by rw [i1]; omega), i2 i hi2,
              List.getD_append _ _ _ _ hi2]
          · have : i = H.length := by omega
            subst this
            rw [← i1, arr_set_same, List.getD_append_right _ _ _ _ (le_refl _)]
            simp
        · split
          · omega
          · exact i3
        · intro h21
          rw [if_neg (by rw [i1]; unfold MAX_ADJOINING_SECTORS; omega)]
          exact hh
      · simp only [hc, if_false] at hlen ⊢
        have hng : ¬ (L.sectors other).floorheight > st.height := by omega
        simp only [hng, if_false]
        exact ⟨i1, i2, i3, i4⟩

theorem P_FindNextHighestFloor_min_spec (hl : Int → Int) :
    ∀ k : Nat, (∃ j : Nat, j ≤ k ∧ P_FindNextHighestFloor_min hl k = hl (j : Int)) ∧
      ∀ j : Nat, j ≤ k → P_FindNextHighestFloor_min hl k ≤ hl (j : Int) := by
  intro k
  induction k with
  | zero =>
    refine ⟨⟨0, le_refl _, rfl⟩, ?_⟩
    intro j hj
    have : j = 0 := by omega
    subst this
    exact le_refl _
  | succ k ih =>
    obtain ⟨⟨j0, hj0, e0⟩, hmin⟩ := ih
    simp only [P_FindNextHighestFloor_min]
    split
    · rename_i hlt
      refine ⟨⟨k + 1, le_refl _, by push_cast; rfl⟩, ?_⟩
      intro j hj
      by_cases h : j = k + 1
      · subst h; push_cast; exact le_refl _
      · have := hmin j (by omega)
        omega
    · rename_i hge
      refine ⟨⟨j0, by omega, e0⟩, ?_⟩
      intro j hj
      by_cases h : j = k + 1
      · subst h; push_cast; omega
      · exact hmin j (by omega)

set_option maxRecDepth 100000 in
/-- C28, as stated, fails: sector 0 of `demoFloors 21` has 23 two-sided lines,
21 to a floor of height 100, then one to a floor of height 200, then one to a
floor of height 50.  With `currentheight = 0` the function returns 100, while
the adjoining floor of height 50, across line 22, is higher than 0 and
smaller. -/
theorem C28_next_highest_floor_counterexample :
    P_FindNextHighestFloor (demoFloors 21) (fun _ => 0) 0 0 = 100 ∧
    ((demoFloors 21).sectors 0).linecount = 23 ∧
    getNextSector (demoFloors 21) (((demoFloors 21).sectors 0).lines 22) 0 = some 3 ∧
    ((demoFloors 21).sectors 3).floorheight = 50 ∧
    (higher_floors (demoFloors 21) 0 0 23).length = 23 := by
  decide

/-- C28, amended: when at most `MAX_ADJOINING_SECTORS + 2 = 22` of the lines
of the sector lead, across a two-sided line, to a floor strictly higher than
`currentheight`, `P_FindNextHighestFloor` returns the smallest of these floor
heights, and `currentheight` when there is none, whatever the contents of the
static buffer on entry.  (From the 22nd such floor on, `height` is no longer
`currentheight` but the height of that floor, and lower floors found after it
are not recorded.) -/
theorem C28_next_highest_floor_amended (L : Level) (heightlist : Int → Int) (sec : Nat)
    (currentheight : Int)
    (hc : ((higher_floors L sec currentheight (L.sectors sec).linecount.toNat).length : Int)
      ≤ MAX_ADJOINING_SECTORS + 2) :
    (∀ x : Int, x ∈ higher_floors L sec currentheight (L.sectors sec).linecount.toNat ↔
      ∃ i : Nat, (i : Int) < (L.sectors sec).linecount ∧
        ∃ other, getNextSector L ((L.sectors sec).lines i) sec = some other ∧
          (L.sectors other).floorheight = x ∧ currentheight < x) ∧
    (higher_floors L sec currentheight (L.sectors sec).linecount.toNat = [] →
      P_FindNextHighestFloor L heightlist sec currentheight = currentheight) ∧
    (higher_floors L sec currentheight (L.sectors sec).linecount.toNat ≠ [] →
      P_FindNextHighestFloor L heightlist sec currentheight
        ∈ higher_floors L sec currentheight (L.sectors sec).linecount.toNat ∧
      ∀ x ∈ higher_floors L sec currentheight (L.sectors sec).linecount.toNat,
        P_FindNextHighestFloor L heightlist sec currentheight ≤ x) := by
  unfold MAX_ADJOINING_SECTORS at hc
  obtain ⟨s1, s2, -, -⟩ := P_FindNextHighestFloor_scan_spec L sec currentheight heightlist
    (L.sectors sec).linecount.toNat (by omega)
  refine ⟨?_, ?_, ?_⟩
  · intro x
    rw [mem_higher_floors]
    constructor
    · rintro ⟨i, hi, h⟩
      exact ⟨i, by omega, h⟩
    · rintro ⟨i, hi, h⟩
      exact ⟨i, by omega, h⟩
  · intro he
    unfold P_FindNextHighestFloor
    simp only
    rw [he] at s1
    rw [if_pos (by simpa using s1)]
  · intro hne
    have hpos : 0 < (higher_floors L sec currentheight (L.sectors sec).linecount.toNat).length :=
      List.length_pos.mpr hne
    unfold P_FindNextHighestFloor
    simp only
    rw [if_neg (by rw [s1]; omega)]
    generalize P_FindNextHighestFloor_scan L sec (L.sectors sec).linecount.toNat
      ⟨currentheight, 0, heightlist⟩ = st at s1 s2
    generalize higher_floors L sec currentheight (L.sectors sec).linecount.toNat = H
      at s1 s2 hpos
    obtain ⟨⟨j, hj, ej⟩, hmin⟩ := P_FindNextHighestFloor_min_spec st.heightlist (st.h - 1).toNat
    have hk : (st.h - 1).toNat = H.length - 1 := by rw [s1]; omega
    rw [hk] at hj hmin ej ⊢
    constructor
    · rw [ej, s2 j (by omega), List.getD_eq_getElem _ _ (by omega)]
      exact List.getElem_mem _
    · intro x hx
      obtain ⟨i, hi, rfl⟩ := List.getElem_of_mem hx
      have := hmin i (by omega)
      rw [s2 i hi, List.getD_eq_getElem _ _ hi] at this
      exact this

/-- The amended C28 on sector 0 of `demoFloors 1`, which has three adjoining
floors, of heights 100, 200 and 50: above 0 the next floor is 50, and above
60 it is 100. -/
theorem C28_next_highest_floor_amended_witness :
    ((higher_floors (demoFloors 1) 0 60
        ((demoFloors 1).sectors 0).linecount.toNat).length : Int)
      ≤ MAX_ADJOINING_SECTORS + 2 ∧
    higher_floors (demoFloors 1) 0 60 ((demoFloors 1).sectors 0).linecount.toNat ≠ [] ∧
    P_FindNextHighestFloor (demoFloors 1) (fun _ => 0) 0 60 = 100 ∧
    P_FindNextHighestFloor (demoFloors 1) (fun _ => 0) 0 0 = 50 ∧
    (P_FindNextHighestFloor (demoFloors 1) (fun _ => 0) 0 60
        ∈ higher_floors (demoFloors 1) 0 60 ((demoFloors 1).sectors 0).linecount.toNat ∧
      ∀ x ∈ higher_floors (demoFloors 1) 0 60 ((demoFloors 1).sectors 0).linecount.toNat,
        P_FindNextHighestFloor (demoFloors 1) (fun _ => 0) 0 60 ≤ x) :=
  ⟨by decide, by decide, by decide, by decide,
    (C28_next_highest_floor_amended (demoFloors 1) (fun _ => 0) 0 60 (by decide)).2.2
      (by decide)⟩

end DLoop
